import Mathlib

/-!
# WaterWall: HalfDuplexServer upstream handlers

A shallow embedding of `tunnels/HalfDuplexServer/upstream/payload.c` and
`tunnels/HalfDuplexServer/upstream/fin.c`.

* A buffer (`sbuf_t`) is the list of its bytes between the cursor and the end.
* A line (`line_t *`) is a natural number; `NULL` is `none`.
* A `halfduplexserver_lstate_t *` is identified with the line that owns the
  state slot, so the two hash maps send a hash to a line.
* Calls that leave the tunnel (next / previous tunnel, buffer pool, line pool,
  worker messages) are recorded, in program order, as a list of `Ev`.
* What the surroundings answer during one call (`getWID()`, the line returned
  by `lineCreate`, `lineIsAlive(main_line)` after `tunnelNextUpStreamInit`) is
  the `Env` argument of the handler.
* A failed `assert`, a `NULL` dereference, `exit(1)` and a cursor shift past
  the end of a buffer are `Fault`s.
-/

namespace HalfDuplexServer

/-- Bytes of a buffer, front first. -/
abbrev sbuf_t := List Nat

/-- A line handle. -/
abbrev line_t := Nat

/-- The rendezvous identifier (`uint64_t`). -/
abbrev hash_t := Nat

/-- A worker id. -/
abbrev wid_t := Nat

/-- States of a half-duplex line, as switched on in `payload.c` and `fin.c`. -/
inductive connection_state where
  | kCsUnkown
  | kCsUploadInTable
  | kCsDownloadInTable
  | kCsUploadDirect
  | kCsDownloadDirect
  deriving DecidableEq, Repr

open connection_state

/-- Line state of the tunnel: the fields the two handlers read and write. -/
structure halfduplexserver_lstate_t where
  state : connection_state
  hash : hash_t
  buffering : Option sbuf_t
  upload_line : Option line_t
  download_line : Option line_t
  main_line : Option line_t
  deriving DecidableEq, Repr

/-- Tunnel state: the two pairing maps (their mutexes are not modelled, every
handler runs to completion). -/
structure halfduplexserver_tstate_t where
  upload_line_map : hash_t → Option line_t
  download_line_map : hash_t → Option line_t

/-- Everything the handlers can see: the tunnel state, the state slot of each
line and the worker each line is pinned to. -/
structure World where
  tunnelGetState : halfduplexserver_tstate_t
  lineGetState : line_t → halfduplexserver_lstate_t
  lineGetWID : line_t → wid_t

/-- Which tunnel a call is made on: `t` itself or `t->prev`. -/
inductive tunnel_t where
  | t
  | t_prev
  deriving DecidableEq, Repr

/-- Calls that leave the handlers, in program order. -/
inductive Ev where
  | tunnelNextUpStreamInit (l : line_t)
  | tunnelNextUpStreamPayload (tun : tunnel_t) (l : line_t) (buf : sbuf_t)
  | tunnelNextUpStreamFinish (l : line_t)
  | tunnelPrevDownStreamFinish (l : line_t)
  | bufferpoolReuseBuffer (pool_of : line_t) (buf : Option sbuf_t)
  | lineCreate (l : line_t)
  | lineDestroy (l : Option line_t)
  | lineLock (l : line_t)
  | lineUnlock (l : line_t)
  | linestateInitialize (owner : line_t)
  | linestateDestroy (owner : line_t)
  | pipeTo (l : line_t) (wid : wid_t)
  | sendWorkerMessageForceQueue (wid : wid_t) (l : line_t)
  | LOGW
  deriving DecidableEq, Repr

/-- Ways a handler stops without returning. -/
inductive Fault where
  | assertFailed
  | nullDeref
  | exit1
  | shiftPastEnd
  deriving DecidableEq, Repr

/-- Answers of the surroundings during one call of the payload handler. -/
structure Env where
  getWID : wid_t
  lineCreate : line_t
  lineIsAlive : Bool

/-- Modelled from the spec: the enum holding `kHLFDCmdDownload` is not under
src/; the direction bit is the most significant bit of byte 0. -/
def kHLFDCmdDownload : Nat := 0x80

/-- Modelled from the spec: the enum holding `kHLFDCmdUpload` is not under
src/; it is the mask that clears the direction bit of byte 0. -/
def kHLFDCmdUpload : Nat := 0x7F

/-- Modelled from the spec: `sbufConcat` is not under src/; step 1 of the
Unknown handler concatenates the stored bytes with the new ones. -/
def sbufConcat (a b : sbuf_t) : sbuf_t := a ++ b

/-- Modelled from the spec: `sbufGetLength` is not under src/; the number of
bytes present. -/
def sbufGetLength (b : sbuf_t) : Nat := b.length

/-- Modelled from the spec: `sbufShiftRight` is not under src/; it moves the
cursor `bytes` forward, which strips that many bytes from the front. Moving
past the end is a fault. -/
def sbufShiftRight (b : sbuf_t) (bytes : Nat) : Except Fault sbuf_t :=
  if bytes ≤ b.length then .ok (b.drop bytes) else .error .shiftPastEnd

/-- Modelled from the spec: `sbufReadUnAlignedUI64` is not under src/; the
first eight bytes read as an unaligned little-endian 64-bit value. -/
def sbufReadUnAlignedUI64 (b : sbuf_t) : hash_t :=
  (b.take 8).foldr (fun x acc => x % 256 + 256 * acc) 0

/-- Read of `((uint8_t *) sbufGetRawPtr(buf))[0]`. -/
def sbufByte0 (b : sbuf_t) : Nat := b.headD 0

/-- Write of `((uint8_t *) sbufGetMutablePtr(buf))[0] = v`. -/
def sbufSetByte0 (b : sbuf_t) (v : Nat) : sbuf_t := b.set 0 v

/-- Modelled from the spec: `halfduplexserverLinestateInitialize` is not
under src/; a line state starts in `Unknown` with no buffer and no
cross-reference. -/
def halfduplexserverLinestateInitialize : halfduplexserver_lstate_t :=
  { state := kCsUnkown, hash := 0, buffering := none,
    upload_line := none, download_line := none, main_line := none }

/-- Modelled from the spec: `halfduplexserverLinestateDestroy` is not under
src/; a released line state is a cleared slot, which a later payload finds in
`Unknown` again. -/
def halfduplexserverLinestateDestroy (_ls : halfduplexserver_lstate_t) :
    halfduplexserver_lstate_t :=
  { state := kCsUnkown, hash := 0, buffering := none,
    upload_line := none, download_line := none, main_line := none }

/-- `hmap_cons_t_find`: the entry stored under `h`, if any. -/
def hmap_cons_t_find (m : hash_t → Option line_t) (h : hash_t) : Option line_t := m h

/-- `hmap_cons_t_erase_at` at the iterator found for `h`. -/
def hmap_cons_t_erase_at (m : hash_t → Option line_t) (h : hash_t) :
    hash_t → Option line_t :=
  Function.update m h none

/-- `hmap_cons_t_insert`: stores the entry unless the key is present; the
second component is `.inserted`. -/
def hmap_cons_t_insert (m : hash_t → Option line_t) (h : hash_t) (v : line_t) :
    (hash_t → Option line_t) × Bool :=
  match m h with
  | some _ => (m, false)
  | none => (Function.update m h (some v), true)

/-- Write through a `halfduplexserver_lstate_t *`. -/
def World.modLs (w : World) (l : line_t)
    (f : halfduplexserver_lstate_t → halfduplexserver_lstate_t) : World :=
  { w with lineGetState := Function.update w.lineGetState l (f (w.lineGetState l)) }

/-- The world after `halfduplexserverLinestateDestroy(lineGetState(l, t))`. -/
def World.destroyLs (w : World) (l : line_t) : World :=
  w.modLs l halfduplexserverLinestateDestroy

/-- Replace the tunnel state. -/
def World.setTs (w : World) (ts : halfduplexserver_tstate_t) : World :=
  { w with tunnelGetState := ts }

/-- Pin line `l` to worker `wid` (the second argument of `lineCreate`). -/
def World.setWID (w : World) (l : line_t) (wid : wid_t) : World :=
  { w with lineGetWID := Function.update w.lineGetWID l wid }

/-- The world in which the branches of payload.c lines 35-228 start: the
stored bytes were taken out of the line state (lines 15-20) and the hash was
written (line 33). -/
def World.withHeader (w : World) (l : line_t) (hash : hash_t) : World :=
  (w.modLs l (fun s => { s with buffering := none })).modLs l
    (fun s => { s with hash := hash })

/-- Result of a handler: the world it leaves and the calls it made. -/
abbrev Outcome := Except Fault (World × List Ev)

/-- payload.c lines 64-92: the rest of the splice when an upload line `l`
found the waiting download state `d` on its own worker. -/
def spliceUploadArrived (env : Env) (w : World) (l d download_line : line_t)
    (buf : sbuf_t) : Outcome :=
  let main_line := env.lineCreate
  let w := w.setWID main_line (w.lineGetWID l)
  let w := w.modLs d (fun s => { s with main_line := some main_line })
  let w := w.modLs l (fun s => { s with main_line := some main_line })
  let w := w.modLs main_line (fun _ => halfduplexserverLinestateInitialize)
  let w := w.modLs main_line (fun s =>
    { s with upload_line := some l, download_line := some download_line,
             main_line := some main_line })
  let evs := [Ev.lineCreate main_line, Ev.linestateInitialize main_line,
    Ev.lineLock main_line, Ev.tunnelNextUpStreamInit main_line]
  if env.lineIsAlive = false then
    .ok (w, evs ++ [Ev.bufferpoolReuseBuffer l (some buf), Ev.lineUnlock main_line])
  else
    match sbufShiftRight buf 8 with
    | .error e => .error e
    | .ok buf =>
      if sbufGetLength buf > 0 then
        .ok (w, evs ++ [Ev.lineUnlock main_line,
          Ev.tunnelNextUpStreamPayload tunnel_t.t main_line buf])
      else
        .ok (w, evs ++ [Ev.lineUnlock main_line, Ev.bufferpoolReuseBuffer l (some buf)])

/-- payload.c lines 35-129: a line in `Unknown` whose header says upload. -/
def payloadUnknownUpload (env : Env) (w : World) (l : line_t) (buf : sbuf_t)
    (hash : hash_t) : Outcome :=
  let w := w.modLs l (fun s => { s with upload_line := some l })
  match hmap_cons_t_find w.tunnelGetState.download_line_map hash with
  | some d =>
    match (w.lineGetState d).download_line with
    | none => .error .nullDeref
    | some download_line =>
      let tid_download_line := w.lineGetWID download_line
      if tid_download_line = env.getWID then
        let w := w.modLs l (fun s => { s with download_line := some download_line })
        let w := w.setTs { w.tunnelGetState with
          download_line_map := hmap_cons_t_erase_at w.tunnelGetState.download_line_map hash }
        let w := w.modLs l (fun s => { s with state := kCsUploadDirect })
        if (w.lineGetState d).state ≠ kCsDownloadInTable then .error .assertFailed
        else
          let w := w.modLs d (fun s => { s with state := kCsDownloadDirect })
          let w := w.modLs d (fun s => { s with upload_line := some l })
          spliceUploadArrived env w l d download_line buf
      else
        let w := w.destroyLs l
        .ok (w, [Ev.linestateDestroy l, Ev.pipeTo l tid_download_line,
          Ev.tunnelNextUpStreamPayload tunnel_t.t_prev l buf])
  | none =>
    let w := w.modLs l (fun s => { s with state := kCsUploadInTable })
    let r := hmap_cons_t_insert w.tunnelGetState.upload_line_map hash l
    let w := w.setTs { w.tunnelGetState with upload_line_map := r.1 }
    if r.2 = false then
      let w := w.destroyLs l
      .ok (w, [Ev.LOGW, Ev.linestateDestroy l, Ev.bufferpoolReuseBuffer l (some buf),
        Ev.tunnelPrevDownStreamFinish l])
    else
      let w := w.modLs l (fun s => { s with buffering := some buf })
      .ok (w, [])

/-- payload.c lines 158-195: the rest of the splice when a download line `l`
found the waiting upload state `u` on its own worker. -/
def spliceDownloadArrived (env : Env) (w : World) (l u : line_t) : Outcome :=
  let main_line := env.lineCreate
  let w := w.setWID main_line (w.lineGetWID l)
  let w := w.modLs u (fun s => { s with main_line := some main_line })
  let w := w.modLs l (fun s => { s with main_line := some main_line })
  let w := w.modLs main_line (fun _ => halfduplexserverLinestateInitialize)
  let ls_upload_line := (w.lineGetState l).upload_line
  let w := w.modLs main_line (fun s =>
    { s with upload_line := ls_upload_line, download_line := some l,
             main_line := some main_line })
  let evs := [Ev.lineCreate main_line, Ev.linestateInitialize main_line,
    Ev.lineLock main_line, Ev.tunnelNextUpStreamInit main_line]
  if env.lineIsAlive = false then
    .ok (w, evs ++ [Ev.lineUnlock main_line])
  else
    match (w.lineGetState u).buffering with
    | none => .error .assertFailed
    | some buffering =>
      if sbufGetLength buffering > 0 then
        match sbufShiftRight buffering 8 with
        | .error e => .error e
        | .ok shifted =>
          let w := w.modLs u (fun s => { s with buffering := none })
          .ok (w, evs ++ [Ev.lineUnlock main_line,
            Ev.tunnelNextUpStreamPayload tunnel_t.t main_line shifted])
      else
        let w := w.modLs u (fun s => { s with buffering := none })
        .ok (w, evs ++ [Ev.lineUnlock main_line,
          Ev.bufferpoolReuseBuffer l (some buffering)])

/-- payload.c lines 130-228: a line in `Unknown` whose header says download. -/
def payloadUnknownDownload (env : Env) (w : World) (l : line_t) (buf : sbuf_t)
    (hash : hash_t) : Outcome :=
  let w := w.modLs l (fun s => { s with download_line := some l })
  match hmap_cons_t_find w.tunnelGetState.upload_line_map hash with
  | some u =>
    match (w.lineGetState u).upload_line with
    | none => .error .nullDeref
    | some upload_line =>
      let wid_upload_line := w.lineGetWID upload_line
      if wid_upload_line = env.getWID then
        let w := w.setTs { w.tunnelGetState with
          upload_line_map := hmap_cons_t_erase_at w.tunnelGetState.upload_line_map hash }
        let w := w.modLs l (fun s => { s with state := kCsDownloadDirect })
        let w := w.modLs l (fun s => { s with upload_line := (w.lineGetState u).upload_line })
        if (w.lineGetState u).state ≠ kCsUploadInTable then .error .assertFailed
        else
          let w := w.modLs u (fun s => { s with state := kCsUploadDirect })
          let w := w.modLs u (fun s => { s with download_line := some l })
          match spliceDownloadArrived env w l u with
          | .error e => .error e
          | .ok (w, evs) => .ok (w, Ev.bufferpoolReuseBuffer l (some buf) :: evs)
      else
        let w := w.destroyLs l
        .ok (w, [Ev.linestateDestroy l, Ev.pipeTo l wid_upload_line,
          Ev.tunnelNextUpStreamPayload tunnel_t.t_prev l buf])
  | none =>
    let w := w.modLs l (fun s => { s with state := kCsDownloadInTable })
    let r := hmap_cons_t_insert w.tunnelGetState.download_line_map hash l
    let w := w.setTs { w.tunnelGetState with download_line_map := r.1 }
    if r.2 = false then
      let w := w.destroyLs l
      .ok (w, [Ev.bufferpoolReuseBuffer l (some buf), Ev.LOGW, Ev.linestateDestroy l,
        Ev.tunnelPrevDownStreamFinish l])
    else
      .ok (w, [Ev.bufferpoolReuseBuffer l (some buf)])

/-- payload.c lines 15-20 and 235-242: the bytes at hand once a payload has
arrived, `sbufConcat(ls->buffering, buf)` when something is stored and `buf`
otherwise. -/
def pendingBytes (w : World) (l : line_t) (buf : sbuf_t) : sbuf_t :=
  match (w.lineGetState l).buffering with
  | some buffering => sbufConcat buffering buf
  | none => buf

/-- payload.c line 28: `is_upload`, the direction bit of byte 0 is clear. -/
def headerIsUpload (buf : sbuf_t) : Prop := (sbufByte0 buf &&& kHLFDCmdDownload) = 0

instance (buf : sbuf_t) : Decidable (headerIsUpload buf) := by
  unfold headerIsUpload
  infer_instance

/-- payload.c line 29: the buffer after the direction bit of byte 0 was
cleared in place. -/
def headerCleared (buf : sbuf_t) : sbuf_t :=
  sbufSetByte0 buf (sbufByte0 buf &&& kHLFDCmdUpload)

/-- payload.c lines 31-33: `hash`, read from the buffer after line 29. -/
def headerHash (buf : sbuf_t) : hash_t := sbufReadUnAlignedUI64 (headerCleared buf)

/-- The little-endian 64-bit value of eight bytes, written out. -/
def le64 (b0 b1 b2 b3 b4 b5 b6 b7 : Nat) : Nat :=
  b0 + 2 ^ 8 * b1 + 2 ^ 16 * b2 + 2 ^ 24 * b3 + 2 ^ 32 * b4 + 2 ^ 40 * b5 + 2 ^ 48 * b6 +
    2 ^ 56 * b7

/-- payload.c lines 13-231: a payload on a line in `Unknown`. -/
def payloadUnknown (env : Env) (w : World) (l : line_t) (buf : sbuf_t) : Outcome :=
  let buf := pendingBytes w l buf
  let w := w.modLs l (fun s => { s with buffering := none })
  if sbufGetLength buf < 8 then
    .ok (w.modLs l (fun s => { s with buffering := some buf }), [])
  else
    let is_upload := headerIsUpload buf
    let hash := headerHash buf
    let buf := headerCleared buf
    let w := w.modLs l (fun s => { s with hash := hash })
    if is_upload then payloadUnknownUpload env w l buf hash
    else payloadUnknownDownload env w l buf hash

/-- payload.c lines 234-248: a payload on a line in `UploadInTable`. -/
def payloadUploadInTable (kMaxBuffering : Nat) (w : World) (l : line_t) (buf : sbuf_t) :
    Outcome :=
  let buffering := pendingBytes w l buf
  let w := w.modLs l (fun s => { s with buffering := some buffering })
  if sbufGetLength buffering ≥ kMaxBuffering then
    .ok (w.modLs l (fun s => { s with buffering := none }),
      [Ev.bufferpoolReuseBuffer l (some buffering)])
  else
    .ok (w, [])

/-- The handler `halfduplexserverTunnelUpStreamPayload(t, l, buf)` of payload.c.
`kMaxBuffering` is a constant of the missing header and is taken as a
parameter. -/
def halfduplexserverTunnelUpStreamPayload (kMaxBuffering : Nat) (env : Env) (w : World)
    (l : line_t) (buf : sbuf_t) : Outcome :=
  match (w.lineGetState l).state with
  | kCsUnkown => payloadUnknown env w l buf
  | kCsUploadInTable => payloadUploadInTable kMaxBuffering w l buf
  | kCsUploadDirect =>
    match (w.lineGetState l).main_line with
    | some main_line => .ok (w, [Ev.tunnelNextUpStreamPayload tunnel_t.t main_line buf])
    | none => .ok (w, [Ev.bufferpoolReuseBuffer l (some buf)])
  | kCsDownloadDirect => .ok (w, [Ev.bufferpoolReuseBuffer l (w.lineGetState l).buffering])
  | kCsDownloadInTable => .ok (w, [Ev.bufferpoolReuseBuffer l (w.lineGetState l).buffering])

/-- The handler `localAsyncCloseLine(worker, t, l, NULL)` of fin.c. -/
def localAsyncCloseLine (w : World) (l : line_t) : World × List Ev :=
  (w.destroyLs l,
    [Ev.linestateDestroy l, Ev.tunnelPrevDownStreamFinish l, Ev.lineUnlock l])

/-- fin.c lines 79-87 and, word for word, 110-118: the main line of a
finishing `*Direct` line. `ls_main_line` is initialised with `ls`, so the state
destroyed at line 84 (115) is the one of `l`, and the argument of `lineDestroy`
at line 85 (116) is read from it afterwards. -/
def finishDirectMainLine (w : World) (l : line_t) : World × List Ev :=
  match (w.lineGetState l).main_line with
  | some main_line =>
    let w := w.destroyLs l
    let destroyed := (w.lineGetState l).main_line
    let w := w.modLs l (fun s => { s with main_line := none })
    (w, [Ev.tunnelNextUpStreamFinish main_line, Ev.linestateDestroy l,
      Ev.lineDestroy destroyed])
  | none => (w, [])

/-- fin.c lines 89-99: the upload side of a finishing download line. -/
def finishDownloadDirectPeer (w : World) (l : line_t) : World × List Ev :=
  match (w.lineGetState l).upload_line with
  | some upload_line =>
    let w := w.modLs upload_line (fun s => { s with main_line := none })
    let w := w.modLs upload_line (fun s => { s with download_line := none })
    (w, [Ev.lineLock upload_line,
      Ev.sendWorkerMessageForceQueue (w.lineGetWID upload_line) upload_line])
  | none => (w, [])

/-- fin.c lines 119-129: the download side of a finishing upload line;
`download_line` is read from the field `upload_line` (line 119). -/
def finishUploadDirectPeer (w : World) (l : line_t) : World × List Ev :=
  match (w.lineGetState l).upload_line with
  | some download_line =>
    let w := w.modLs download_line (fun s => { s with main_line := none })
    let w := w.modLs download_line (fun s => { s with upload_line := none })
    (w, [Ev.lineLock download_line,
      Ev.sendWorkerMessageForceQueue (w.lineGetWID download_line) download_line])
  | none => (w, [])

/-- fin.c lines 72-103: finish of a line in `DownloadDirect`. -/
def finishDownloadDirect (w : World) (l : line_t) : Outcome :=
  let w := w.modLs l (fun s => { s with download_line := none })
  let r := finishDirectMainLine w l
  let r2 := finishDownloadDirectPeer r.1 l
  .ok (r2.1.destroyLs l, r.2 ++ r2.2 ++ [Ev.linestateDestroy l])

/-- fin.c lines 105-135: finish of a line in `UploadDirect`. -/
def finishUploadDirect (w : World) (l : line_t) : Outcome :=
  let w := w.modLs l (fun s => { s with upload_line := none })
  let r := finishDirectMainLine w l
  let r2 := finishUploadDirectPeer r.1 l
  .ok (r2.1.destroyLs l, r.2 ++ r2.2 ++ [Ev.linestateDestroy l])

/-- The handler `halfduplexserverTunnelUpStreamFinish(t, l)` of fin.c. The
`default:` arm of the switch has no counterpart: the five states are all there
are. -/
def halfduplexserverTunnelUpStreamFinish (w : World) (l : line_t) : Outcome :=
  match (w.lineGetState l).state with
  | kCsUnkown =>
    let evs := match (w.lineGetState l).buffering with
      | some buffering => [Ev.bufferpoolReuseBuffer l (some buffering)]
      | none => []
    .ok (w.destroyLs l, evs ++ [Ev.linestateDestroy l])
  | kCsUploadInTable =>
    match hmap_cons_t_find w.tunnelGetState.upload_line_map (w.lineGetState l).hash with
    | none => .error .exit1
    | some _ =>
      let w1 := w.setTs { w.tunnelGetState with
        upload_line_map :=
          hmap_cons_t_erase_at w.tunnelGetState.upload_line_map (w.lineGetState l).hash }
      .ok (w1.destroyLs l,
        [Ev.bufferpoolReuseBuffer l (w.lineGetState l).buffering, Ev.linestateDestroy l])
  | kCsDownloadInTable =>
    match hmap_cons_t_find w.tunnelGetState.download_line_map (w.lineGetState l).hash with
    | none => .error .exit1
    | some _ =>
      let w1 := w.setTs { w.tunnelGetState with
        download_line_map :=
          hmap_cons_t_erase_at w.tunnelGetState.download_line_map (w.lineGetState l).hash }
      .ok (w1.destroyLs l, [Ev.linestateDestroy l])
  | kCsDownloadDirect => finishDownloadDirect w l
  | kCsUploadDirect => finishUploadDirect w l

/-- The world of a result, if the handler returned. -/
def Outcome.world (r : Outcome) : Option World :=
  match r with
  | .ok (w, _) => some w
  | .error _ => none

/-- The calls of a result, if the handler returned. -/
def Outcome.events (r : Outcome) : Option (List Ev) :=
  match r with
  | .ok (_, evs) => some evs
  | .error _ => none

/-- The fault of a result, if the handler did not return. -/
def Outcome.fault (r : Outcome) : Option Fault :=
  match r with
  | .ok _ => none
  | .error e => some e

/-- A world in which no line has shown a header yet: empty maps and cleared
state slots; `wid` pins each line to a worker. -/
def World.fresh (wid : line_t → wid_t) : World :=
  { tunnelGetState := { upload_line_map := fun _ => none, download_line_map := fun _ => none },
    lineGetState := fun _ => halfduplexserverLinestateInitialize,
    lineGetWID := wid }

/-- One call of a handler of the tunnel. -/
inductive Call where
  | payload (env : Env) (l : line_t) (buf : sbuf_t)
  | finish (l : line_t)

/-- The handler a call stands for. -/
def Call.run (kMaxBuffering : Nat) (w : World) : Call → Outcome
  | .payload env l buf => halfduplexserverTunnelUpStreamPayload kMaxBuffering env w l buf
  | .finish l => halfduplexserverTunnelUpStreamFinish w l

/-- Calls made one after the other, each run to completion; the first fault
stops the run. -/
def runCalls (kMaxBuffering : Nat) : World → List Call → Outcome
  | w, [] => .ok (w, [])
  | w, c :: cs =>
    match c.run kMaxBuffering w with
    | .error e => .error e
    | .ok (w1, evs1) =>
      match runCalls kMaxBuffering w1 cs with
      | .error e => .error e
      | .ok (w2, evs2) => .ok (w2, evs1 ++ evs2)

/-- The bytes handed to the next tunnel on line `m` by
`tunnelNextUpStreamPayload(t, m, buf)`, in call order. -/
def forwardedOn (m : line_t) : List Ev → sbuf_t
  | [] => []
  | Ev.tunnelNextUpStreamPayload tunnel_t.t l buf :: evs =>
    if l = m then buf ++ forwardedOn m evs else forwardedOn m evs
  | _ :: evs => forwardedOn m evs

/-- The buffers handed to the next tunnel on line `m`, one entry per call. -/
def forwardedBuffers (m : line_t) : List Ev → List sbuf_t
  | [] => []
  | Ev.tunnelNextUpStreamPayload tunnel_t.t l buf :: evs =>
    if l = m then buf :: forwardedBuffers m evs else forwardedBuffers m evs
  | _ :: evs => forwardedBuffers m evs

/-- The lines created by `lineCreate`, in call order. -/
def createdLines : List Ev → List line_t
  | [] => []
  | Ev.lineCreate l :: evs => l :: createdLines evs
  | _ :: evs => createdLines evs

/-- How often `halfduplexserverLinestateDestroy` ran on the state of `l`. -/
def destroyCount (l : line_t) (evs : List Ev) : Nat :=
  evs.count (Ev.linestateDestroy l)

/-- The close events posted with `sendWorkerMessageForceQueue`, as
(target worker, line) in call order. -/
def postedCloses : List Ev → List (wid_t × line_t)
  | [] => []
  | Ev.sendWorkerMessageForceQueue wid l :: evs => (wid, l) :: postedCloses evs
  | _ :: evs => postedCloses evs

/-- The splice triangle of the data model: upload side `u`, download side
`d` and main line `m` with every cross-reference in place. -/
def SplicedTriple (w : World) (u d m : line_t) : Prop :=
  (w.lineGetState u).state = kCsUploadDirect ∧
  (w.lineGetState d).state = kCsDownloadDirect ∧
  (w.lineGetState u).main_line = some m ∧
  (w.lineGetState d).main_line = some m ∧
  (w.lineGetState u).upload_line = some u ∧
  (w.lineGetState u).download_line = some d ∧
  (w.lineGetState d).upload_line = some u ∧
  (w.lineGetState d).download_line = some d ∧
  (w.lineGetState m).upload_line = some u ∧
  (w.lineGetState m).download_line = some d ∧
  (w.lineGetState m).main_line = some m

instance (w : World) (u d m : line_t) : Decidable (SplicedTriple w u d m) := by
  unfold SplicedTriple
  infer_instance

/-- The pairing-map entry a line state calls for: `(true, hash)` in
`UploadInTable`, `(false, hash)` in `DownloadInTable`, none otherwise. -/
def tableEntry (s : halfduplexserver_lstate_t) : Option (Bool × hash_t) :=
  match s.state with
  | kCsUploadInTable => some (true, s.hash)
  | kCsDownloadInTable => some (false, s.hash)
  | _ => none

/-- The two maps hold exactly the entries the line states call for. -/
def MapsAgree (w : World) : Prop :=
  (∀ h x, w.tunnelGetState.upload_line_map h = some x ↔
    tableEntry (w.lineGetState x) = some (true, h)) ∧
  (∀ h x, w.tunnelGetState.download_line_map h = some x ↔
    tableEntry (w.lineGetState x) = some (false, h))

/-- How one handler call for line `l` may change the two maps: not at all; or
`l` is stored in one map under a key that neither map holds; or one map loses
a key. -/
def MapsMove (ts ts' : halfduplexserver_tstate_t) (l : line_t) : Prop :=
  (ts'.upload_line_map = ts.upload_line_map ∧
    ts'.download_line_map = ts.download_line_map) ∨
  (∃ k, ts.upload_line_map k = none ∧ ts.download_line_map k = none ∧
    ts'.upload_line_map = Function.update ts.upload_line_map k (some l) ∧
    ts'.download_line_map = ts.download_line_map) ∨
  (∃ k, ts.upload_line_map k = none ∧ ts.download_line_map k = none ∧
    ts'.download_line_map = Function.update ts.download_line_map k (some l) ∧
    ts'.upload_line_map = ts.upload_line_map) ∨
  (∃ k, ts'.upload_line_map = Function.update ts.upload_line_map k none ∧
    ts'.download_line_map = ts.download_line_map) ∨
  (∃ k, ts'.download_line_map = Function.update ts.download_line_map k none ∧
    ts'.upload_line_map = ts.upload_line_map)

/-- No hash is a key of both maps. -/
def MapsDisjoint (ts : halfduplexserver_tstate_t) : Prop :=
  ∀ h, ts.upload_line_map h = none ∨ ts.download_line_map h = none

/-- One handler call that returns. In a payload call the line pool hands out
a line whose state slot is not in use. -/
inductive Step (kMaxBuffering : Nat) : World → World → Prop
  | payload (env : Env) (l : line_t) (buf : sbuf_t) (w w' : World) (evs : List Ev) :
      (w.lineGetState env.lineCreate).state = kCsUnkown →
      halfduplexserverTunnelUpStreamPayload kMaxBuffering env w l buf = .ok (w', evs) →
      Step kMaxBuffering w w'
  | finish (l : line_t) (w w' : World) (evs : List Ev) :
      halfduplexserverTunnelUpStreamFinish w l = .ok (w', evs) →
      Step kMaxBuffering w w'

/-- The worlds that sequences of payload and finish calls lead to, starting
with empty maps and cleared line states. -/
inductive Reachable (kMaxBuffering : Nat) : World → Prop
  | init (wid : line_t → wid_t) : Reachable kMaxBuffering (World.fresh wid)
  | step (w w' : World) :
      Reachable kMaxBuffering w → Step kMaxBuffering w w' → Reachable kMaxBuffering w'

/-- The calls of `pipeTo`, as (line moved, target worker) in call order. -/
def pipedTo : List Ev → List (line_t × wid_t)
  | [] => []
  | Ev.pipeTo l wid :: evs => (l, wid) :: pipedTo evs
  | _ :: evs => pipedTo evs

/-- Every buffer handed to a next tunnel, on `t` or on `t->prev`, as
(line, buffer) in call order. -/
def forwardedAnywhere : List Ev → List (line_t × sbuf_t)
  | [] => []
  | Ev.tunnelNextUpStreamPayload _ l buf :: evs => (l, buf) :: forwardedAnywhere evs
  | _ :: evs => forwardedAnywhere evs

/-- The buffers given back with `bufferpoolReuseBuffer`, in call order. -/
def releasedBuffers : List Ev → List (Option sbuf_t)
  | [] => []
  | Ev.bufferpoolReuseBuffer _ buf :: evs => buf :: releasedBuffers evs
  | _ :: evs => releasedBuffers evs

/-- The lines finished with `tunnelPrevDownStreamFinish`, in call order. -/
def finishedDownstream : List Ev → List line_t
  | [] => []
  | Ev.tunnelPrevDownStreamFinish l :: evs => l :: finishedDownstream evs
  | _ :: evs => finishedDownstream evs

/-- The world a run of calls leaves (the start world if the run faults). -/
def worldAfter (kMaxBuffering : Nat) (w : World) (calls : List Call) : World :=
  match runCalls kMaxBuffering w calls with
  | .ok (w', _) => w'
  | .error _ => w

/-! ## A pair of lines on one worker -/

/-- Answers during the calls of a pairing on worker `cur`: the line pool hands
out `m`, which stays alive through `tunnelNextUpStreamInit`. -/
def pairEnv (cur : wid_t) (m : line_t) : Env :=
  { getWID := cur, lineCreate := m, lineIsAlive := true }

/-- The payloads `ps` arriving one after the other on line `l`. -/
def payloadCalls (env : Env) (l : line_t) (ps : List sbuf_t) : List Call :=
  ps.map (fun p => Call.payload env l p)

/-- The bytes `acc` are what line `l` has stored: `ls->buffering` holds them,
or it is `NULL` and there are none. -/
def Stored (w : World) (l : line_t) (acc : sbuf_t) : Prop :=
  (w.lineGetState l).buffering = some acc ∨
    ((w.lineGetState l).buffering = none ∧ acc = [])

/-- The upload line `u` has received the bytes `acc` and the download line `d`
has not shown up: `u` is in `Unknown` with fewer than eight bytes stored, or
waits in `UploadInTable` under `hash` with all of them stored. -/
def UploadAhead (w : World) (u d : line_t) (cur : wid_t) (hash : hash_t) (acc : sbuf_t) :
    Prop :=
  w.lineGetWID u = cur ∧ w.lineGetWID d = cur ∧
  (w.lineGetState d).state = kCsUnkown ∧ (w.lineGetState d).buffering = none ∧
  w.tunnelGetState.download_line_map hash = none ∧
  ((acc.length < 8 ∧ (w.lineGetState u).state = kCsUnkown ∧ Stored w u acc ∧
      w.tunnelGetState.upload_line_map hash = none) ∨
    (8 ≤ acc.length ∧ (w.lineGetState u).state = kCsUploadInTable ∧
      (w.lineGetState u).buffering = some (headerCleared acc) ∧
      (w.lineGetState u).upload_line = some u ∧
      w.tunnelGetState.upload_line_map hash = some u))

/-- The download line `d` waits in `DownloadInTable` under `hash` while the
upload line `u` is in `Unknown` with the fewer than eight bytes `acc` stored. -/
def DownloadAhead (w : World) (u d : line_t) (cur : wid_t) (hash : hash_t) (acc : sbuf_t) :
    Prop :=
  w.lineGetWID d = cur ∧
  (w.lineGetState d).state = kCsDownloadInTable ∧
  (w.lineGetState d).download_line = some d ∧
  w.tunnelGetState.download_line_map hash = some d ∧
  acc.length < 8 ∧ (w.lineGetState u).state = kCsUnkown ∧ Stored w u acc

/-- The upload line `u` is spliced to the main line `m`. -/
def UploadSpliced (w : World) (u m : line_t) : Prop :=
  (w.lineGetState u).state = kCsUploadDirect ∧ (w.lineGetState u).main_line = some m

/-! ## The runs of the end-to-end scenarios -/

/-- Header of the upload connection of scenario 1: `01 02 03 04 05 06 07 08`. -/
def hdrUpload : sbuf_t := [0x01, 0x02, 0x03, 0x04, 0x05, 0x06, 0x07, 0x08]

/-- Header of the download connection of scenario 1: `81 02 03 04 05 06 07 08`. -/
def hdrDownload : sbuf_t := [0x81, 0x02, 0x03, 0x04, 0x05, 0x06, 0x07, 0x08]

/-- The bytes of "hello". -/
def hello : sbuf_t := [0x68, 0x65, 0x6c, 0x6c, 0x6f]

/-- Answers during a call on worker `wid`: the line pool hands out line 100,
and `alive` says whether the main line survives `tunnelNextUpStreamInit`. -/
def envOn (wid : wid_t) (alive : Bool) : Env :=
  { getWID := wid, lineCreate := 100, lineIsAlive := alive }

/-- A value of `kMaxBuffering` for the concrete runs; no run below stores as
many bytes. -/
def kMaxBufferingSample : Nat := 65535 * 2

/-- Scenario 1 up to the splice: the upload line 1 sends its header and
"hello", then the download line 2 sends its header, both on worker 0. -/
def scenario1 (alive : Bool) : List Call :=
  [Call.payload (envOn 0 alive) 1 (hdrUpload ++ hello),
   Call.payload (envOn 0 alive) 2 hdrDownload]

/-- Scenario 2: line 1 is pinned to worker 0 and line 2 to worker 1. -/
def widScenario2 : line_t → wid_t := fun l => if l = 2 then 1 else 0

end HalfDuplexServer

/-!
# WaterWall: WireGuardDevice upstream path

A shallow embedding of `tunnels/WireGuardDevice/upstream/payload.c`.

* A device is the list of its peers (the array `device->peers`), a peer holds
  the list of its allowed-IP entries; a `wireguard_peer_t *` is an index into
  the peers, `NULL` is `none`.
* An address is its family and its value, the bytes read in network order.
* A buffer knows the bytes in front of its cursor and behind its end, because
  `wireguardifOutputToPeer` grows it on both sides.
* The constants of the missing headers are the fields of `Config`; the clock,
  the result of `wireguardifPeerOutput` and the cipher are the `Env` of a call.
  The clock is read as one value `now` during a call.
-/

namespace WireGuardDevice

/-- The address families `peerLookupByAllowedIp` tests for. -/
inductive ip_addr_type where
  | IPADDR_TYPE_V4
  | IPADDR_TYPE_V6
  deriving DecidableEq, Repr

open ip_addr_type

/-- An address: family and value. -/
structure ip_addr_t where
  type : ip_addr_type
  addr : Nat
  deriving DecidableEq, Repr

/-- One entry of `allowed_source_ips`. -/
structure wireguard_allowed_ip_t where
  valid : Bool
  ip : ip_addr_t
  mask : ip_addr_t
  deriving DecidableEq, Repr

/-- The fields of a keypair that the send path reads and writes. -/
structure wireguard_keypair_t where
  valid : Bool
  initiator : Bool
  remote_index : Nat
  sending_counter : Nat
  last_rx : Nat
  last_tx : Nat
  keypair_millis : Nat
  sending_key : List Nat
  deriving DecidableEq, Repr

/-- The fields of a peer that the send path reads and writes. -/
structure wireguard_peer_t where
  valid : Bool
  allowed_source_ips : List wireguard_allowed_ip_t
  curr_keypair : wireguard_keypair_t
  prev_keypair : wireguard_keypair_t
  last_tx : Nat
  send_handshake : Bool
  deriving DecidableEq, Repr

/-- The device: its peers, in array order. -/
structure wireguard_device_t where
  peers : List wireguard_peer_t
  deriving DecidableEq, Repr

/-- A buffer: the bytes in front of the cursor, the bytes of the buffer and
the bytes behind its end. -/
structure sbuf_t where
  left : List Nat
  bytes : List Nat
  right : List Nat
  deriving DecidableEq, Repr

/-- The results the send path returns. -/
inductive err_t where
  | ERR_OK
  | ERR_CONN
  | ERR_RTE
  | ERR_OTHER
  deriving DecidableEq, Repr

open err_t

/-- Which keypair of the peer the pointer `keypair` names. -/
inductive keypair_ref where
  | curr_keypair
  | prev_keypair
  deriving DecidableEq, Repr

/-- Calls that leave the send path, in program order. -/
inductive Ev where
  | bufferpoolReuseBuffer (buf : sbuf_t)
  | wireguardifPeerOutput (peer : Nat) (frame : sbuf_t)
  | keypairDestroy (peer : Nat) (keypair : keypair_ref)
  | LOGD
  | mutexLock
  | mutexUnlock
  deriving DecidableEq, Repr

/-- Ways the send path stops without returning. -/
inductive Fault where
  | assertFailed
  | bufferOverrun
  | readPastEnd
  deriving DecidableEq, Repr

/-- Constants of headers that are not under src/. -/
structure Config where
  REJECT_AFTER_TIME : Nat
  REJECT_AFTER_MESSAGES : Nat
  REKEY_AFTER_TIME : Nat
  REKEY_AFTER_MESSAGES : Nat
  SMALL_BUFFER_SIZE : Nat
  MESSAGE_TRANSPORT_DATA : Nat

/-- Answers of the surroundings during one call: the clock, the result of
`wireguardifPeerOutput` and the cipher, which maps key, counter and plaintext
to the ciphertext followed by the tag. -/
structure Env where
  now : Nat
  peerOutputResult : err_t
  chacha20poly1305Encrypt : List Nat → Nat → List Nat → List Nat

/-- Modelled from the spec: `WIREGUARD_AUTHTAG_LEN` is not under src/; the
tag is 16 bytes. -/
def WIREGUARD_AUTHTAG_LEN : Nat := 16

/-- Modelled from the spec: `ip4AddrNetcmp` is not under src/; masked network
equality. -/
def ip4AddrNetcmp (addr1 addr2 mask : Nat) : Bool := (addr1 &&& mask) == (addr2 &&& mask)

/-- Modelled from the spec: `ip6AddrNetcmp` is not under src/; masked network
equality on the prefix. -/
def ip6AddrNetcmp (addr1 addr2 mask : Nat) : Bool := (addr1 &&& mask) == (addr2 &&& mask)

/-- payload.c lines 19-43: whether entry `a` sets `result` for `ipaddr`. -/
def allowedIpMatches (ipaddr : ip_addr_t) (a : wireguard_allowed_ip_t) : Bool :=
  if a.valid then
    if ipaddr.type = IPADDR_TYPE_V4 ∧ a.ip.type = IPADDR_TYPE_V4 then
      ip4AddrNetcmp ipaddr.addr a.ip.addr a.mask.addr
    else if ipaddr.type = IPADDR_TYPE_V6 ∧ a.ip.type = IPADDR_TYPE_V6 then
      ip6AddrNetcmp ipaddr.addr a.ip.addr a.mask.addr
    else false
  else false

/-- payload.c lines 17-44: the inner loop over `allowed_source_ips`, left at
the first entry that matches. -/
def scanAllowedIps (ipaddr : ip_addr_t) : List wireguard_allowed_ip_t → Bool
  | [] => false
  | a :: rest => if allowedIpMatches ipaddr a then true else scanAllowedIps ipaddr rest

/-- payload.c lines 12-46: the outer loop from index `x` on, left as soon as
`result` is set. -/
def peerLookupFrom (ipaddr : ip_addr_t) : Nat → List wireguard_peer_t → Option Nat
  | _, [] => none
  | x, tmp :: rest =>
    if tmp.valid && scanAllowedIps ipaddr tmp.allowed_source_ips then some x
    else peerLookupFrom ipaddr (x + 1) rest

/-- The function `peerLookupByAllowedIp(device, ipaddr)` of payload.c. -/
def peerLookupByAllowedIp (device : wireguard_device_t) (ipaddr : ip_addr_t) : Option Nat :=
  peerLookupFrom ipaddr 0 device.peers

/-- Modelled from the spec: `sbufGetLength` is not under src/. -/
def sbufGetLength (q : sbuf_t) : Nat := q.bytes.length

/-- Modelled from the spec: `sbufSetLength` is not under src/; the end of the
buffer moves so that `n` bytes are in it, taking bytes from behind the end. -/
def sbufSetLength (q : sbuf_t) (n : Nat) : Except Fault sbuf_t :=
  if n ≤ (q.bytes ++ q.right).length then
    .ok { q with bytes := (q.bytes ++ q.right).take n, right := (q.bytes ++ q.right).drop n }
  else .error .bufferOverrun

/-- Modelled from the spec: `sbufShiftLeft` is not under src/; the cursor
moves `n` bytes to the front. -/
def sbufShiftLeft (q : sbuf_t) (n : Nat) : Except Fault sbuf_t :=
  if n ≤ q.left.length then
    .ok { q with left := q.left.take (q.left.length - n),
                 bytes := q.left.drop (q.left.length - n) ++ q.bytes }
  else .error .bufferOverrun

/-- Modelled from the spec: `sbufWriteZeros` is not under src/; the first `n`
bytes become zero. -/
def sbufWriteZeros (q : sbuf_t) (n : Nat) : sbuf_t :=
  { q with bytes := List.replicate (min n q.bytes.length) 0 ++ q.bytes.drop n }

/-- A store of the bytes `vals` at offset `off` of the buffer. -/
def sbufStore (q : sbuf_t) (off : Nat) (vals : List Nat) : sbuf_t :=
  { q with bytes := q.bytes.take off ++ vals ++ q.bytes.drop (off + vals.length) }

/-- A 32-bit value as stored by `hdr->receiver = v`, least significant byte
first. -/
def u32le (v : Nat) : List Nat :=
  [v % 256, v / 2 ^ 8 % 256, v / 2 ^ 16 % 256, v / 2 ^ 24 % 256]

/-- Modelled from the spec: the macro `U64TO8_LITTLE` is not under src/; the
eight bytes of a 64-bit value, least significant first. -/
def U64TO8_LITTLE (v : Nat) : List Nat :=
  [v % 256, v / 2 ^ 8 % 256, v / 2 ^ 16 % 256, v / 2 ^ 24 % 256,
   v / 2 ^ 32 % 256, v / 2 ^ 40 % 256, v / 2 ^ 48 % 256, v / 2 ^ 56 % 256]

/-- The value of bytes read least significant first. -/
def decodeLittle : List Nat → Nat
  | [] => 0
  | b :: rest => b + 256 * decodeLittle rest

/-- Exactly `n` bytes of `out`, as an in-place write of `n` bytes leaves them. -/
def fitLength (n : Nat) (out : List Nat) : List Nat :=
  (out ++ List.replicate n 0).take n

/-- Modelled from the spec: `wireguardExpired` is not under src/; the age
`now - created_millis`, in unsigned 32-bit arithmetic, has reached the limit. -/
def wireguardExpired (now created_millis limit : Nat) : Bool :=
  decide (limit ≤ (now % 2 ^ 32 + 2 ^ 32 - created_millis % 2 ^ 32) % 2 ^ 32)

/-- The age of a keypair at `now`, as `wireguardExpired` computes it. -/
def keypairAge (now : Nat) (keypair : wireguard_keypair_t) : Nat :=
  (now % 2 ^ 32 + 2 ^ 32 - keypair.keypair_millis % 2 ^ 32) % 2 ^ 32

/-- Modelled from the spec: `keypairDestroy` is not under src/; the keypair
is no longer valid, its counter is as it was. -/
def keypairDestroy (keypair : wireguard_keypair_t) : wireguard_keypair_t :=
  { keypair with valid := false }

/-- Modelled from the spec: `wireguardEncryptPacket(dst, dst, len, keypair)`
is not under src/; `len` bytes at offset `off` of the buffer are sealed in
place under the sending key and the current sending counter, the 16-byte tag
follows them, and the counter advances by one. -/
def wireguardEncryptPacket (env : Env) (q : sbuf_t) (off len : Nat)
    (keypair : wireguard_keypair_t) : sbuf_t × wireguard_keypair_t :=
  (sbufStore q off
    (fitLength (len + WIREGUARD_AUTHTAG_LEN)
      (env.chacha20poly1305Encrypt keypair.sending_key keypair.sending_counter
        ((q.bytes.drop off).take len))),
   { keypair with sending_counter := (keypair.sending_counter + 1) % 2 ^ 64 })

/-- Read through the pointer `keypair`. -/
def wireguard_peer_t.getKeypair (peer : wireguard_peer_t) : keypair_ref → wireguard_keypair_t
  | .curr_keypair => peer.curr_keypair
  | .prev_keypair => peer.prev_keypair

/-- Write through the pointer `keypair`. -/
def wireguard_peer_t.setKeypair (peer : wireguard_peer_t) (r : keypair_ref)
    (k : wireguard_keypair_t) : wireguard_peer_t :=
  match r with
  | .curr_keypair => { peer with curr_keypair := k }
  | .prev_keypair => { peer with prev_keypair := k }

/-- payload.c lines 63-70: the keypair the send uses. -/
def selectKeypair (peer : wireguard_peer_t) : keypair_ref :=
  if peer.curr_keypair.valid && (!peer.curr_keypair.initiator) &&
      (peer.curr_keypair.last_rx == 0) then
    .prev_keypair
  else .curr_keypair

/-- payload.c line 90: `(unpadded_len + 15) & 0xFFFFFFF0` in `uint32_t`. -/
def paddedLen (unpadded_len : Nat) : Nat :=
  ((unpadded_len + 15) % 2 ^ 32) &&& 0xFFFFFFF0

/-- payload.c lines 93-111: the buffer grown to the frame, with the transport
header written. -/
def buildFrame (cfg : Config) (q : sbuf_t) (padded_len : Nat)
    (keypair : wireguard_keypair_t) : Except Fault sbuf_t :=
  match sbufSetLength q ((padded_len + WIREGUARD_AUTHTAG_LEN) % 2 ^ 32) with
  | .error e => .error e
  | .ok q =>
    match sbufShiftLeft q 16 with
    | .error e => .error e
    | .ok q =>
      let q := sbufWriteZeros q 16
      let q := sbufStore q 0 [cfg.MESSAGE_TRANSPORT_DATA % 256]
      let q := sbufStore q 4 (u32le keypair.remote_index)
      let q := sbufStore q 8 (U64TO8_LITTLE keypair.sending_counter)
      .ok q

/-- payload.c lines 133-148: after `wireguardifPeerOutput` returned `result`,
the time stamps and the rekey flag. -/
def afterPeerOutput (cfg : Config) (env : Env) (peer : wireguard_peer_t) (r : keypair_ref)
    (result : err_t) : wireguard_peer_t :=
  let peer :=
    if result = ERR_OK then
      let peer := { peer with last_tx := env.now }
      peer.setKeypair r { peer.getKeypair r with last_tx := env.now }
    else peer
  if (peer.getKeypair r).sending_counter ≥ cfg.REKEY_AFTER_MESSAGES then
    { peer with send_handshake := true }
  else if (peer.getKeypair r).initiator &&
      wireguardExpired env.now (peer.getKeypair r).keypair_millis cfg.REKEY_AFTER_TIME then
    { peer with send_handshake := true }
  else peer

/-- The function `wireguardifOutputToPeer(device, q, ipaddr, peer)` of
payload.c, for the peer at index `idx`: the result, the peer afterwards and the
calls made. -/
def wireguardifOutputToPeer (cfg : Config) (env : Env) (q : sbuf_t) (idx : Nat)
    (peer : wireguard_peer_t) : Except Fault (err_t × wireguard_peer_t × List Ev) :=
  let r := selectKeypair peer
  let keypair := peer.getKeypair r
  if keypair.valid && (keypair.initiator || keypair.last_rx != 0) then
    if (!wireguardExpired env.now keypair.keypair_millis cfg.REJECT_AFTER_TIME) &&
        decide (keypair.sending_counter < cfg.REJECT_AFTER_MESSAGES) then
      let unpadded_len := if sbufGetLength q > 0 then sbufGetLength q else 0
      let padded_len := paddedLen unpadded_len
      if ¬ ((padded_len + WIREGUARD_AUTHTAG_LEN) % 2 ^ 32 ≤ 1516) then .error .assertFailed
      else if ¬ ((padded_len + WIREGUARD_AUTHTAG_LEN) % 2 ^ 32 ≤ cfg.SMALL_BUFFER_SIZE) then
        .error .assertFailed
      else
        match buildFrame cfg q padded_len keypair with
        | .error e => .error e
        | .ok q =>
          let sealed := wireguardEncryptPacket env q 16 padded_len keypair
          let peer := peer.setKeypair r sealed.2
          let result := env.peerOutputResult
          .ok (result, afterPeerOutput cfg env peer r result,
            [Ev.wireguardifPeerOutput idx sealed.1])
    else
      .ok (ERR_CONN, peer.setKeypair r (keypairDestroy keypair),
        [Ev.LOGD, Ev.keypairDestroy idx r, Ev.bufferpoolReuseBuffer q])
  else
    .ok (ERR_CONN, peer, [Ev.LOGD, Ev.bufferpoolReuseBuffer q])

/-- Modelled from the spec: the macro `IP_HDR_GET_VERSION` is not under src/;
the high nibble of byte 0. -/
def IP_HDR_GET_VERSION (data : List Nat) : Nat := data.headD 0 / 16

/-- `sizeof(ip4_hdr_t)`: the IPv4 header without options. -/
def sizeof_ip4_hdr_t : Nat := 20

/-- A read of `n` bytes at offset `off` of the bytes of a buffer. -/
def readField (data : List Nat) (off n : Nat) : Except Fault (List Nat) :=
  if off + n ≤ data.length then .ok ((data.drop off).take n) else .error .readPastEnd

/-- The value of bytes in network order. -/
def decodeNetwork (bs : List Nat) : Nat := bs.foldl (fun acc b => acc * 256 + b) 0

/-- payload.c lines 200-216: the peer for the destination of the packet;
`header->dest` is at offset 16 of an IPv4 header (4 bytes) and at offset 24 of
an IPv6 header (16 bytes). -/
def routePacket (dev : wireguard_device_t) (data : List Nat) : Except Fault (Option Nat) :=
  if IP_HDR_GET_VERSION data = 4 then
    match readField data 16 4 with
    | .error e => .error e
    | .ok dest => .ok (peerLookupByAllowedIp dev ⟨IPADDR_TYPE_V4, decodeNetwork dest⟩)
  else if IP_HDR_GET_VERSION data = 6 then
    match readField data 24 16 with
    | .error e => .error e
    | .ok dest => .ok (peerLookupByAllowedIp dev ⟨IPADDR_TYPE_V6, decodeNetwork dest⟩)
  else .ok none

/-- The peers with the one at index `idx` replaced. -/
def wireguard_device_t.setPeer (dev : wireguard_device_t) (idx : Nat)
    (peer : wireguard_peer_t) : wireguard_device_t :=
  { dev with peers := dev.peers.set idx peer }

/-- The handler `wireguarddeviceTunnelUpStreamPayload(t, l, buf)` of payload.c:
the device afterwards and the calls made. -/
def wireguarddeviceTunnelUpStreamPayload (cfg : Config) (env : Env)
    (dev : wireguard_device_t) (buf : sbuf_t) :
    Except Fault (wireguard_device_t × List Ev) :=
  if sbufGetLength buf < sizeof_ip4_hdr_t then
    .ok (dev, [Ev.bufferpoolReuseBuffer buf])
  else
    match routePacket dev buf.bytes with
    | .error e => .error e
    | .ok none =>
      .ok (dev, [Ev.mutexLock, Ev.LOGD, Ev.bufferpoolReuseBuffer buf, Ev.mutexUnlock])
    | .ok (some idx) =>
      match dev.peers.get? idx with
      | none => .error .readPastEnd
      | some peer =>
        match wireguardifOutputToPeer cfg env buf idx peer with
        | .error e => .error e
        | .ok (_, peer', evs) =>
          .ok (dev.setPeer idx peer', [Ev.mutexLock] ++ evs ++ [Ev.mutexUnlock])

/-! ## The specification's words for the lookup -/

/-- An allowed-IP entry covers an address: it is valid, of the address's
family, and its masked network equals the address's masked network. -/
def EntryCovers (ipaddr : ip_addr_t) (a : wireguard_allowed_ip_t) : Prop :=
  a.valid = true ∧ a.ip.type = ipaddr.type ∧
    a.ip.addr &&& a.mask.addr = ipaddr.addr &&& a.mask.addr

instance (ipaddr : ip_addr_t) (a : wireguard_allowed_ip_t) : Decidable (EntryCovers ipaddr a) := by
  unfold EntryCovers
  infer_instance

/-- A peer matches an address: it is valid and one of its entries covers the
address. -/
def PeerMatches (ipaddr : ip_addr_t) (peer : wireguard_peer_t) : Prop :=
  peer.valid = true ∧ ∃ a ∈ peer.allowed_source_ips, EntryCovers ipaddr a

/-- The number of leading one bits of a 32-bit mask whose ones are all in
front: the prefix length. -/
def prefixLength (mask : Nat) : Nat := (List.range 32).countP (fun i => mask.testBit i)

instance (ipaddr : ip_addr_t) (peer : wireguard_peer_t) : Decidable (PeerMatches ipaddr peer) := by
  unfold PeerMatches
  infer_instance

/-- The destination the upstream path reads from a packet: bytes 16..19 of an
IPv4 packet, bytes 24..39 of an IPv6 packet. -/
def packetDest (data : List Nat) : Option ip_addr_t :=
  if IP_HDR_GET_VERSION data = 4 then
    some ⟨IPADDR_TYPE_V4, decodeNetwork ((data.drop 16).take 4)⟩
  else if IP_HDR_GET_VERSION data = 6 then
    some ⟨IPADDR_TYPE_V6, decodeNetwork ((data.drop 24).take 16)⟩
  else none

/-- The frames handed to `wireguardifPeerOutput`, with the index of the peer,
in call order. -/
def handedFrames : List Ev → List (Nat × sbuf_t)
  | [] => []
  | Ev.wireguardifPeerOutput peer frame :: evs => (peer, frame) :: handedFrames evs
  | _ :: evs => handedFrames evs

/-- The buffers given back with `bufferpoolReuseBuffer`, in call order. -/
def reusedBuffers : List Ev → List sbuf_t
  | [] => []
  | Ev.bufferpoolReuseBuffer buf :: evs => buf :: reusedBuffers evs
  | _ :: evs => reusedBuffers evs

/-- The keypairs given to `keypairDestroy`, in call order. -/
def destroyedKeypairs : List Ev → List keypair_ref
  | [] => []
  | Ev.keypairDestroy _ r :: evs => r :: destroyedKeypairs evs
  | _ :: evs => destroyedKeypairs evs

/-- The keypair of a peer that the pointer `keypair` does not name. -/
def keypair_ref.other : keypair_ref → keypair_ref
  | .curr_keypair => .prev_keypair
  | .prev_keypair => .curr_keypair

/-- A keypair may send at `now`: it is valid, initiator or has received, its
age is below `REJECT_AFTER_TIME` and its counter below
`REJECT_AFTER_MESSAGES`. -/
def Eligible (cfg : Config) (now : Nat) (k : wireguard_keypair_t) : Prop :=
  k.valid = true ∧ (k.initiator = true ∨ k.last_rx ≠ 0) ∧
    keypairAge now k < cfg.REJECT_AFTER_TIME ∧ k.sending_counter < cfg.REJECT_AFTER_MESSAGES

instance (cfg : Config) (now : Nat) (k : wireguard_keypair_t) : Decidable (Eligible cfg now k) := by
  unfold Eligible
  infer_instance

/-- What the two assertions of payload.c lines 91-92 and the buffer pool ask
of a packet: at most 1488 bytes, so that the padded packet and its tag are at
most 1516 bytes, a frame that fits a small buffer, 16 bytes of room in front
and room for padding and tag behind. -/
def RoomForFrame (cfg : Config) (q : sbuf_t) : Prop :=
  q.bytes.length ≤ 1488 ∧
  (q.bytes.length + 15) / 16 * 16 + 16 ≤ cfg.SMALL_BUFFER_SIZE ∧
  16 ≤ q.left.length ∧
  (q.bytes.length + 15) / 16 * 16 + 16 ≤ q.bytes.length + q.right.length

instance (cfg : Config) (q : sbuf_t) : Decidable (RoomForFrame cfg q) := by
  unfold RoomForFrame
  infer_instance

/-- The transport frame of the external interface for the packet in `q` and
keypair `k`: the 16-byte header (type, three zero bytes, receiver and counter
least significant byte first), then the sealed packet, padded to a multiple of
16 with the bytes behind it, and its tag. -/
def transportFrame (cfg : Config) (env : Env) (q : sbuf_t) (k : wireguard_keypair_t) :
    sbuf_t :=
  { left := q.left.take (q.left.length - 16),
    bytes := [cfg.MESSAGE_TRANSPORT_DATA % 256, 0, 0, 0] ++ u32le k.remote_index ++
      U64TO8_LITTLE k.sending_counter ++
      fitLength ((q.bytes.length + 15) / 16 * 16 + 16)
        (env.chacha20poly1305Encrypt k.sending_key k.sending_counter
          (q.bytes ++ q.right.take ((q.bytes.length + 15) / 16 * 16 - q.bytes.length))),
    right := q.right.drop ((q.bytes.length + 15) / 16 * 16 + 16 - q.bytes.length) }

/-! ## Sample values for the concrete runs -/

/-- Sample constants: times in milliseconds, the message limits of the
protocol, a small buffer of 2048 bytes, message type 4. -/
def cfgSample : Config :=
  { REJECT_AFTER_TIME := 180000, REJECT_AFTER_MESSAGES := 2 ^ 64 - 2 ^ 13 - 1,
    REKEY_AFTER_TIME := 120000, REKEY_AFTER_MESSAGES := 2 ^ 60,
    SMALL_BUFFER_SIZE := 2048, MESSAGE_TRANSPORT_DATA := 4 }

/-- A stand-in cipher for the concrete runs: the plaintext with every byte
flipped in its low bit, followed by sixteen tag bytes that hold the low byte of
the counter. -/
def toySeal (_key : List Nat) (counter : Nat) (plain : List Nat) : List Nat :=
  plain.map (fun b => b ^^^ 1) ++ List.replicate 16 (counter % 256)

/-- The inverse of `toySeal`: the tag is checked and the bytes are flipped
back. -/
def toyOpen (_key : List Nat) (counter : Nat) (sealed : List Nat) : Option (List Nat) :=
  if sealed.drop (sealed.length - 16) = List.replicate 16 (counter % 256) ∧
      16 ≤ sealed.length then
    some ((sealed.take (sealed.length - 16)).map (fun b => b ^^^ 1))
  else none

/-- Sample answers: the clock at `now` ms, `wireguardifPeerOutput` returns
`result`. -/
def envAt (now : Nat) (result : err_t) : Env :=
  { now := now, peerOutputResult := result, chacha20poly1305Encrypt := toySeal }

/-- Sample answers: the clock at 1000 ms, `wireguardifPeerOutput` returns
`result`. -/
def envSample (result : err_t) : Env := envAt 1000 result

/-- A keypair that may send: valid, initiator, installed at 0 ms, counter 7. -/
def keypairSample : wireguard_keypair_t :=
  { valid := true, initiator := true, remote_index := 0x11223344, sending_counter := 7,
    last_rx := 0, last_tx := 0, keypair_millis := 0, sending_key := [] }

/-- A keypair that is not valid. -/
def keypairNone : wireguard_keypair_t :=
  { valid := false, initiator := false, remote_index := 0, sending_counter := 0,
    last_rx := 0, last_tx := 0, keypair_millis := 0, sending_key := [] }

/-- A keypair that was installed as responder and has not received yet. -/
def keypairFresh : wireguard_keypair_t :=
  { valid := true, initiator := false, remote_index := 0x55667788, sending_counter := 0,
    last_rx := 0, last_tx := 0, keypair_millis := 500, sending_key := [] }

/-- A valid peer with one allowed IPv4 network `ip`/`mask`. -/
def peerSample (ip mask : Nat) : wireguard_peer_t :=
  { valid := true,
    allowed_source_ips := [⟨true, ⟨IPADDR_TYPE_V4, ip⟩, ⟨IPADDR_TYPE_V4, mask⟩⟩],
    curr_keypair := keypairSample, prev_keypair := keypairNone,
    last_tx := 0, send_handshake := false }

/-- Peer 0 allows 10.0.0.0/8 and peer 1 allows 10.1.0.0/16. -/
def deviceSample : wireguard_device_t :=
  { peers := [peerSample 0x0A000000 0xFF000000, peerSample 0x0A010000 0xFFFF0000] }

/-- A buffer holding `bytes` with 32 bytes of room on either side. -/
def bufSample (bytes : List Nat) : sbuf_t :=
  { left := List.replicate 32 0xAA, bytes := bytes, right := List.replicate 32 0xBB }

/-- A 20-byte IPv4 packet from 10.0.0.1 to 10.1.2.3. -/
def packetSample : List Nat :=
  [0x45, 0, 0, 20, 0, 0, 0, 0, 64, 6, 0, 0, 10, 0, 0, 1, 10, 1, 2, 3]

/-- A 1500-byte IPv4 packet from 10.0.0.1 to 10.1.2.3: the header of
`packetSample` with total length 1500 (0x05DC) and 1480 bytes of data. -/
def packetFull : List Nat :=
  [0x45, 0, 0x05, 0xDC, 0, 0, 0, 0, 64, 6, 0, 0, 10, 0, 0, 1, 10, 1, 2, 3] ++
    List.replicate 1480 0

/-- A 20-byte packet whose version nibble is 6: the first 20 bytes of an
IPv6 header (payload length 0, next header 59, hop limit 64, and twelve of
the sixteen source address bytes). -/
def packetV6Short : List Nat :=
  [0x60, 0, 0, 0, 0, 0, 59, 64, 0x20, 0x01, 0x0d, 0xb8, 0, 0, 0, 0, 0, 0, 0, 0]

/-! ## Sends one after the other -/

/-- The counter field of a transport frame: bytes 8..15, least significant
byte first. -/
def frameCounter (frame : sbuf_t) : Nat := decodeLittle ((frame.bytes.drop 8).take 8)

/-- The receiver field of a transport frame: bytes 4..7, least significant
byte first. -/
def frameReceiver (frame : sbuf_t) : Nat := decodeLittle ((frame.bytes.drop 4).take 4)

/-- Calls of `wireguardifOutputToPeer` for the peer at `idx`, one after the
other, each with its own answers of the surroundings and its own packet: the
peer afterwards and all calls made, in order. -/
def sendRun (cfg : Config) (idx : Nat) :
    wireguard_peer_t → List (Env × sbuf_t) → Except Fault (wireguard_peer_t × List Ev)
  | peer, [] => .ok (peer, [])
  | peer, (env, q) :: rest =>
    match wireguardifOutputToPeer cfg env q idx peer with
    | .error e => .error e
    | .ok (_, peer', evs) =>
      match sendRun cfg idx peer' rest with
      | .error e => .error e
      | .ok (peer'', evs') => .ok (peer'', evs ++ evs')

end WireGuardDevice

/-!
# WaterWall: IpManipulator downstream payload

A shallow embedding of `tunnels/IpManipulator/downstream/payload.c`.

* A buffer is the list of its bytes from the cursor on; the header macros read
  and write single bytes of it. A read behind the last byte is a fault.
* The line is its flag `recalculate_checksum`; the call to the previous tunnel
  is recorded with the line and the buffer it is given.
-/

namespace IpManipulator

/-- A buffer: its bytes, each below 256. -/
abbrev sbuf_t := List Nat

/-- The tunnel state: the protocol number that stands for TCP, 0 when the swap
is off. -/
structure ipmanipulator_tstate_t where
  manip_swap_tcp : Nat
  deriving DecidableEq, Repr

/-- The field of the line that the handler writes. -/
structure line_t where
  recalculate_checksum : Bool
  deriving DecidableEq, Repr

/-- Calls that leave the handler. -/
inductive Ev where
  | tunnelPrevDownStreamPayload (l : line_t) (buf : sbuf_t)
  deriving DecidableEq, Repr

/-- Ways the handler stops without returning. -/
inductive Fault where
  | readPastEnd
  deriving DecidableEq, Repr

/-- Modelled from the spec: `IPPROTO_TCP` is not under src/; the protocol
number of TCP. -/
def IPPROTO_TCP : Nat := 6

/-- Modelled from the spec: the macro `IPH_V` is not under src/; the version,
the high nibble of byte 0. -/
def IPH_V (ipheader : sbuf_t) : Except Fault Nat :=
  match ipheader.get? 0 with
  | none => .error .readPastEnd
  | some b => .ok (b / 16)

/-- Modelled from the spec: the macro `IPH_PROTO` is not under src/; the
protocol field, byte 9. -/
def IPH_PROTO (ipheader : sbuf_t) : Except Fault Nat :=
  match ipheader.get? 9 with
  | none => .error .readPastEnd
  | some b => .ok b

/-- Modelled from the spec: the macro `IPH_PROTO_SET` is not under src/; it
stores the protocol number in byte 9. -/
def IPH_PROTO_SET (ipheader : sbuf_t) (proto : Nat) : sbuf_t :=
  ipheader.set 9 (proto % 256)

/-- The handler `ipmanipulatorDownStreamPayload(t, l, buf)` of payload.c: the
line afterwards and the calls made. The condition is evaluated left to
right and stops at the first part that is false. -/
def ipmanipulatorDownStreamPayload (state : ipmanipulator_tstate_t) (l : line_t)
    (buf : sbuf_t) : Except Fault (line_t × List Ev) :=
  if state.manip_swap_tcp ≠ 0 then
    match IPH_V buf with
    | .error e => .error e
    | .ok v =>
      if v = 4 then
        match IPH_PROTO buf with
        | .error e => .error e
        | .ok proto =>
          if proto = state.manip_swap_tcp then
            let buf := IPH_PROTO_SET buf IPPROTO_TCP
            let l := { l with recalculate_checksum := true }
            .ok (l, [Ev.tunnelPrevDownStreamPayload l buf])
          else .ok (l, [Ev.tunnelPrevDownStreamPayload l buf])
      else .ok (l, [Ev.tunnelPrevDownStreamPayload l buf])
  else .ok (l, [Ev.tunnelPrevDownStreamPayload l buf])

/-- The words of the specification: the swap is on, the packet is IPv4 and its
protocol field equals `manip_swap_tcp`. -/
def Swaps (state : ipmanipulator_tstate_t) (buf : sbuf_t) : Prop :=
  state.manip_swap_tcp ≠ 0 ∧ (buf.get? 0).map (fun b => b / 16) = some 4 ∧
    buf.get? 9 = some state.manip_swap_tcp

instance (state : ipmanipulator_tstate_t) (buf : sbuf_t) : Decidable (Swaps state buf) := by
  unfold Swaps
  infer_instance

/-- A 20-byte IPv4 header with protocol number 253 in byte 9. -/
def packetDisguised : sbuf_t :=
  [0x45, 0, 0, 20, 0, 0, 0, 0, 64, 253, 0, 0, 10, 0, 0, 1, 10, 1, 2, 3]

/-- A 20-byte IPv4 header with protocol number 17 (UDP) in byte 9. -/
def packetUdp : sbuf_t :=
  [0x45, 0, 0, 20, 0, 0, 0, 0, 64, 17, 0, 0, 10, 0, 0, 1, 10, 1, 2, 3]

end IpManipulator

/-!
# WaterWall: Linux capture device

A shallow embedding of `ww/devices/capture/capture_linux.c`: the dispatch of a
packet to a worker, the verdict message, the read of one netfilter message and
the read loop.

* What `recvfrom` delivers is a record: the return value, the sender address
  length and `nl_pid`, the two header fields the code reads, and the
  attributes that the walk with `NFA_OK` / `NFA_NEXT` visits, in order, each
  with its type and its data.
* Calls on sockets, pools and worker loops are recorded as events; what they
  answer is an input of the model.
* `packets_queued` is an integer; the two atomic operations on it are the
  additions of 1 and of -1.
-/

namespace Capture

/-- A buffer: its bytes. -/
abbrev sbuf_t := List Nat

/-- A worker id. -/
abbrev wid_t := Nat

/-! ## Constants of the system headers -/

/-- Modelled from the spec: `sizeof(struct nlmsghdr)`, not under src/. -/
def sizeof_nlmsghdr : Nat := 16

/-- Modelled from the spec: `sizeof(struct sockaddr_nl)`, not under src/. -/
def sizeof_sockaddr_nl : Nat := 12

/-- Modelled from the spec: `sizeof(struct nfgenmsg)`, not under src/. -/
def sizeof_nfgenmsg : Nat := 4

/-- Modelled from the spec: `NLMSG_SPACE(sizeof(struct nfgenmsg))`, not under
src/: header and payload, aligned to 4. -/
def nl_size0 : Nat := 20

/-- Modelled from the spec: `NFNL_SUBSYS_QUEUE`, not under src/. -/
def NFNL_SUBSYS_QUEUE : Nat := 3

/-- Modelled from the spec: `NFQNL_MSG_PACKET`, not under src/. -/
def NFQNL_MSG_PACKET : Nat := 0

/-- Modelled from the spec: `NFQNL_MSG_VERDICT`, not under src/. -/
def NFQNL_MSG_VERDICT : Nat := 1

/-- Modelled from the spec: `NFQA_PACKET_HDR`, not under src/. -/
def NFQA_PACKET_HDR : Nat := 1

/-- Modelled from the spec: `NFQA_VERDICT_HDR`, not under src/. -/
def NFQA_VERDICT_HDR : Nat := 2

/-- Modelled from the spec: `NFQA_PAYLOAD`, not under src/. -/
def NFQA_PAYLOAD : Nat := 10

/-- Modelled from the spec: `NF_DROP`, not under src/. -/
def NF_DROP : Nat := 0

/-- Modelled from the spec: `NLM_F_REQUEST`, not under src/. -/
def NLM_F_REQUEST : Nat := 1

/-- Modelled from the spec: `NLM_F_ACK`, not under src/. -/
def NLM_F_ACK : Nat := 4

/-- Modelled from the spec: the macro `NFNL_SUBSYS_ID`, not under src/: the high
byte of the 16-bit message type. -/
def NFNL_SUBSYS_ID (x : Nat) : Nat := (x &&& 0xff00) >>> 8

/-- Modelled from the spec: the macro `NFNL_MSG_TYPE`, not under src/: the low
byte of the message type. -/
def NFNL_MSG_TYPE (x : Nat) : Nat := x &&& 0x00ff

/-- Modelled from the spec: `htonl`, not under src/: the four bytes of a
32-bit value in network order. -/
def htonl (v : Nat) : List Nat :=
  [v / 2 ^ 24 % 256, v / 2 ^ 16 % 256, v / 2 ^ 8 % 256, v % 256]

/-- Modelled from the spec: `htons`, not under src/: the two bytes of a 16-bit
value in network order. -/
def htons (v : Nat) : List Nat := [v / 2 ^ 8 % 256, v % 256]

/-- A value of type `uint32_t` read as `int`. -/
def castInt (v : Nat) : Int :=
  if v % 2 ^ 32 < 2 ^ 31 then (v % 2 ^ 32 : Nat) else (v % 2 ^ 32 : Nat) - 2 ^ 32

/-! ## Data -/

/-- One attribute of a netlink message: `NFA_TYPE` and the bytes at
`NFA_DATA`, `NFA_PAYLOAD` of them. -/
structure nfattr where
  nfa_type : Nat
  data : List Nat
  deriving DecidableEq, Repr

/-- What `recvfrom` delivers to `netfilterGetPacket`. -/
structure Received where
  result : Int
  nl_addr_len : Nat
  nl_pid : Nat
  nlmsg_type : Nat
  nlmsg_len : Nat
  attrs : List nfattr
  deriving DecidableEq, Repr

/-- The message `netfilterSendMessage` builds and gives to `sendto`. -/
structure Sent where
  nlmsg_type : Nat
  nlmsg_flags : Nat
  res_id : List Nat
  nfa_type : Nat
  data : List Nat
  deriving DecidableEq, Repr

/-- Calls that leave the capture device, in program order. -/
inductive Ev where
  | sendto (msg : Sent)
  | recvfromAck
  | recvfrom
  | ww_msleep (ms : Nat)
  | bufferpoolGetSmallBuffer
  | poll
  | bufferpoolReuseBuffer (buf : sbuf_t)
  | LOGW
  | distributePacketPayload (target_wid : wid_t) (buf : sbuf_t)
  deriving DecidableEq, Repr

/-! ## Sending a message -/

/-- The function `netfilterSendMessage` of capture_linux.c lines 86-153:
whether it returns true, and the calls made. `sendtoOk` says that `sendto`
returned the size of the message, `ackOk` that the acknowledgement read at
lines 128-152 was one without error. -/
def netfilterSendMessage (sendtoOk ackOk : Bool) (nl_type nfa_type res_id : Nat)
    (ack : Bool) (msg : List Nat) : Bool × List Ev :=
  let sent : Sent :=
    { nlmsg_type := (NFNL_SUBSYS_QUEUE <<< 8) ||| nl_type,
      nlmsg_flags := NLM_F_REQUEST ||| (if ack then NLM_F_ACK else 0),
      res_id := htons res_id, nfa_type := nfa_type, data := msg }
  if ¬ sendtoOk then (false, [Ev.sendto sent])
  else if ¬ ack then (true, [Ev.sendto sent])
  else (ackOk, [Ev.sendto sent, Ev.recvfromAck])

/-! ## Reading one packet -/

/-- The locals of the attribute walk of `netfilterGetPacket`. -/
structure Walk where
  found_data : Bool
  found_pkt_hdr : Bool
  nl_data : List Nat
  nl_pkt_hdr : List Nat
  deriving DecidableEq, Repr

/-- capture_linux.c lines 236-262: the walk over the attributes; `none` is the
`return -1` for a type seen twice. -/
def walkAttrs : List nfattr → Walk → Option Walk
  | [], wk => some wk
  | a :: rest, wk =>
    if a.nfa_type = NFQA_PAYLOAD then
      if wk.found_data then none
      else walkAttrs rest { wk with found_data := true, nl_data := a.data }
    else if a.nfa_type = NFQA_PACKET_HDR then
      if wk.found_pkt_hdr then none
      else walkAttrs rest { wk with found_pkt_hdr := true, nl_pkt_hdr := a.data }
    else walkAttrs rest wk

/-- The verdict header of lines 270-272 as it lies in memory: `htonl(NF_DROP)`
and the `packet_id` of the packet header, its first four bytes as received. -/
def verdictFor (nl_pkt_hdr : List Nat) : List Nat := htonl NF_DROP ++ nl_pkt_hdr.take 4

/-- The function `netfilterGetPacket(netfilter_socket, qnumber, buff)` of
capture_linux.c lines 186-291 for the message `r`: the return value, the
output buffer afterwards and the calls made after `recvfrom`. -/
def netfilterGetPacket (sendtoOk : Bool) (qnumber : Nat) (r : Received) (buff : sbuf_t) :
    Int × sbuf_t × List Ev :=
  if r.result ≤ (sizeof_nlmsghdr : Int) then (-1, buff, [])
  else if r.nl_addr_len ≠ sizeof_sockaddr_nl ∨ r.nl_pid ≠ 0 then (0, buff, [])
  else if NFNL_SUBSYS_ID r.nlmsg_type ≠ NFNL_SUBSYS_QUEUE then (-1, buff, [])
  else if NFNL_MSG_TYPE r.nlmsg_type ≠ NFQNL_MSG_PACKET then (-1, buff, [])
  else if r.nlmsg_len < sizeof_nfgenmsg then (-1, buff, [])
  else if castInt r.nlmsg_len < (nl_size0 : Int) then (-1, buff, [])
  else
    match walkAttrs r.attrs ⟨false, false, [], []⟩ with
    | none => (-1, buff, [])
    | some wk =>
      if !wk.found_data || !wk.found_pkt_hdr then (-1, buff, [])
      else
        let sent := netfilterSendMessage sendtoOk true NFQNL_MSG_VERDICT NFQA_VERDICT_HDR
          qnumber false (verdictFor wk.nl_pkt_hdr)
        if ¬ sent.1 then (-1, buff, sent.2)
        else ((wk.nl_data.length : Int), wk.nl_data, sent.2)

/-- The verdict messages among the calls: the messages given to `sendto` whose
type is `NFQNL_MSG_VERDICT` of the queue subsystem. -/
def verdictsSent : List Ev → List Sent
  | [] => []
  | Ev.sendto msg :: evs =>
    if msg.nlmsg_type = ((NFNL_SUBSYS_QUEUE <<< 8) ||| NFQNL_MSG_VERDICT) then
      msg :: verdictsSent evs
    else verdictsSent evs
  | _ :: evs => verdictsSent evs

/-- The message passes every check of `netfilterGetPacket` before the verdict
is sent. -/
def Accepted (r : Received) : Prop :=
  (sizeof_nlmsghdr : Int) < r.result ∧ r.nl_addr_len = sizeof_sockaddr_nl ∧ r.nl_pid = 0 ∧
  NFNL_SUBSYS_ID r.nlmsg_type = NFNL_SUBSYS_QUEUE ∧
  NFNL_MSG_TYPE r.nlmsg_type = NFQNL_MSG_PACKET ∧
  sizeof_nfgenmsg ≤ r.nlmsg_len ∧ (nl_size0 : Int) ≤ castInt r.nlmsg_len ∧
  ∃ wk, walkAttrs r.attrs ⟨false, false, [], []⟩ = some wk ∧
    wk.found_data = true ∧ wk.found_pkt_hdr = true

/-! ## The read loop -/

/-- What the surroundings answer during one pass of the loop of
`routineReadFromCapture`. -/
structure Pass where
  running : Bool
  packets_queued : Int
  buf : sbuf_t
  ret : Int
  pipe_pollin : Bool
  handle_pollin : Bool
  received : Received
  sendtoOk : Bool
  next_wid : wid_t

/-- How a pass of the loop ends. -/
inductive Next where
  | again
  | leave
  deriving DecidableEq, Repr

/-- capture_linux.c lines 313-356: one pass of the loop of
`routineReadFromCapture`, from the test of `running` on: the calls made and
whether the loop goes on. -/
def loopPass (queue_number : Nat) (p : Pass) : List Ev × Next :=
  if ¬ p.running then ([], .leave)
  else if p.packets_queued > 256 then ([Ev.ww_msleep 1], .again)
  else
    let evs := [Ev.bufferpoolGetSmallBuffer, Ev.poll]
    if p.ret > 0 then
      if p.pipe_pollin then
        (evs ++ [Ev.bufferpoolReuseBuffer p.buf, Ev.LOGW], .leave)
      else if p.handle_pollin then
        let got := netfilterGetPacket p.sendtoOk queue_number p.received p.buf
        let evs := evs ++ [Ev.recvfrom] ++ got.2.2
        if got.1 = 0 then
          (evs ++ [Ev.bufferpoolReuseBuffer got.2.1, Ev.LOGW], .leave)
        else if got.1 < 0 then
          (evs ++ [Ev.bufferpoolReuseBuffer got.2.1, Ev.LOGW], .again)
        else
          (evs ++ [Ev.distributePacketPayload p.next_wid got.2.1], .again)
      else (evs, .again)
    else (evs, .again)

/-- The loop of `routineReadFromCapture` over the passes the surroundings
allow: the calls made, pass by pass, until the loop is left. -/
def routineReadFromCapture (queue_number : Nat) : List Pass → List (List Ev)
  | [] => []
  | p :: rest =>
    match loopPass queue_number p with
    | (evs, .leave) => [evs]
    | (evs, .again) => evs :: routineReadFromCapture queue_number rest

/-- The reads of the netlink socket among the calls. -/
def netlinkReads (evs : List Ev) : Nat := evs.count Ev.recvfrom

/-! ## Dispatch to the workers -/

/-- The message record of a dispatch: `struct msg_event`, the device being the
one device of the model. -/
structure msg_event where
  buf : sbuf_t
  deriving DecidableEq, Repr

/-- The capture device with the worker loops: the counter, the events posted
to worker loops and not yet run, each with the worker it was posted to, and
the invocations of `read_event_callback` so far, each with its buffer and the
worker it ran on. -/
structure capture_device_t where
  packets_queued : Int
  posted : List (wid_t × msg_event)
  callbacks : List (sbuf_t × wid_t)
  deriving DecidableEq, Repr

/-- The function `distributePacketPayload(cdev, target_wid, buf)` of
capture_linux.c lines 66-81. -/
def distributePacketPayload (cdev : capture_device_t) (target_wid : wid_t) (buf : sbuf_t) :
    capture_device_t :=
  { cdev with packets_queued := cdev.packets_queued + 1,
              posted := cdev.posted ++ [(target_wid, ⟨buf⟩)] }

/-- The function `localThreadEventReceived(ev)` of capture_linux.c lines 54-64
for the message `msg`, on the worker `tid` whose loop runs the event. -/
def localThreadEventReceived (cdev : capture_device_t) (tid : wid_t) (msg : msg_event) :
    capture_device_t :=
  { cdev with packets_queued := cdev.packets_queued - 1,
              callbacks := cdev.callbacks ++ [(msg.buf, tid)] }

/-- One step of the device and its workers: the reader thread dispatches a
buffer, or a worker loop runs the posted event at position `k`. -/
inductive Step where
  | dispatch (target_wid : wid_t) (buf : sbuf_t)
  | event (k : Nat)
  deriving DecidableEq, Repr

/-- One step; `none` when no event is posted at position `k`. -/
def Step.run (cdev : capture_device_t) : Step → Option capture_device_t
  | .dispatch target_wid buf => some (distributePacketPayload cdev target_wid buf)
  | .event k =>
    match cdev.posted.get? k with
    | none => none
    | some (tid, msg) =>
      some (localThreadEventReceived { cdev with posted := cdev.posted.eraseIdx k } tid msg)

/-- The steps one after the other. -/
def runSteps : capture_device_t → List Step → Option capture_device_t
  | cdev, [] => some cdev
  | cdev, s :: rest =>
    match s.run cdev with
    | none => none
    | some cdev' => runSteps cdev' rest

/-- The buffers dispatched by the steps, each with its target worker. -/
def dispatched : List Step → List (sbuf_t × wid_t)
  | [] => []
  | .dispatch target_wid buf :: rest => (buf, target_wid) :: dispatched rest
  | .event _ :: rest => dispatched rest

/-! ## Sample values for the concrete runs -/

/-- A packet message of the queue subsystem with a packet header (id
`00 00 00 2A`) and a payload of four bytes. -/
def receivedSample : Received :=
  { result := 60, nl_addr_len := 12, nl_pid := 0, nlmsg_type := 0x0300, nlmsg_len := 60,
    attrs := [⟨NFQA_PACKET_HDR, [0, 0, 0, 0x2A, 0x08, 0x00, 1]⟩,
              ⟨NFQA_PAYLOAD, [0x45, 0, 0, 4]⟩] }

/-- A pass of the loop at queue depth `depth` in which the socket is readable
and delivers `receivedSample`. -/
def passAt (depth : Int) : Pass :=
  { running := true, packets_queued := depth, buf := [], ret := 1, pipe_pollin := false,
    handle_pollin := true, received := receivedSample, sendtoOk := true, next_wid := 0 }

/-- A device at rest: counter `n`, nothing posted, no callback run. -/
def cdevIdle (n : Int) : capture_device_t := { packets_queued := n, posted := [], callbacks := [] }

end Capture

namespace HalfDuplexServer

open connection_state

/-! ## Buffers and the header -/

theorem testBit_128_7 : Nat.testBit 128 7 = true := by decide

theorem and_128_eq_zero_iff (b : Nat) : b &&& 128 = 0 ↔ b.testBit 7 = false := by
  constructor
  · intro h
    have := Nat.testBit_and b 128 7
    rw [h, testBit_128_7] at this
    simpa using this.symm
  · intro h
    apply Nat.eq_of_testBit_eq
    intro i
    have h128 : (128 : Nat) = 2 ^ 7 := by norm_num
    rw [Nat.testBit_and, h128, Nat.testBit_two_pow]
    by_cases hi : 7 = i
    · subst hi; simp [h]
    · simp [hi]

theorem and_127 (b : Nat) : b &&& 127 = b % 128 := by
  have := Nat.and_pow_two_sub_one_eq_mod b 7
  simpa using this

theorem readUI64_cons8 (b0 b1 b2 b3 b4 b5 b6 b7 : Nat) (rest : sbuf_t) :
    sbufReadUnAlignedUI64 (b0 :: b1 :: b2 :: b3 :: b4 :: b5 :: b6 :: b7 :: rest) =
      b0 % 256 + 256 * (b1 % 256 + 256 * (b2 % 256 + 256 * (b3 % 256 + 256 * (b4 % 256 +
        256 * (b5 % 256 + 256 * (b6 % 256 + 256 * (b7 % 256))))))) := by
  simp [sbufReadUnAlignedUI64]

theorem shift8_ok (b : sbuf_t) (h : 8 ≤ b.length) : sbufShiftRight b 8 = .ok (b.drop 8) := by
  simp [sbufShiftRight, h]

theorem headerCleared_length (b : sbuf_t) : (headerCleared b).length = b.length := by
  simp [headerCleared, sbufSetByte0]

theorem headerCleared_drop (b : sbuf_t) (n : Nat) (h : 0 < n) :
    (headerCleared b).drop n = b.drop n := by
  cases b with
  | nil => simp [headerCleared, sbufSetByte0]
  | cons x xs =>
    cases n with
    | zero => exact absurd h (Nat.lt_irrefl 0)
    | succ k => simp [headerCleared, sbufSetByte0]

theorem headerCleared_cons (x : Nat) (xs : sbuf_t) :
    headerCleared (x :: xs) = x % 128 :: xs := by
  simp [headerCleared, sbufSetByte0, sbufByte0, kHLFDCmdUpload, and_127]

theorem headerIsUpload_cons (x : Nat) (xs : sbuf_t) :
    headerIsUpload (x :: xs) ↔ x.testBit 7 = false := by
  simp [headerIsUpload, sbufByte0, kHLFDCmdDownload, and_128_eq_zero_iff]

/-! ## Reading a world after writes -/

@[simp] theorem modLs_same (w : World) (l : line_t)
    (f : halfduplexserver_lstate_t → halfduplexserver_lstate_t) :
    (w.modLs l f).lineGetState l = f (w.lineGetState l) := by
  simp [World.modLs]

theorem modLs_other (w : World) (l x : line_t)
    (f : halfduplexserver_lstate_t → halfduplexserver_lstate_t) (h : x ≠ l) :
    (w.modLs l f).lineGetState x = w.lineGetState x := by
  simp [World.modLs, Function.update_noteq h]

@[simp] theorem modLs_ts (w : World) (l : line_t)
    (f : halfduplexserver_lstate_t → halfduplexserver_lstate_t) :
    (w.modLs l f).tunnelGetState = w.tunnelGetState := rfl

@[simp] theorem modLs_wid (w : World) (l : line_t)
    (f : halfduplexserver_lstate_t → halfduplexserver_lstate_t) :
    (w.modLs l f).lineGetWID = w.lineGetWID := rfl

@[simp] theorem setTs_ls (w : World) (ts : halfduplexserver_tstate_t) :
    (w.setTs ts).lineGetState = w.lineGetState := rfl

@[simp] theorem setTs_ts (w : World) (ts : halfduplexserver_tstate_t) :
    (w.setTs ts).tunnelGetState = ts := rfl

@[simp] theorem setTs_wid (w : World) (ts : halfduplexserver_tstate_t) :
    (w.setTs ts).lineGetWID = w.lineGetWID := rfl

@[simp] theorem setWID_ls (w : World) (l : line_t) (v : wid_t) :
    (w.setWID l v).lineGetState = w.lineGetState := rfl

@[simp] theorem setWID_ts (w : World) (l : line_t) (v : wid_t) :
    (w.setWID l v).tunnelGetState = w.tunnelGetState := rfl

@[simp] theorem destroyLs_same (w : World) (l : line_t) :
    (w.destroyLs l).lineGetState l = halfduplexserverLinestateInitialize := by
  simp [World.destroyLs, halfduplexserverLinestateDestroy, halfduplexserverLinestateInitialize]

theorem destroyLs_other (w : World) (l x : line_t) (h : x ≠ l) :
    (w.destroyLs l).lineGetState x = w.lineGetState x := by
  simp [World.destroyLs, modLs_other _ _ _ _ h]

@[simp] theorem destroyLs_ts (w : World) (l : line_t) :
    (w.destroyLs l).tunnelGetState = w.tunnelGetState := rfl

@[simp] theorem withHeader_same (w : World) (l : line_t) (hash : hash_t) :
    (w.withHeader l hash).lineGetState l =
      { w.lineGetState l with buffering := none, hash := hash } := by
  simp [World.withHeader]

theorem withHeader_other (w : World) (l x : line_t) (hash : hash_t) (h : x ≠ l) :
    (w.withHeader l hash).lineGetState x = w.lineGetState x := by
  simp [World.withHeader, modLs_other _ _ _ _ h]

@[simp] theorem withHeader_ts (w : World) (l : line_t) (hash : hash_t) :
    (w.withHeader l hash).tunnelGetState = w.tunnelGetState := rfl

@[simp] theorem withHeader_wid (w : World) (l : line_t) (hash : hash_t) :
    (w.withHeader l hash).lineGetWID = w.lineGetWID := rfl

/-! ## The branches of the payload handler -/

theorem payload_unknown_short (kMaxBuffering : Nat) (env : Env) (w : World) (l : line_t)
    (buf : sbuf_t) (hstate : (w.lineGetState l).state = kCsUnkown)
    (hlen : (pendingBytes w l buf).length < 8) :
    halfduplexserverTunnelUpStreamPayload kMaxBuffering env w l buf =
      .ok ((w.modLs l (fun s => { s with buffering := none })).modLs l
        (fun s => { s with buffering := some (pendingBytes w l buf) }), []) := by
  unfold halfduplexserverTunnelUpStreamPayload
  rw [hstate]
  simp only [payloadUnknown, sbufGetLength, hlen, if_true]

theorem payload_unknown_header (kMaxBuffering : Nat) (env : Env) (w : World) (l : line_t)
    (buf : sbuf_t) (hstate : (w.lineGetState l).state = kCsUnkown)
    (hlen : 8 ≤ (pendingBytes w l buf).length) :
    halfduplexserverTunnelUpStreamPayload kMaxBuffering env w l buf =
      if headerIsUpload (pendingBytes w l buf) then
        payloadUnknownUpload env (w.withHeader l (headerHash (pendingBytes w l buf))) l
          (headerCleared (pendingBytes w l buf)) (headerHash (pendingBytes w l buf))
      else
        payloadUnknownDownload env (w.withHeader l (headerHash (pendingBytes w l buf))) l
          (headerCleared (pendingBytes w l buf)) (headerHash (pendingBytes w l buf)) := by
  have hlen' : ¬ sbufGetLength (pendingBytes w l buf) < 8 := by
    simp only [sbufGetLength]; omega
  unfold halfduplexserverTunnelUpStreamPayload
  rw [hstate]
  simp only [payloadUnknown, hlen', if_false, World.withHeader]

end HalfDuplexServer

namespace HalfDuplexServer

open connection_state

theorem headerHash_cons8 (b0 b1 b2 b3 b4 b5 b6 b7 : Nat) (rest : sbuf_t)
    (hb : ∀ x ∈ [b0, b1, b2, b3, b4, b5, b6, b7], x < 256) :
    headerHash (b0 :: b1 :: b2 :: b3 :: b4 :: b5 :: b6 :: b7 :: rest) =
      le64 (b0 % 128) b1 b2 b3 b4 b5 b6 b7 := by
  have h1 := hb b1 (by simp)
  have h2 := hb b2 (by simp)
  have h3 := hb b3 (by simp)
  have h4 := hb b4 (by simp)
  have h5 := hb b5 (by simp)
  have h6 := hb b6 (by simp)
  have h7 := hb b7 (by simp)
  have h0 : b0 % 128 % 256 = b0 % 128 := by omega
  simp only [headerHash, headerCleared_cons, readUI64_cons8, le64]
  rw [h0, Nat.mod_eq_of_lt h1, Nat.mod_eq_of_lt h2, Nat.mod_eq_of_lt h3,
    Nat.mod_eq_of_lt h4, Nat.mod_eq_of_lt h5, Nat.mod_eq_of_lt h6, Nat.mod_eq_of_lt h7]
  ring

theorem le64_lt (b0 b1 b2 b3 b4 b5 b6 b7 : Nat)
    (hb : ∀ x ∈ [b0, b1, b2, b3, b4, b5, b6, b7], x < 256) :
    le64 b0 b1 b2 b3 b4 b5 b6 b7 < 2 ^ 64 := by
  have h0 := hb b0 (by simp)
  have h1 := hb b1 (by simp)
  have h2 := hb b2 (by simp)
  have h3 := hb b3 (by simp)
  have h4 := hb b4 (by simp)
  have h5 := hb b5 (by simp)
  have h6 := hb b6 (by simp)
  have h7 := hb b7 (by simp)
  simp only [le64]
  omega

/-- Upload arrives and no download waits under its hash (payload.c 106-128,
the insert succeeds). -/
theorem upload_wait (env : Env) (w : World) (l : line_t) (buf : sbuf_t) (hash : hash_t)
    (hd : w.tunnelGetState.download_line_map hash = none)
    (hu : w.tunnelGetState.upload_line_map hash = none) :
    ∃ w', payloadUnknownUpload env w l buf hash = .ok (w', []) ∧
      w'.lineGetState l = { w.lineGetState l with
        state := kCsUploadInTable, upload_line := some l, buffering := some buf } ∧
      (∀ x, x ≠ l → w'.lineGetState x = w.lineGetState x) ∧
      w'.tunnelGetState.download_line_map = w.tunnelGetState.download_line_map ∧
      w'.tunnelGetState.upload_line_map =
        Function.update w.tunnelGetState.upload_line_map hash (some l) := by
  simp only [payloadUnknownUpload, hmap_cons_t_find, modLs_ts, hd, hmap_cons_t_insert, hu,
    if_false, Bool.true_eq_false]
  refine ⟨_, rfl, ?_, ?_, ?_, ?_⟩
  · simp
  · intro x hx; simp [modLs_other, hx]
  · simp
  · simp

theorem upload_wait_wid (env : Env) (w w' : World) (l : line_t) (buf : sbuf_t)
    (hash : hash_t) (evs : List Ev)
    (hd : w.tunnelGetState.download_line_map hash = none)
    (hu : w.tunnelGetState.upload_line_map hash = none)
    (h : payloadUnknownUpload env w l buf hash = .ok (w', evs)) :
    w'.lineGetWID = w.lineGetWID := by
  simp only [payloadUnknownUpload, hmap_cons_t_find, modLs_ts, hd, hmap_cons_t_insert, hu,
    if_false, Bool.true_eq_false] at h
  injection h with h; injection h with h1 h2; subst h1
  rfl

/-- Upload arrives, no download waits and the hash is taken in the upload map
(payload.c 115-123). -/
theorem upload_duplicate (env : Env) (w : World) (l first : line_t) (buf : sbuf_t)
    (hash : hash_t)
    (hd : w.tunnelGetState.download_line_map hash = none)
    (hu : w.tunnelGetState.upload_line_map hash = some first) :
    ∃ w', payloadUnknownUpload env w l buf hash = .ok (w',
        [Ev.LOGW, Ev.linestateDestroy l, Ev.bufferpoolReuseBuffer l (some buf),
          Ev.tunnelPrevDownStreamFinish l]) ∧
      w'.lineGetState l = halfduplexserverLinestateInitialize ∧
      (∀ x, x ≠ l → w'.lineGetState x = w.lineGetState x) ∧
      w'.tunnelGetState = w.tunnelGetState := by
  simp only [payloadUnknownUpload, hmap_cons_t_find, modLs_ts, hd, hmap_cons_t_insert, hu,
    if_true]
  refine ⟨_, rfl, ?_, ?_, ?_⟩
  · simp
  · intro x hx; simp [modLs_other, destroyLs_other, hx]
  · simp

/-- Upload arrives and the waiting download is pinned to another worker
(payload.c 94-104). -/
theorem upload_cross_worker (env : Env) (w : World) (l d dl : line_t) (buf : sbuf_t)
    (hash : hash_t)
    (hmap : w.tunnelGetState.download_line_map hash = some d)
    (hddl : (w.lineGetState d).download_line = some dl)
    (hwid : w.lineGetWID dl ≠ env.getWID) (hdl : d ≠ l) :
    ∃ w', payloadUnknownUpload env w l buf hash = .ok (w',
        [Ev.linestateDestroy l, Ev.pipeTo l (w.lineGetWID dl),
          Ev.tunnelNextUpStreamPayload tunnel_t.t_prev l buf]) ∧
      w'.lineGetState l = halfduplexserverLinestateInitialize ∧
      (∀ x, x ≠ l → w'.lineGetState x = w.lineGetState x) ∧
      w'.tunnelGetState = w.tunnelGetState := by
  simp only [payloadUnknownUpload, hmap_cons_t_find, modLs_ts, hmap,
    modLs_other _ _ _ _ hdl, hddl, modLs_wid, hwid, if_false]
  refine ⟨_, rfl, ?_, ?_, ?_⟩
  · simp
  · intro x hx; simp [modLs_other, destroyLs_other, hx]
  · simp

/-- Download arrives and no upload waits under its hash (payload.c 209-227,
the insert succeeds). -/
theorem download_wait (env : Env) (w : World) (l : line_t) (buf : sbuf_t) (hash : hash_t)
    (hd : w.tunnelGetState.download_line_map hash = none)
    (hu : w.tunnelGetState.upload_line_map hash = none) :
    ∃ w', payloadUnknownDownload env w l buf hash =
        .ok (w', [Ev.bufferpoolReuseBuffer l (some buf)]) ∧
      w'.lineGetState l = { w.lineGetState l with
        state := kCsDownloadInTable, download_line := some l } ∧
      (∀ x, x ≠ l → w'.lineGetState x = w.lineGetState x) ∧
      w'.tunnelGetState.upload_line_map = w.tunnelGetState.upload_line_map ∧
      w'.tunnelGetState.download_line_map =
        Function.update w.tunnelGetState.download_line_map hash (some l) := by
  simp only [payloadUnknownDownload, hmap_cons_t_find, modLs_ts, hu, hmap_cons_t_insert, hd,
    if_false, Bool.true_eq_false]
  refine ⟨_, rfl, ?_, ?_, ?_, ?_⟩
  · simp
  · intro x hx; simp [modLs_other, hx]
  · simp
  · simp

theorem download_wait_wid (env : Env) (w w' : World) (l : line_t) (buf : sbuf_t)
    (hash : hash_t) (evs : List Ev)
    (hd : w.tunnelGetState.download_line_map hash = none)
    (hu : w.tunnelGetState.upload_line_map hash = none)
    (h : payloadUnknownDownload env w l buf hash = .ok (w', evs)) :
    w'.lineGetWID = w.lineGetWID := by
  simp only [payloadUnknownDownload, hmap_cons_t_find, modLs_ts, hu, hmap_cons_t_insert, hd,
    if_false, Bool.true_eq_false] at h
  injection h with h; injection h with h1 h2; subst h1
  rfl

/-- Download arrives, no upload waits and the hash is taken in the download
map (payload.c 219-226). -/
theorem download_duplicate (env : Env) (w : World) (l first : line_t) (buf : sbuf_t)
    (hash : hash_t)
    (hu : w.tunnelGetState.upload_line_map hash = none)
    (hd : w.tunnelGetState.download_line_map hash = some first) :
    ∃ w', payloadUnknownDownload env w l buf hash = .ok (w',
        [Ev.bufferpoolReuseBuffer l (some buf), Ev.LOGW, Ev.linestateDestroy l,
          Ev.tunnelPrevDownStreamFinish l]) ∧
      w'.lineGetState l = halfduplexserverLinestateInitialize ∧
      (∀ x, x ≠ l → w'.lineGetState x = w.lineGetState x) ∧
      w'.tunnelGetState = w.tunnelGetState := by
  simp only [payloadUnknownDownload, hmap_cons_t_find, modLs_ts, hu, hmap_cons_t_insert, hd,
    if_true]
  refine ⟨_, rfl, ?_, ?_, ?_⟩
  · simp
  · intro x hx; simp [modLs_other, destroyLs_other, hx]
  · simp

/-- Download arrives and the waiting upload is pinned to another worker
(payload.c 197-207). -/
theorem download_cross_worker (env : Env) (w : World) (l u ul : line_t) (buf : sbuf_t)
    (hash : hash_t)
    (hmap : w.tunnelGetState.upload_line_map hash = some u)
    (huul : (w.lineGetState u).upload_line = some ul)
    (hwid : w.lineGetWID ul ≠ env.getWID) (hul : u ≠ l) :
    ∃ w', payloadUnknownDownload env w l buf hash = .ok (w',
        [Ev.linestateDestroy l, Ev.pipeTo l (w.lineGetWID ul),
          Ev.tunnelNextUpStreamPayload tunnel_t.t_prev l buf]) ∧
      w'.lineGetState l = halfduplexserverLinestateInitialize ∧
      (∀ x, x ≠ l → w'.lineGetState x = w.lineGetState x) ∧
      w'.tunnelGetState = w.tunnelGetState := by
  simp only [payloadUnknownDownload, hmap_cons_t_find, modLs_ts, hmap,
    modLs_other _ _ _ _ hul, huul, modLs_wid, hwid, if_false]
  refine ⟨_, rfl, ?_, ?_, ?_⟩
  · simp
  · intro x hx; simp [modLs_other, destroyLs_other, hx]
  · simp

/-- Upload arrives, download waits on the same worker (payload.c 42-93). -/
theorem upload_splice (env : Env) (w : World) (l d : line_t) (buf : sbuf_t) (hash : hash_t)
    (hmap : w.tunnelGetState.download_line_map hash = some d)
    (hdst : (w.lineGetState d).state = kCsDownloadInTable)
    (hddl : (w.lineGetState d).download_line = some d)
    (hwid : w.lineGetWID d = env.getWID)
    (hdl : d ≠ l) (hml : env.lineCreate ≠ l) (hmd : env.lineCreate ≠ d)
    (hlen : 8 ≤ buf.length) :
    ∃ w', payloadUnknownUpload env w l buf hash = .ok (w',
        [Ev.lineCreate env.lineCreate, Ev.linestateInitialize env.lineCreate,
          Ev.lineLock env.lineCreate, Ev.tunnelNextUpStreamInit env.lineCreate] ++
        (if env.lineIsAlive = false then
          [Ev.bufferpoolReuseBuffer l (some buf), Ev.lineUnlock env.lineCreate]
        else if 0 < (buf.drop 8).length then
          [Ev.lineUnlock env.lineCreate,
            Ev.tunnelNextUpStreamPayload tunnel_t.t env.lineCreate (buf.drop 8)]
        else
          [Ev.lineUnlock env.lineCreate, Ev.bufferpoolReuseBuffer l (some (buf.drop 8))])) ∧
      w'.lineGetState l = { w.lineGetState l with
        state := kCsUploadDirect, upload_line := some l, download_line := some d,
        main_line := some env.lineCreate } ∧
      w'.lineGetState d = { w.lineGetState d with
        state := kCsDownloadDirect, upload_line := some l,
        main_line := some env.lineCreate } ∧
      w'.lineGetState env.lineCreate = { halfduplexserverLinestateInitialize with
        upload_line := some l, download_line := some d,
        main_line := some env.lineCreate } ∧
      (∀ x, x ≠ l → x ≠ d → x ≠ env.lineCreate → w'.lineGetState x = w.lineGetState x) ∧
      w'.tunnelGetState.upload_line_map = w.tunnelGetState.upload_line_map ∧
      w'.tunnelGetState.download_line_map =
        Function.update w.tunnelGetState.download_line_map hash none := by
  have hld : l ≠ d := fun h => hdl h.symm
  simp only [payloadUnknownUpload, hmap_cons_t_find, modLs_ts, hmap, modLs_other _ _ _ _ hdl,
    hddl, modLs_wid, hwid, if_true, setTs_ls, hdst, ne_eq, not_true_eq_false, if_false,
    spliceUploadArrived, shift8_ok _ hlen, sbufGetLength, gt_iff_lt]
  have hdrop : (0 < buf.length - 8) = (0 < (buf.drop 8).length) := by simp
  cases halive : env.lineIsAlive
  case false =>
    simp only [if_true]
    refine ⟨_, rfl, ?_, ?_, ?_, ?_, ?_, ?_⟩
    · simp [modLs_other, hml, hmd, hdl, hld, Ne.symm hml, Ne.symm hmd]
    · simp [modLs_other, hml, hmd, hdl, hld, Ne.symm hml, Ne.symm hmd, hddl]
    · simp [modLs_other, hml, hmd, hdl, hld, Ne.symm hml, Ne.symm hmd]
    · intro x hxl hxd hxm
      simp [modLs_other, hxl, hxd, hxm]
    · simp
    · simp [hmap_cons_t_erase_at]
  case true =>
    simp only [Bool.true_eq_false, if_false]
    split_ifs
    all_goals
      refine ⟨_, rfl, ?_, ?_, ?_, ?_, ?_, ?_⟩
      · simp [modLs_other, hml, hmd, hdl, hld, Ne.symm hml, Ne.symm hmd]
      · simp [modLs_other, hml, hmd, hdl, hld, Ne.symm hml, Ne.symm hmd, hddl]
      · simp [modLs_other, hml, hmd, hdl, hld, Ne.symm hml, Ne.symm hmd]
      · intro x hxl hxd hxm
        simp [modLs_other, hxl, hxd, hxm]
      · simp
      · simp [hmap_cons_t_erase_at]

/-- Download arrives, upload waits on the same worker (payload.c 138-196). -/
theorem download_splice (env : Env) (w : World) (l u : line_t) (buf stored : sbuf_t)
    (hash : hash_t)
    (hmap : w.tunnelGetState.upload_line_map hash = some u)
    (hust : (w.lineGetState u).state = kCsUploadInTable)
    (huul : (w.lineGetState u).upload_line = some u)
    (hwid : w.lineGetWID u = env.getWID)
    (hul : u ≠ l) (hml : env.lineCreate ≠ l) (hmu : env.lineCreate ≠ u)
    (hbuf : (w.lineGetState u).buffering = some stored) (hlen : 8 ≤ stored.length) :
    ∃ w', payloadUnknownDownload env w l buf hash = .ok (w',
        [Ev.bufferpoolReuseBuffer l (some buf),
          Ev.lineCreate env.lineCreate, Ev.linestateInitialize env.lineCreate,
          Ev.lineLock env.lineCreate, Ev.tunnelNextUpStreamInit env.lineCreate] ++
        (if env.lineIsAlive = false then [Ev.lineUnlock env.lineCreate]
        else [Ev.lineUnlock env.lineCreate,
            Ev.tunnelNextUpStreamPayload tunnel_t.t env.lineCreate (stored.drop 8)])) ∧
      w'.lineGetState l = { w.lineGetState l with
        state := kCsDownloadDirect, upload_line := some u, download_line := some l,
        main_line := some env.lineCreate } ∧
      w'.lineGetState u = { w.lineGetState u with
        state := kCsUploadDirect, download_line := some l,
        main_line := some env.lineCreate,
        buffering := if env.lineIsAlive = false then some stored else none } ∧
      w'.lineGetState env.lineCreate = { halfduplexserverLinestateInitialize with
        upload_line := some u, download_line := some l,
        main_line := some env.lineCreate } ∧
      (∀ x, x ≠ l → x ≠ u → x ≠ env.lineCreate → w'.lineGetState x = w.lineGetState x) ∧
      w'.tunnelGetState.download_line_map = w.tunnelGetState.download_line_map ∧
      w'.tunnelGetState.upload_line_map =
        Function.update w.tunnelGetState.upload_line_map hash none := by
  have hlu : l ≠ u := fun h => hul h.symm
  have hpos : 0 < stored.length := by omega
  simp only [payloadUnknownDownload, hmap_cons_t_find, modLs_ts, hmap, modLs_other _ _ _ _ hul,
    huul, modLs_wid, hwid, if_true, setTs_ls, hust, ne_eq, not_true_eq_false, if_false,
    spliceDownloadArrived, sbufGetLength, gt_iff_lt]
  cases halive : env.lineIsAlive
  case false =>
    simp only [if_true]
    refine ⟨_, rfl, ?_, ?_, ?_, ?_, ?_, ?_⟩
    · simp [modLs_other, hml, hmu, hul, hlu, Ne.symm hml, Ne.symm hmu, huul]
    · simp [modLs_other, hml, hmu, hul, hlu, Ne.symm hml, Ne.symm hmu, huul, hbuf]
    · simp [modLs_other, hml, hmu, hul, hlu, Ne.symm hml, Ne.symm hmu, huul]
    · intro x hxl hxu hxm
      simp [modLs_other, hxl, hxu, hxm]
    · simp
    · simp [hmap_cons_t_erase_at]
  case true =>
    simp only [Bool.true_eq_false, if_false, modLs_other _ _ _ _ hmu.symm,
      modLs_other _ _ _ _ hul, modLs_same, setWID_ls, setTs_ls, hbuf, hpos, if_true, shift8_ok _ hlen]
    refine ⟨_, rfl, ?_, ?_, ?_, ?_, ?_, ?_⟩
    · simp [modLs_other, hml, hmu, hul, hlu, Ne.symm hml, Ne.symm hmu, huul]
    · simp [modLs_other, hml, hmu, hul, hlu, Ne.symm hml, Ne.symm hmu, huul]
    · simp [modLs_other, hml, hmu, hul, hlu, Ne.symm hml, Ne.symm hmu, huul]
    · intro x hxl hxu hxm
      simp [modLs_other, hxl, hxu, hxm]
    · simp
    · simp [hmap_cons_t_erase_at]

end HalfDuplexServer

namespace HalfDuplexServer

open connection_state

/-! ## The header of a line in `Unknown` -/

/-- C2: a payload on a line in `Unknown` that brings the bytes at hand to at
least eight. Byte 0 loses bit 0x80 in the buffer, the hash is the
little-endian value of bytes 0..7 after that, the handler goes on in the
upload branch when bit 0x80 of byte 0 was clear and in the download branch when
it was set, and a line that finds no entry under its hash ends in
`UploadInTable` resp. `DownloadInTable` with that hash and is stored under it. -/
theorem header_classification (kMaxBuffering : Nat) (env : Env) (w : World) (l : line_t)
    (buf : sbuf_t) (b0 b1 b2 b3 b4 b5 b6 b7 : Nat) (rest : sbuf_t)
    (hstate : (w.lineGetState l).state = kCsUnkown)
    (hbytes : pendingBytes w l buf = b0 :: b1 :: b2 :: b3 :: b4 :: b5 :: b6 :: b7 :: rest)
    (hb : ∀ x ∈ [b0, b1, b2, b3, b4, b5, b6, b7], x < 256) :
    headerCleared (pendingBytes w l buf) =
        b0 % 128 :: b1 :: b2 :: b3 :: b4 :: b5 :: b6 :: b7 :: rest ∧
    Nat.testBit (b0 % 128) 7 = false ∧
    headerHash (pendingBytes w l buf) = le64 (b0 % 128) b1 b2 b3 b4 b5 b6 b7 ∧
    le64 (b0 % 128) b1 b2 b3 b4 b5 b6 b7 < 2 ^ 64 ∧
    (Nat.testBit b0 7 = false →
      halfduplexserverTunnelUpStreamPayload kMaxBuffering env w l buf =
        payloadUnknownUpload env (w.withHeader l (le64 (b0 % 128) b1 b2 b3 b4 b5 b6 b7)) l
          (b0 % 128 :: b1 :: b2 :: b3 :: b4 :: b5 :: b6 :: b7 :: rest)
          (le64 (b0 % 128) b1 b2 b3 b4 b5 b6 b7)) ∧
    (Nat.testBit b0 7 = true →
      halfduplexserverTunnelUpStreamPayload kMaxBuffering env w l buf =
        payloadUnknownDownload env (w.withHeader l (le64 (b0 % 128) b1 b2 b3 b4 b5 b6 b7)) l
          (b0 % 128 :: b1 :: b2 :: b3 :: b4 :: b5 :: b6 :: b7 :: rest)
          (le64 (b0 % 128) b1 b2 b3 b4 b5 b6 b7)) ∧
    (w.tunnelGetState.download_line_map (le64 (b0 % 128) b1 b2 b3 b4 b5 b6 b7) = none →
      w.tunnelGetState.upload_line_map (le64 (b0 % 128) b1 b2 b3 b4 b5 b6 b7) = none →
      ∃ w' evs, halfduplexserverTunnelUpStreamPayload kMaxBuffering env w l buf =
          .ok (w', evs) ∧
        (w'.lineGetState l).hash = le64 (b0 % 128) b1 b2 b3 b4 b5 b6 b7 ∧
        (Nat.testBit b0 7 = false →
          (w'.lineGetState l).state = kCsUploadInTable ∧
          w'.tunnelGetState.upload_line_map (le64 (b0 % 128) b1 b2 b3 b4 b5 b6 b7) = some l ∧
          (w'.lineGetState l).buffering =
            some (b0 % 128 :: b1 :: b2 :: b3 :: b4 :: b5 :: b6 :: b7 :: rest)) ∧
        (Nat.testBit b0 7 = true →
          (w'.lineGetState l).state = kCsDownloadInTable ∧
          w'.tunnelGetState.download_line_map (le64 (b0 % 128) b1 b2 b3 b4 b5 b6 b7) =
            some l)) := by
  have hlen : 8 ≤ (pendingBytes w l buf).length := by rw [hbytes]; simp
  have hdisp := payload_unknown_header kMaxBuffering env w l buf hstate hlen
  have hhash := headerHash_cons8 b0 b1 b2 b3 b4 b5 b6 b7 rest hb
  have hclr := headerCleared_cons b0 (b1 :: b2 :: b3 :: b4 :: b5 :: b6 :: b7 :: rest)
  have hup := headerIsUpload_cons b0 (b1 :: b2 :: b3 :: b4 :: b5 :: b6 :: b7 :: rest)
  rw [hbytes] at hdisp ⊢
  rw [hhash, hclr] at hdisp
  have hm : b0 % 128 < 256 := by omega
  refine ⟨hclr, ?_, hhash, ?_, ?_, ?_, ?_⟩
  · rw [Nat.testBit_to_div_mod]
    have : b0 % 128 / 2 ^ 7 = 0 := by omega
    simp [this]
  · apply le64_lt
    intro x hx
    simp only [List.mem_cons, List.mem_singleton, List.not_mem_nil, or_false] at hx
    rcases hx with h | h | h | h | h | h | h | h
    · rw [h]; exact hm
    all_goals exact hb x (by simp [h])
  · intro hbit
    rw [hdisp, if_pos (hup.2 hbit)]
  · intro hbit
    rw [hdisp, if_neg (fun h => by rw [hup.1 h] at hbit; exact Bool.noConfusion hbit)]
  · intro hd hu
    cases hbit : Nat.testBit b0 7
    · rw [hdisp, if_pos (hup.2 hbit)]
      obtain ⟨w', hrun, hl, -, -, hmap⟩ := upload_wait env
        (w.withHeader l (le64 (b0 % 128) b1 b2 b3 b4 b5 b6 b7)) l
        (b0 % 128 :: b1 :: b2 :: b3 :: b4 :: b5 :: b6 :: b7 :: rest)
        (le64 (b0 % 128) b1 b2 b3 b4 b5 b6 b7)
        (by simpa [World.withHeader] using hd) (by simpa [World.withHeader] using hu)
      refine ⟨w', [], hrun, ?_, ?_, ?_⟩
      · rw [hl]; simp [World.withHeader]
      · intro _
        refine ⟨by rw [hl], ?_, by rw [hl]⟩
        rw [hmap]; simp
      · intro h; exact Bool.noConfusion h
    · rw [hdisp, if_neg (fun h => by rw [hup.1 h] at hbit; exact Bool.noConfusion hbit)]
      obtain ⟨w', hrun, hl, -, -, hmap⟩ := download_wait env
        (w.withHeader l (le64 (b0 % 128) b1 b2 b3 b4 b5 b6 b7)) l
        (b0 % 128 :: b1 :: b2 :: b3 :: b4 :: b5 :: b6 :: b7 :: rest)
        (le64 (b0 % 128) b1 b2 b3 b4 b5 b6 b7)
        (by simpa [World.withHeader] using hd) (by simpa [World.withHeader] using hu)
      refine ⟨w', _, hrun, ?_, ?_, ?_⟩
      · rw [hl]; simp [World.withHeader]
      · intro h; exact Bool.noConfusion h
      · intro _
        refine ⟨by rw [hl], ?_⟩
        rw [hmap]; simp

/-- C2, at the two headers of scenario 1: `01 02 03 04 05 06 07 08` gives an
upload line with hash 0x0807060504030201, `81 02 03 04 05 06 07 08` a download
line with the same hash. -/
theorem header_classification_witness :
    headerCleared hdrDownload = hdrUpload ∧
    headerHash hdrUpload = 0x0807060504030201 ∧
    headerHash hdrDownload = 0x0807060504030201 ∧
    (∃ w' evs, halfduplexserverTunnelUpStreamPayload kMaxBufferingSample (envOn 0 true)
        (World.fresh fun _ => 0) 1 hdrUpload = .ok (w', evs) ∧
      (w'.lineGetState 1).hash = 0x0807060504030201 ∧
      (w'.lineGetState 1).state = kCsUploadInTable) ∧
    (∃ w' evs, halfduplexserverTunnelUpStreamPayload kMaxBufferingSample (envOn 0 true)
        (World.fresh fun _ => 0) 2 hdrDownload = .ok (w', evs) ∧
      (w'.lineGetState 2).hash = 0x0807060504030201 ∧
      (w'.lineGetState 2).state = kCsDownloadInTable) := by
  have hu := header_classification kMaxBufferingSample (envOn 0 true)
    (World.fresh fun _ => 0) 1 hdrUpload 0x01 0x02 0x03 0x04 0x05 0x06 0x07 0x08 []
    (by decide) (by decide) (by decide)
  have hd := header_classification kMaxBufferingSample (envOn 0 true)
    (World.fresh fun _ => 0) 2 hdrDownload 0x81 0x02 0x03 0x04 0x05 0x06 0x07 0x08 []
    (by decide) (by decide) (by decide)
  have hval : le64 (0x01 % 128) 0x02 0x03 0x04 0x05 0x06 0x07 0x08 = 0x0807060504030201 := by
    decide
  have hval' : le64 (0x81 % 128) 0x02 0x03 0x04 0x05 0x06 0x07 0x08 = 0x0807060504030201 := by
    decide
  obtain ⟨-, -, hhu, -, -, -, hwu⟩ := hu
  obtain ⟨hcd, -, hhd, -, -, -, hwd⟩ := hd
  rw [hval] at hhu hwu
  rw [hval'] at hhd hwd
  refine ⟨hcd, hhu, hhd, ?_, ?_⟩
  · obtain ⟨w', evs, hrun, hh, hst, -⟩ := hwu (by decide) (by decide)
    exact ⟨w', evs, hrun, hh, (hst (by decide)).1⟩
  · obtain ⟨w', evs, hrun, hh, -, hst⟩ := hwd (by decide) (by decide)
    exact ⟨w', evs, hrun, hh, (hst (by decide)).1⟩

end HalfDuplexServer

namespace HalfDuplexServer

open connection_state

/-! ## The splice -/

/-- C3: a splice on one worker, in either arrival order. An upload line `l`
that finds the download line `peer` waiting under its hash, or a download line
`l` that finds the upload line `peer` waiting, returns with exactly one line
created, and the three line states form the splice triangle: the sides are in
`UploadDirect` and `DownloadDirect`, both name the created line as
`main_line`, each names the two sides, and the state of the main line names
the two sides and itself. -/
theorem splice_cross_references (kMaxBuffering : Nat) (env : Env) (w : World)
    (l peer : line_t) (buf stored : sbuf_t)
    (hstate : (w.lineGetState l).state = kCsUnkown)
    (hlen : 8 ≤ (pendingBytes w l buf).length)
    (hml : env.lineCreate ≠ l) (hmp : env.lineCreate ≠ peer)
    (hwid : w.lineGetWID peer = env.getWID) :
    (headerIsUpload (pendingBytes w l buf) →
      w.tunnelGetState.download_line_map (headerHash (pendingBytes w l buf)) = some peer →
      (w.lineGetState peer).state = kCsDownloadInTable →
      (w.lineGetState peer).download_line = some peer →
      ∃ w' evs,
        halfduplexserverTunnelUpStreamPayload kMaxBuffering env w l buf = .ok (w', evs) ∧
        createdLines evs = [env.lineCreate] ∧
        SplicedTriple w' l peer env.lineCreate) ∧
    (¬ headerIsUpload (pendingBytes w l buf) →
      w.tunnelGetState.upload_line_map (headerHash (pendingBytes w l buf)) = some peer →
      (w.lineGetState peer).state = kCsUploadInTable →
      (w.lineGetState peer).upload_line = some peer →
      (w.lineGetState peer).buffering = some stored → 8 ≤ stored.length →
      ∃ w' evs,
        halfduplexserverTunnelUpStreamPayload kMaxBuffering env w l buf = .ok (w', evs) ∧
        createdLines evs = [env.lineCreate] ∧
        SplicedTriple w' peer l env.lineCreate) := by
  have hdisp := payload_unknown_header kMaxBuffering env w l buf hstate hlen
  constructor
  · intro hup hmap hpst hpdl
    have hpl : peer ≠ l := by
      intro h; rw [h, hstate] at hpst; exact absurd hpst (by decide)
    rw [hdisp, if_pos hup]
    obtain ⟨w', hrun, hl, hd, hm, -, -, -⟩ := upload_splice env
      (w.withHeader l (headerHash (pendingBytes w l buf))) l peer
      (headerCleared (pendingBytes w l buf)) (headerHash (pendingBytes w l buf))
      (by simpa using hmap) (by rw [withHeader_other _ _ _ _ hpl]; exact hpst)
      (by rw [withHeader_other _ _ _ _ hpl]; exact hpdl) (by simpa using hwid) hpl hml hmp
      (by rw [headerCleared_length]; exact hlen)
    refine ⟨w', _, hrun, ?_, ?_⟩
    · cases env.lineIsAlive
      · simp [createdLines]
      · simp only [Bool.true_eq_false, if_false]
        split_ifs <;> simp [createdLines]
    · simp [SplicedTriple, hl, hd, hm, withHeader_other _ _ _ _ hpl, hpdl]
  · intro hup hmap hpst hpul hpbuf hslen
    have hpl : peer ≠ l := by
      intro h; rw [h, hstate] at hpst; exact absurd hpst (by decide)
    rw [hdisp, if_neg hup]
    obtain ⟨w', hrun, hl, hu, hm, -, -, -⟩ := download_splice env
      (w.withHeader l (headerHash (pendingBytes w l buf))) l peer
      (headerCleared (pendingBytes w l buf)) stored (headerHash (pendingBytes w l buf))
      (by simpa using hmap) (by rw [withHeader_other _ _ _ _ hpl]; exact hpst)
      (by rw [withHeader_other _ _ _ _ hpl]; exact hpul) (by simpa using hwid) hpl hml hmp
      (by rw [withHeader_other _ _ _ _ hpl]; exact hpbuf) hslen
    refine ⟨w', _, hrun, ?_, ?_⟩
    · cases env.lineIsAlive <;> simp [createdLines]
    · simp [SplicedTriple, hl, hu, hm, withHeader_other _ _ _ _ hpl, hpul]

/-- C3, on the lines of scenario 1 in both arrival orders: the upload line 1
finds the download line 2 waiting, and the download line 2 finds the upload
line 1 waiting with its header and "hello" stored. -/
theorem splice_cross_references_witness :
    (∃ w' evs,
      halfduplexserverTunnelUpStreamPayload kMaxBufferingSample (envOn 0 true)
        (worldAfter kMaxBufferingSample (World.fresh fun _ => 0)
          [Call.payload (envOn 0 true) 2 hdrDownload]) 1 (hdrUpload ++ hello) = .ok (w', evs) ∧
      createdLines evs = [100] ∧ SplicedTriple w' 1 2 100) ∧
    (∃ w' evs,
      halfduplexserverTunnelUpStreamPayload kMaxBufferingSample (envOn 0 true)
        (worldAfter kMaxBufferingSample (World.fresh fun _ => 0)
          [Call.payload (envOn 0 true) 1 (hdrUpload ++ hello)]) 2 hdrDownload = .ok (w', evs) ∧
      createdLines evs = [100] ∧ SplicedTriple w' 1 2 100) :=
  ⟨(splice_cross_references kMaxBufferingSample (envOn 0 true)
      (worldAfter kMaxBufferingSample (World.fresh fun _ => 0)
        [Call.payload (envOn 0 true) 2 hdrDownload]) 1 2 (hdrUpload ++ hello) []
      (by decide) (by decide) (by decide) (by decide) (by decide)).1
      (by decide) (by decide) (by decide) (by decide),
   (splice_cross_references kMaxBufferingSample (envOn 0 true)
      (worldAfter kMaxBufferingSample (World.fresh fun _ => 0)
        [Call.payload (envOn 0 true) 1 (hdrUpload ++ hello)]) 2 1 hdrDownload
      (hdrUpload ++ hello)
      (by decide) (by decide) (by decide) (by decide) (by decide)).2
      (by decide) (by decide) (by decide) (by decide) (by decide) (by decide)⟩

/-! ## A second line under a hash that is taken -/

/-- C10: a line in `Unknown` whose hash has no entry in the opposite map and
an entry, for the line `first`, in its own map. The handler returns; the
tunnel state with both maps is unchanged and so is the state of `first`; the
state of the new line is destroyed; one buffer, the payload, is released; one
downstream finish is issued, for the new line. -/
theorem duplicate_rendezvous_rejected (kMaxBuffering : Nat) (env : Env) (w : World)
    (l first : line_t) (buf : sbuf_t)
    (hstate : (w.lineGetState l).state = kCsUnkown)
    (hlen : 8 ≤ (pendingBytes w l buf).length)
    (hfirst : (w.lineGetState first).state =
      if headerIsUpload (pendingBytes w l buf) then kCsUploadInTable else kCsDownloadInTable)
    (hopp : (if headerIsUpload (pendingBytes w l buf) then w.tunnelGetState.download_line_map
      else w.tunnelGetState.upload_line_map) (headerHash (pendingBytes w l buf)) = none)
    (hown : (if headerIsUpload (pendingBytes w l buf) then w.tunnelGetState.upload_line_map
      else w.tunnelGetState.download_line_map) (headerHash (pendingBytes w l buf)) =
        some first) :
    ∃ w' evs,
      halfduplexserverTunnelUpStreamPayload kMaxBuffering env w l buf = .ok (w', evs) ∧
      w'.tunnelGetState = w.tunnelGetState ∧
      w'.lineGetState first = w.lineGetState first ∧
      w'.lineGetState l = halfduplexserverLinestateInitialize ∧
      destroyCount l evs = 1 ∧
      releasedBuffers evs = [some (headerCleared (pendingBytes w l buf))] ∧
      finishedDownstream evs = [l] ∧
      createdLines evs = [] ∧
      (∀ x, x ≠ l → w'.lineGetState x = w.lineGetState x) := by
  have hdisp := payload_unknown_header kMaxBuffering env w l buf hstate hlen
  have hfl : first ≠ l := by
    intro h
    rw [h, hstate] at hfirst
    split_ifs at hfirst
  by_cases hup : headerIsUpload (pendingBytes w l buf)
  · rw [if_pos hup] at hopp hown
    rw [hdisp, if_pos hup]
    obtain ⟨w', hrun, hl, hfr, hts⟩ := upload_duplicate env
      (w.withHeader l (headerHash (pendingBytes w l buf))) l first
      (headerCleared (pendingBytes w l buf)) (headerHash (pendingBytes w l buf))
      (by simpa using hopp) (by simpa using hown)
    refine ⟨w', _, hrun, by simpa using hts, ?_, hl, ?_, ?_, ?_, ?_, ?_⟩
    · rw [hfr first hfl, withHeader_other _ _ _ _ hfl]
    · simp [destroyCount]
    · simp [releasedBuffers]
    · simp [finishedDownstream]
    · simp [createdLines]
    · intro x hx
      rw [hfr x hx, withHeader_other _ _ _ _ hx]
  · rw [if_neg hup] at hopp hown
    rw [hdisp, if_neg hup]
    obtain ⟨w', hrun, hl, hfr, hts⟩ := download_duplicate env
      (w.withHeader l (headerHash (pendingBytes w l buf))) l first
      (headerCleared (pendingBytes w l buf)) (headerHash (pendingBytes w l buf))
      (by simpa using hopp) (by simpa using hown)
    refine ⟨w', _, hrun, by simpa using hts, ?_, hl, ?_, ?_, ?_, ?_, ?_⟩
    · rw [hfr first hfl, withHeader_other _ _ _ _ hfl]
    · simp [destroyCount]
    · simp [releasedBuffers]
    · simp [finishedDownstream]
    · simp [createdLines]
    · intro x hx
      rw [hfr x hx, withHeader_other _ _ _ _ hx]

/-- C10, on scenario 3: line 1 waits in `UploadInTable` under the hash of
`01 02 03 04 05 06 07 08` and line 3 presents the same header; likewise for two
download lines 2 and 3. -/
theorem duplicate_rendezvous_rejected_witness :
    (∃ w' evs,
      halfduplexserverTunnelUpStreamPayload kMaxBufferingSample (envOn 0 true)
        (worldAfter kMaxBufferingSample (World.fresh fun _ => 0)
          [Call.payload (envOn 0 true) 1 hdrUpload]) 3 hdrUpload = .ok (w', evs) ∧
      w'.tunnelGetState = (worldAfter kMaxBufferingSample (World.fresh fun _ => 0)
          [Call.payload (envOn 0 true) 1 hdrUpload]).tunnelGetState ∧
      (w'.lineGetState 1).state = kCsUploadInTable ∧
      releasedBuffers evs = [some hdrUpload] ∧ finishedDownstream evs = [3]) ∧
    (∃ w' evs,
      halfduplexserverTunnelUpStreamPayload kMaxBufferingSample (envOn 0 true)
        (worldAfter kMaxBufferingSample (World.fresh fun _ => 0)
          [Call.payload (envOn 0 true) 2 hdrDownload]) 3 hdrDownload = .ok (w', evs) ∧
      w'.tunnelGetState = (worldAfter kMaxBufferingSample (World.fresh fun _ => 0)
          [Call.payload (envOn 0 true) 2 hdrDownload]).tunnelGetState ∧
      (w'.lineGetState 2).state = kCsDownloadInTable ∧
      releasedBuffers evs = [some hdrUpload] ∧ finishedDownstream evs = [3]) := by
  obtain ⟨w1, e1, h1, ht1, hf1, -, -, hr1, hd1, -, -⟩ :=
    duplicate_rendezvous_rejected kMaxBufferingSample (envOn 0 true)
      (worldAfter kMaxBufferingSample (World.fresh fun _ => 0)
        [Call.payload (envOn 0 true) 1 hdrUpload]) 3 1 hdrUpload
      (by decide) (by decide) (by decide) (by decide) (by decide)
  obtain ⟨w2, e2, h2, ht2, hf2, -, -, hr2, hd2, -, -⟩ :=
    duplicate_rendezvous_rejected kMaxBufferingSample (envOn 0 true)
      (worldAfter kMaxBufferingSample (World.fresh fun _ => 0)
        [Call.payload (envOn 0 true) 2 hdrDownload]) 3 2 hdrDownload
      (by decide) (by decide) (by decide) (by decide) (by decide)
  refine ⟨⟨w1, e1, h1, ht1, ?_, hr1, hd1⟩, ⟨w2, e2, h2, ht2, ?_, hr2, hd2⟩⟩
  · rw [hf1]; decide
  · rw [hf2]; decide

end HalfDuplexServer

namespace HalfDuplexServer

open connection_state

/-! ## Where the handlers part from the specification -/

/-- C4: scenario 2 with the download line arriving. Line 1 waits as upload on
worker 0; line 2 sends `81 02 03 04 05 06 07 08` on worker 1. The buffer
written to `t->prev` is `01 02 03 04 05 06 07 08`: the direction bit is gone.
Handled on worker 0 it reads as an upload header, is refused as a second upload
under the hash and line 2 is finished; line 1 keeps waiting and no line is
created. -/
theorem cross_worker_reemit_download :
    (runCalls kMaxBufferingSample (World.fresh widScenario2)
      [Call.payload (envOn 0 true) 1 (hdrUpload ++ hello),
       Call.payload (envOn 1 true) 2 hdrDownload]).events =
      some [Ev.linestateDestroy 2, Ev.pipeTo 2 0,
        Ev.tunnelNextUpStreamPayload tunnel_t.t_prev 2 hdrUpload] ∧
    hdrUpload ≠ hdrDownload ∧
    ¬ headerIsUpload hdrDownload ∧
    headerIsUpload hdrUpload ∧
    (runCalls kMaxBufferingSample (World.fresh widScenario2)
      [Call.payload (envOn 0 true) 1 (hdrUpload ++ hello),
       Call.payload (envOn 1 true) 2 hdrDownload,
       Call.payload (envOn 0 true) 2 hdrUpload]).events =
      some [Ev.linestateDestroy 2, Ev.pipeTo 2 0,
        Ev.tunnelNextUpStreamPayload tunnel_t.t_prev 2 hdrUpload,
        Ev.LOGW, Ev.linestateDestroy 2, Ev.bufferpoolReuseBuffer 2 (some hdrUpload),
        Ev.tunnelPrevDownStreamFinish 2] ∧
    ((worldAfter kMaxBufferingSample (World.fresh widScenario2)
      [Call.payload (envOn 0 true) 1 (hdrUpload ++ hello),
       Call.payload (envOn 1 true) 2 hdrDownload,
       Call.payload (envOn 0 true) 2 hdrUpload]).lineGetState 1).state = kCsUploadInTable := by
  decide

/-- C5: the pair of scenario 1 is spliced and the upload line 1 finishes. No
line is locked and no close event is posted; the download line 2 stays in
`DownloadDirect` and still names line 1 and the main line 100. -/
theorem finish_upload_side_posts_nothing :
    SplicedTriple (worldAfter kMaxBufferingSample (World.fresh fun _ => 0) (scenario1 true))
      1 2 100 ∧
    (halfduplexserverTunnelUpStreamFinish
      (worldAfter kMaxBufferingSample (World.fresh fun _ => 0) (scenario1 true)) 1).events =
      some [Ev.tunnelNextUpStreamFinish 100, Ev.linestateDestroy 1, Ev.lineDestroy none,
        Ev.linestateDestroy 1] ∧
    ((halfduplexserverTunnelUpStreamFinish
      (worldAfter kMaxBufferingSample (World.fresh fun _ => 0) (scenario1 true)) 1).events.map
        postedCloses) = some [] ∧
    ((halfduplexserverTunnelUpStreamFinish
      (worldAfter kMaxBufferingSample (World.fresh fun _ => 0) (scenario1 true)) 1).world.map
        fun w => w.lineGetState 2) =
      some { state := kCsDownloadDirect, hash := 0x0807060504030201, buffering := none,
             upload_line := some 1, download_line := some 2, main_line := some 100 } := by
  decide

/-- C6: the pair of scenario 1 is spliced and the download line 2 finishes
with its main line set. `halfduplexserverLinestateDestroy` runs twice on the
state of line 2, and the line handed to `lineDestroy` in between is read from
the state that was just destroyed. -/
theorem finish_direct_destroys_twice :
    ((worldAfter kMaxBufferingSample (World.fresh fun _ => 0) (scenario1 true)).lineGetState
      2).state = kCsDownloadDirect ∧
    ((worldAfter kMaxBufferingSample (World.fresh fun _ => 0) (scenario1 true)).lineGetState
      2).main_line = some 100 ∧
    (halfduplexserverTunnelUpStreamFinish
      (worldAfter kMaxBufferingSample (World.fresh fun _ => 0) (scenario1 true)) 2).events =
      some [Ev.tunnelNextUpStreamFinish 100, Ev.linestateDestroy 2, Ev.lineDestroy none,
        Ev.linestateDestroy 2] ∧
    ((halfduplexserverTunnelUpStreamFinish
      (worldAfter kMaxBufferingSample (World.fresh fun _ => 0) (scenario1 true)) 2).events.map
        (destroyCount 2)) = some 2 := by
  decide

/-- C8: for every value of `kMaxBuffering`, an upload line whose first payload
is its header followed by `kMaxBuffering` more bytes enters `UploadInTable`
holding all `kMaxBuffering + 8` bytes. -/
theorem first_payload_exceeds_kMaxBuffering (kMaxBuffering : Nat) :
    ∃ w' stored,
      halfduplexserverTunnelUpStreamPayload kMaxBuffering (envOn 0 true)
        (World.fresh fun _ => 0) 1 (hdrUpload ++ List.replicate kMaxBuffering 0) =
          .ok (w', []) ∧
      (w'.lineGetState 1).state = kCsUploadInTable ∧
      (w'.lineGetState 1).buffering = some stored ∧
      stored.length = kMaxBuffering + 8 ∧
      kMaxBuffering < stored.length := by
  have hstate : ((World.fresh fun _ => 0).lineGetState 1).state = kCsUnkown := rfl
  have hpend : pendingBytes (World.fresh fun _ => 0) 1
      (hdrUpload ++ List.replicate kMaxBuffering 0) =
        hdrUpload ++ List.replicate kMaxBuffering 0 := rfl
  have hlen : 8 ≤ (pendingBytes (World.fresh fun _ => 0) 1
      (hdrUpload ++ List.replicate kMaxBuffering 0)).length := by
    rw [hpend]; simp [hdrUpload]
  have hup : headerIsUpload (hdrUpload ++ List.replicate kMaxBuffering 0) := by
    simp [hdrUpload, headerIsUpload, sbufByte0, kHLFDCmdDownload]
  rw [payload_unknown_header kMaxBuffering _ _ _ _ hstate hlen, hpend, if_pos hup]
  obtain ⟨w', hrun, hl, -, -, -⟩ := upload_wait (envOn 0 true)
    ((World.fresh fun _ => 0).withHeader 1
      (headerHash (hdrUpload ++ List.replicate kMaxBuffering 0))) 1
    (headerCleared (hdrUpload ++ List.replicate kMaxBuffering 0))
    (headerHash (hdrUpload ++ List.replicate kMaxBuffering 0)) rfl rfl
  refine ⟨w', _, hrun, by rw [hl], by rw [hl], ?_, ?_⟩
  · rw [headerCleared_length]; simp [hdrUpload]
  · rw [headerCleared_length]; simp [hdrUpload]; omega

/-- C9: scenario 1 with a main line that does not survive
`tunnelNextUpStreamInit`. The upload line 1 is left in `UploadDirect` and still
holds its thirteen stored bytes. -/
theorem dead_main_line_leaves_buffering :
    ((worldAfter kMaxBufferingSample (World.fresh fun _ => 0) (scenario1 false)).lineGetState
      1).state = kCsUploadDirect ∧
    ((worldAfter kMaxBufferingSample (World.fresh fun _ => 0) (scenario1 false)).lineGetState
      1).buffering = some (hdrUpload ++ hello) ∧
    (runCalls kMaxBufferingSample (World.fresh fun _ => 0) (scenario1 false)).events =
      some [Ev.bufferpoolReuseBuffer 2 (some hdrUpload), Ev.lineCreate 100,
        Ev.linestateInitialize 100, Ev.lineLock 100, Ev.tunnelNextUpStreamInit 100,
        Ev.lineUnlock 100] := by
  decide

end HalfDuplexServer

namespace HalfDuplexServer

open connection_state

/-! ## The pairing maps and the line states -/

theorem tableEntry_modLs (w : World) (l x : line_t)
    (f : halfduplexserver_lstate_t → halfduplexserver_lstate_t) :
    tableEntry ((w.modLs l f).lineGetState x) =
      if x = l then tableEntry (f (w.lineGetState l)) else tableEntry (w.lineGetState x) := by
  by_cases h : x = l
  · subst h; simp
  · simp [h, modLs_other _ _ _ _ h]

theorem tableEntry_destroyLs (w : World) (l x : line_t) :
    tableEntry ((w.destroyLs l).lineGetState x) =
      if x = l then none else tableEntry (w.lineGetState x) := by
  by_cases h : x = l
  · subst h; simp [tableEntry, halfduplexserverLinestateInitialize]
  · simp [h, destroyLs_other _ _ _ h]

theorem tableEntry_unknown (s : halfduplexserver_lstate_t) (h : s.state = kCsUnkown) :
    tableEntry s = none := by
  simp [tableEntry, h]

theorem tableEntry_uploadDirect (s : halfduplexserver_lstate_t)
    (h : s.state = kCsUploadDirect) : tableEntry s = none := by
  simp [tableEntry, h]

theorem tableEntry_downloadDirect (s : halfduplexserver_lstate_t)
    (h : s.state = kCsDownloadDirect) : tableEntry s = none := by
  simp [tableEntry, h]

theorem tableEntry_upload_iff (s : halfduplexserver_lstate_t) (h : hash_t) :
    tableEntry s = some (true, h) ↔ s.state = kCsUploadInTable ∧ s.hash = h := by
  unfold tableEntry
  cases s.state <;> simp

theorem tableEntry_download_iff (s : halfduplexserver_lstate_t) (h : hash_t) :
    tableEntry s = some (false, h) ↔ s.state = kCsDownloadInTable ∧ s.hash = h := by
  unfold tableEntry
  cases s.state <;> simp

/-- Nothing the invariant looks at changed. -/
theorem MapsAgree.same {w w' : World} (hinv : MapsAgree w)
    (hu : w'.tunnelGetState.upload_line_map = w.tunnelGetState.upload_line_map)
    (hd : w'.tunnelGetState.download_line_map = w.tunnelGetState.download_line_map)
    (hv : ∀ x, tableEntry (w'.lineGetState x) = tableEntry (w.lineGetState x)) :
    MapsAgree w' := by
  constructor
  · intro h x; rw [hu, hv]; exact hinv.1 h x
  · intro h x; rw [hd, hv]; exact hinv.2 h x

/-- A line without entry was stored in the upload map. -/
theorem MapsAgree.insertUpload {w w' : World} (hinv : MapsAgree w) (l : line_t) (h : hash_t)
    (hnone : w.tunnelGetState.upload_line_map h = none)
    (hl : tableEntry (w.lineGetState l) = none)
    (hu : w'.tunnelGetState.upload_line_map =
      Function.update w.tunnelGetState.upload_line_map h (some l))
    (hd : w'.tunnelGetState.download_line_map = w.tunnelGetState.download_line_map)
    (hv : ∀ x, tableEntry (w'.lineGetState x) =
      if x = l then some (true, h) else tableEntry (w.lineGetState x)) :
    MapsAgree w' := by
  constructor
  · intro h' x
    rw [hu, hv, Function.update_apply]
    by_cases hx : x = l <;> by_cases hh : h' = h
    · subst hx; subst hh; simp
    · subst hx
      simp only [hh, if_false, if_true, Option.some.injEq, Prod.mk.injEq, true_and]
      constructor
      · intro hm; rw [(hinv.1 h' x).1 hm] at hl; exact Option.noConfusion hl
      · intro he; exact absurd he.symm hh
    · subst hh
      simp only [if_true, hx, if_false, Option.some.injEq]
      constructor
      · intro he; exact absurd he.symm hx
      · intro he; rw [(hinv.1 h' x).2 he] at hnone; exact Option.noConfusion hnone
    · simp only [hh, hx, if_false]; exact hinv.1 h' x
  · intro h' x
    rw [hd, hv]
    by_cases hx : x = l
    · subst hx
      simp only [if_true]
      constructor
      · intro hm; rw [(hinv.2 h' x).1 hm] at hl; exact Option.noConfusion hl
      · intro he; simp at he
    · simp only [hx, if_false]; exact hinv.2 h' x

/-- A line without entry was stored in the download map. -/
theorem MapsAgree.insertDownload {w w' : World} (hinv : MapsAgree w) (l : line_t) (h : hash_t)
    (hnone : w.tunnelGetState.download_line_map h = none)
    (hl : tableEntry (w.lineGetState l) = none)
    (hd : w'.tunnelGetState.download_line_map =
      Function.update w.tunnelGetState.download_line_map h (some l))
    (hu : w'.tunnelGetState.upload_line_map = w.tunnelGetState.upload_line_map)
    (hv : ∀ x, tableEntry (w'.lineGetState x) =
      if x = l then some (false, h) else tableEntry (w.lineGetState x)) :
    MapsAgree w' := by
  constructor
  · intro h' x
    rw [hu, hv]
    by_cases hx : x = l
    · subst hx
      simp only [if_true]
      constructor
      · intro hm; rw [(hinv.1 h' x).1 hm] at hl; exact Option.noConfusion hl
      · intro he; simp at he
    · simp only [hx, if_false]; exact hinv.1 h' x
  · intro h' x
    rw [hd, hv, Function.update_apply]
    by_cases hx : x = l <;> by_cases hh : h' = h
    · subst hx; subst hh; simp
    · subst hx
      simp only [hh, if_false, if_true, Option.some.injEq, Prod.mk.injEq, true_and]
      constructor
      · intro hm; rw [(hinv.2 h' x).1 hm] at hl; exact Option.noConfusion hl
      · intro he; exact absurd he.symm hh
    · subst hh
      simp only [if_true, hx, if_false, Option.some.injEq]
      constructor
      · intro he; exact absurd he.symm hx
      · intro he; rw [(hinv.2 h' x).2 he] at hnone; exact Option.noConfusion hnone
    · simp only [hh, hx, if_false]; exact hinv.2 h' x

/-- The entry of line `d` was erased from the upload map and the line left
`UploadInTable`. -/
theorem MapsAgree.eraseUpload {w w' : World} (hinv : MapsAgree w) (d : line_t) (h : hash_t)
    (hmap : w.tunnelGetState.upload_line_map h = some d)
    (hu : w'.tunnelGetState.upload_line_map =
      Function.update w.tunnelGetState.upload_line_map h none)
    (hd : w'.tunnelGetState.download_line_map = w.tunnelGetState.download_line_map)
    (hv : ∀ x, tableEntry (w'.lineGetState x) =
      if x = d then none else tableEntry (w.lineGetState x)) :
    MapsAgree w' := by
  have hde := (hinv.1 h d).1 hmap
  constructor
  · intro h' x
    rw [hu, hv, Function.update_apply]
    by_cases hx : x = d <;> by_cases hh : h' = h
    · simp [hx, hh]
    · subst hx
      simp only [hh, if_false, if_true]
      constructor
      · intro hm
        have := (hinv.1 h' x).1 hm
        rw [hde] at this
        simp only [Option.some.injEq, Prod.mk.injEq, true_and] at this
        exact absurd this.symm hh
      · intro he; exact Option.noConfusion he
    · subst hh
      simp only [if_true, hx, if_false]
      constructor
      · intro he; exact Option.noConfusion he
      · intro he
        have := (hinv.1 h' x).2 he
        rw [hmap] at this
        exact absurd (Option.some.inj this).symm hx
    · simp only [hh, hx, if_false]; exact hinv.1 h' x
  · intro h' x
    rw [hd, hv]
    by_cases hx : x = d
    · subst hx
      simp only [if_true]
      constructor
      · intro hm
        have := (hinv.2 h' x).1 hm
        rw [hde] at this
        simp at this
      · intro he; exact Option.noConfusion he
    · simp only [hx, if_false]; exact hinv.2 h' x

/-- The entry of line `d` was erased from the download map and the line left
`DownloadInTable`. -/
theorem MapsAgree.eraseDownload {w w' : World} (hinv : MapsAgree w) (d : line_t) (h : hash_t)
    (hmap : w.tunnelGetState.download_line_map h = some d)
    (hd : w'.tunnelGetState.download_line_map =
      Function.update w.tunnelGetState.download_line_map h none)
    (hu : w'.tunnelGetState.upload_line_map = w.tunnelGetState.upload_line_map)
    (hv : ∀ x, tableEntry (w'.lineGetState x) =
      if x = d then none else tableEntry (w.lineGetState x)) :
    MapsAgree w' := by
  have hde := (hinv.2 h d).1 hmap
  constructor
  · intro h' x
    rw [hu, hv]
    by_cases hx : x = d
    · subst hx
      simp only [if_true]
      constructor
      · intro hm
        have := (hinv.1 h' x).1 hm
        rw [hde] at this
        simp at this
      · intro he; exact Option.noConfusion he
    · simp only [hx, if_false]; exact hinv.1 h' x
  · intro h' x
    rw [hd, hv, Function.update_apply]
    by_cases hx : x = d <;> by_cases hh : h' = h
    · simp [hx, hh]
    · subst hx
      simp only [hh, if_false, if_true]
      constructor
      · intro hm
        have := (hinv.2 h' x).1 hm
        rw [hde] at this
        simp only [Option.some.injEq, Prod.mk.injEq, true_and] at this
        exact absurd this.symm hh
      · intro he; exact Option.noConfusion he
    · subst hh
      simp only [if_true, hx, if_false]
      constructor
      · intro he; exact Option.noConfusion he
      · intro he
        have := (hinv.2 h' x).2 he
        rw [hmap] at this
        exact absurd (Option.some.inj this).symm hx
    · simp only [hh, hx, if_false]; exact hinv.2 h' x

end HalfDuplexServer

namespace HalfDuplexServer

open connection_state

theorem tableEntry_setWID (w : World) (l x : line_t) (v : wid_t) :
    tableEntry ((w.setWID l v).lineGetState x) = tableEntry (w.lineGetState x) := rfl

theorem tableEntry_setTs (w : World) (ts : halfduplexserver_tstate_t) (x : line_t) :
    tableEntry ((w.setTs ts).lineGetState x) = tableEntry (w.lineGetState x) := rfl

theorem tableEntry_modLs_keep (w : World) (l x : line_t)
    (f : halfduplexserver_lstate_t → halfduplexserver_lstate_t)
    (hf : ∀ s, tableEntry (f s) = tableEntry s) :
    tableEntry ((w.modLs l f).lineGetState x) = tableEntry (w.lineGetState x) := by
  rw [tableEntry_modLs]
  split_ifs with h
  · rw [hf, h]
  · rfl

theorem tableEntry_mod_main (w : World) (l x : line_t) (v : Option line_t) :
    tableEntry ((w.modLs l (fun s => { s with main_line := v })).lineGetState x) =
      tableEntry (w.lineGetState x) :=
  tableEntry_modLs_keep _ _ _ _ (fun _ => rfl)

theorem tableEntry_mod_upload_line (w : World) (l x : line_t) (v : Option line_t) :
    tableEntry ((w.modLs l (fun s => { s with upload_line := v })).lineGetState x) =
      tableEntry (w.lineGetState x) :=
  tableEntry_modLs_keep _ _ _ _ (fun _ => rfl)

theorem tableEntry_mod_download_line (w : World) (l x : line_t) (v : Option line_t) :
    tableEntry ((w.modLs l (fun s => { s with download_line := v })).lineGetState x) =
      tableEntry (w.lineGetState x) :=
  tableEntry_modLs_keep _ _ _ _ (fun _ => rfl)

theorem tableEntry_mod_buffering (w : World) (l x : line_t) (v : Option sbuf_t) :
    tableEntry ((w.modLs l (fun s => { s with buffering := v })).lineGetState x) =
      tableEntry (w.lineGetState x) :=
  tableEntry_modLs_keep _ _ _ _ (fun _ => rfl)

theorem tableEntry_mod_refs (w : World) (l x : line_t) (a b c : Option line_t) :
    tableEntry ((w.modLs l (fun s =>
      { s with upload_line := a, download_line := b, main_line := c })).lineGetState x) =
      tableEntry (w.lineGetState x) :=
  tableEntry_modLs_keep _ _ _ _ (fun _ => rfl)

theorem tableEntry_mod_init (w : World) (l x : line_t) :
    tableEntry ((w.modLs l (fun _ => halfduplexserverLinestateInitialize)).lineGetState x) =
      if x = l then none else tableEntry (w.lineGetState x) := by
  rw [tableEntry_modLs]; rfl

theorem tableEntry_mod_state (w : World) (l x : line_t) (st : connection_state) :
    tableEntry ((w.modLs l (fun s => { s with state := st })).lineGetState x) =
      if x = l then tableEntry { w.lineGetState l with state := st }
      else tableEntry (w.lineGetState x) := by
  rw [tableEntry_modLs]

/-- payload.c 64-92 changes what the invariant sees only at the created line,
which ends without entry. -/
theorem spliceUploadArrived_entries (env : Env) (w w' : World) (l d dl : line_t)
    (buf : sbuf_t) (evs : List Ev)
    (h : spliceUploadArrived env w l d dl buf = .ok (w', evs)) :
    w'.tunnelGetState = w.tunnelGetState ∧
    ∀ x, tableEntry (w'.lineGetState x) =
      if x = env.lineCreate then none else tableEntry (w.lineGetState x) := by
  unfold spliceUploadArrived at h
  have key : ∀ x, tableEntry
      ((((((w.setWID env.lineCreate (w.lineGetWID l)).modLs d
        (fun s => { s with main_line := some env.lineCreate })).modLs l
        (fun s => { s with main_line := some env.lineCreate })).modLs env.lineCreate
        (fun _ => halfduplexserverLinestateInitialize)).modLs env.lineCreate
        (fun s => { s with upload_line := some l, download_line := some dl,
                           main_line := some env.lineCreate })).lineGetState x) =
      if x = env.lineCreate then none else tableEntry (w.lineGetState x) := by
    intro x
    rw [tableEntry_mod_refs, tableEntry_mod_init, tableEntry_mod_main, tableEntry_mod_main,
      tableEntry_setWID]
  simp only at h
  split_ifs at h
  · injection h with h; injection h with h1 h2; subst h1; exact ⟨rfl, key⟩
  · split at h
    · exact Except.noConfusion h
    · split_ifs at h
      · injection h with h; injection h with h1 h2; subst h1; exact ⟨rfl, key⟩
      · injection h with h; injection h with h1 h2; subst h1; exact ⟨rfl, key⟩

/-- payload.c 158-195 changes what the invariant sees only at the created
line, which ends without entry. -/
theorem spliceDownloadArrived_entries (env : Env) (w w' : World) (l u : line_t)
    (evs : List Ev) (h : spliceDownloadArrived env w l u = .ok (w', evs)) :
    w'.tunnelGetState = w.tunnelGetState ∧
    ∀ x, tableEntry (w'.lineGetState x) =
      if x = env.lineCreate then none else tableEntry (w.lineGetState x) := by
  unfold spliceDownloadArrived at h
  simp only at h
  split_ifs at h
  · injection h with h; injection h with h1 h2; subst h1
    refine ⟨rfl, fun x => ?_⟩
    rw [tableEntry_mod_refs, tableEntry_mod_init, tableEntry_mod_main, tableEntry_mod_main,
      tableEntry_setWID]
  · split at h
    · exact Except.noConfusion h
    · split_ifs at h
      · split at h
        · exact Except.noConfusion h
        · injection h with h; injection h with h1 h2; subst h1
          refine ⟨rfl, fun x => ?_⟩
          rw [tableEntry_mod_buffering, tableEntry_mod_refs, tableEntry_mod_init,
            tableEntry_mod_main, tableEntry_mod_main, tableEntry_setWID]
      · injection h with h; injection h with h1 h2; subst h1
        refine ⟨rfl, fun x => ?_⟩
        rw [tableEntry_mod_buffering, tableEntry_mod_refs, tableEntry_mod_init,
          tableEntry_mod_main, tableEntry_mod_main, tableEntry_setWID]

end HalfDuplexServer

namespace HalfDuplexServer

open connection_state

theorem tableEntry_state_direct_up (s : halfduplexserver_lstate_t) :
    tableEntry { s with state := kCsUploadDirect } = none := rfl

theorem tableEntry_state_direct_down (s : halfduplexserver_lstate_t) :
    tableEntry { s with state := kCsDownloadDirect } = none := rfl

theorem tableEntry_mod_upDirect (w : World) (l x : line_t) :
    tableEntry ((w.modLs l (fun s => { s with state := kCsUploadDirect })).lineGetState x) =
      if x = l then none else tableEntry (w.lineGetState x) := by
  rw [tableEntry_modLs]; rfl

theorem tableEntry_mod_downDirect (w : World) (l x : line_t) :
    tableEntry ((w.modLs l (fun s => { s with state := kCsDownloadDirect })).lineGetState x) =
      if x = l then none else tableEntry (w.lineGetState x) := by
  rw [tableEntry_modLs]; rfl

theorem tableEntry_mod_upInTable (w : World) (l x : line_t) :
    tableEntry ((w.modLs l (fun s => { s with state := kCsUploadInTable })).lineGetState x) =
      if x = l then some (true, (w.lineGetState l).hash)
      else tableEntry (w.lineGetState x) := by
  rw [tableEntry_modLs]; rfl

theorem tableEntry_mod_downInTable (w : World) (l x : line_t) :
    tableEntry ((w.modLs l (fun s => { s with state := kCsDownloadInTable })).lineGetState x) =
      if x = l then some (false, (w.lineGetState l).hash)
      else tableEntry (w.lineGetState x) := by
  rw [tableEntry_modLs]; rfl

theorem hash_mod_upload_line (w : World) (l : line_t) (v : Option line_t) :
    ((w.modLs l (fun s => { s with upload_line := v })).lineGetState l).hash =
      (w.lineGetState l).hash := by
  rw [modLs_same]

theorem hash_mod_download_line (w : World) (l : line_t) (v : Option line_t) :
    ((w.modLs l (fun s => { s with download_line := v })).lineGetState l).hash =
      (w.lineGetState l).hash := by
  rw [modLs_same]

/-- The upload branch of the `Unknown` handler keeps the maps and the line
states in agreement. -/
theorem payloadUnknownUpload_inv (env : Env) (w w' : World) (l : line_t) (buf : sbuf_t)
    (hash : hash_t) (evs : List Ev) (hinv : MapsAgree w)
    (hl : (w.lineGetState l).state = kCsUnkown) (hh : (w.lineGetState l).hash = hash)
    (hm : (w.lineGetState env.lineCreate).state = kCsUnkown)
    (h : payloadUnknownUpload env w l buf hash = .ok (w', evs)) : MapsAgree w' := by
  have hel : tableEntry (w.lineGetState l) = none := tableEntry_unknown _ hl
  have hem : tableEntry (w.lineGetState env.lineCreate) = none := tableEntry_unknown _ hm
  unfold payloadUnknownUpload at h
  simp only [hmap_cons_t_find, modLs_ts] at h
  split at h
  · -- a download line waits under the hash
    rename_i d hdm
    have hde := (hinv.2 hash d).1 hdm
    have hdst : (w.lineGetState d).state = kCsDownloadInTable :=
      ((tableEntry_download_iff _ _).1 hde).1
    have hdl : d ≠ l := by
      intro e; rw [e, hl] at hdst; exact absurd hdst (by decide)
    split at h
    · exact Except.noConfusion h
    · rename_i dl hddl
      split_ifs at h with hwid hassert
      · obtain ⟨hts, hent⟩ := spliceUploadArrived_entries _ _ _ _ _ _ _ _ h
        refine MapsAgree.eraseDownload hinv d hash hdm ?_ ?_ ?_
        · rw [hts]; rfl
        · rw [hts]; rfl
        · intro x
          rw [hent, tableEntry_mod_upload_line, tableEntry_mod_downDirect,
            tableEntry_mod_upDirect, tableEntry_setTs, tableEntry_mod_download_line,
            tableEntry_mod_upload_line]
          by_cases hxm : x = env.lineCreate
          · subst hxm; simp [hem]
          · by_cases hxd : x = d
            · simp [hxd]
            · by_cases hxl : x = l
              · subst hxl; simp [hxd, hel]
              · simp [hxm, hxd, hxl]
      · injection h with h; injection h with h1 h2; subst h1
        refine MapsAgree.same hinv rfl rfl (fun x => ?_)
        rw [tableEntry_destroyLs, tableEntry_mod_upload_line]
        split_ifs with e
        · rw [e, hel]
        · rfl
  · -- no download line waits: insert into the upload map
    rename_i hdm
    cases hum : w.tunnelGetState.upload_line_map hash with
    | some first =>
      simp only [hmap_cons_t_insert, modLs_ts, hum, if_true] at h
      injection h with h; injection h with h1 h2; subst h1
      refine MapsAgree.same hinv rfl rfl (fun x => ?_)
      rw [tableEntry_destroyLs, tableEntry_setTs, tableEntry_mod_upInTable,
        tableEntry_mod_upload_line]
      split_ifs with e
      · rw [e, hel]
      · rfl
    | none =>
      simp only [hmap_cons_t_insert, modLs_ts, hum, Bool.true_eq_false, if_false] at h
      injection h with h; injection h with h1 h2; subst h1
      refine MapsAgree.insertUpload hinv l hash hum hel rfl rfl (fun x => ?_)
      rw [tableEntry_mod_buffering, tableEntry_setTs, tableEntry_mod_upInTable,
        hash_mod_upload_line, hh, tableEntry_mod_upload_line]

/-- The download branch of the `Unknown` handler keeps the maps and the line
states in agreement. -/
theorem payloadUnknownDownload_inv (env : Env) (w w' : World) (l : line_t) (buf : sbuf_t)
    (hash : hash_t) (evs : List Ev) (hinv : MapsAgree w)
    (hl : (w.lineGetState l).state = kCsUnkown) (hh : (w.lineGetState l).hash = hash)
    (hm : (w.lineGetState env.lineCreate).state = kCsUnkown)
    (h : payloadUnknownDownload env w l buf hash = .ok (w', evs)) : MapsAgree w' := by
  have hel : tableEntry (w.lineGetState l) = none := tableEntry_unknown _ hl
  have hem : tableEntry (w.lineGetState env.lineCreate) = none := tableEntry_unknown _ hm
  unfold payloadUnknownDownload at h
  simp only [hmap_cons_t_find, modLs_ts] at h
  split at h
  · -- an upload line waits under the hash
    rename_i u hum
    have hue := (hinv.1 hash u).1 hum
    have hust : (w.lineGetState u).state = kCsUploadInTable :=
      ((tableEntry_upload_iff _ _).1 hue).1
    have hul : u ≠ l := by
      intro e; rw [e, hl] at hust; exact absurd hust (by decide)
    split at h
    · exact Except.noConfusion h
    · rename_i ul huul
      split_ifs at h with hwid hassert
      · split at h
        · exact Except.noConfusion h
        · rename_i w2 evs2 hsp
          injection h with h; injection h with h1 h2; subst h1
          obtain ⟨hts, hent⟩ := spliceDownloadArrived_entries _ _ _ _ _ _ hsp
          refine MapsAgree.eraseUpload hinv u hash hum ?_ ?_ ?_
          · rw [hts]; rfl
          · rw [hts]; rfl
          · intro x
            rw [hent, tableEntry_mod_download_line, tableEntry_mod_upDirect,
              tableEntry_mod_upload_line, tableEntry_mod_downDirect, tableEntry_setTs,
              tableEntry_mod_download_line]
            by_cases hxm : x = env.lineCreate
            · subst hxm; simp [hem]
            · by_cases hxu : x = u
              · simp [hxu]
              · by_cases hxl : x = l
                · subst hxl; simp [hxu, hel]
                · simp [hxm, hxu, hxl]
      · injection h with h; injection h with h1 h2; subst h1
        refine MapsAgree.same hinv rfl rfl (fun x => ?_)
        rw [tableEntry_destroyLs, tableEntry_mod_download_line]
        split_ifs with e
        · rw [e, hel]
        · rfl
  · -- no upload line waits: insert into the download map
    rename_i hum
    cases hdm : w.tunnelGetState.download_line_map hash with
    | some first =>
      simp only [hmap_cons_t_insert, modLs_ts, hdm, if_true] at h
      injection h with h; injection h with h1 h2; subst h1
      refine MapsAgree.same hinv rfl rfl (fun x => ?_)
      rw [tableEntry_destroyLs, tableEntry_setTs, tableEntry_mod_downInTable,
        tableEntry_mod_download_line]
      split_ifs with e
      · rw [e, hel]
      · rfl
    | none =>
      simp only [hmap_cons_t_insert, modLs_ts, hdm, Bool.true_eq_false, if_false] at h
      injection h with h; injection h with h1 h2; subst h1
      refine MapsAgree.insertDownload hinv l hash hdm hel rfl rfl (fun x => ?_)
      rw [tableEntry_setTs, tableEntry_mod_downInTable,
        hash_mod_download_line, hh, tableEntry_mod_download_line]

end HalfDuplexServer

namespace HalfDuplexServer

open connection_state

/-- Every payload call that returns keeps the maps and the line states in
agreement. -/
theorem payload_keeps_MapsAgree (kMaxBuffering : Nat) (env : Env) (w w' : World)
    (l : line_t) (buf : sbuf_t) (evs : List Ev) (hinv : MapsAgree w)
    (hm : (w.lineGetState env.lineCreate).state = kCsUnkown)
    (h : halfduplexserverTunnelUpStreamPayload kMaxBuffering env w l buf = .ok (w', evs)) :
    MapsAgree w' := by
  unfold halfduplexserverTunnelUpStreamPayload at h
  split at h
  · -- Unknown
    rename_i hst
    have hel : tableEntry (w.lineGetState l) = none := tableEntry_unknown _ hst
    unfold payloadUnknown at h
    simp only at h
    split_ifs at h with hshort hup
    · injection h with h; injection h with h1 h2; subst h1
      refine MapsAgree.same hinv rfl rfl (fun x => ?_)
      rw [tableEntry_mod_buffering, tableEntry_mod_buffering]
    · have hw : MapsAgree ((w.modLs l (fun s => { s with buffering := none })).modLs l
          (fun s => { s with hash := headerHash (pendingBytes w l buf) })) := by
        refine MapsAgree.same hinv rfl rfl (fun x => ?_)
        rw [tableEntry_modLs, modLs_same]
        split_ifs with e
        · subst e; simp [tableEntry, hst]
        · rw [tableEntry_mod_buffering]
      refine payloadUnknownUpload_inv env _ w' l _ _ evs hw ?_ ?_ ?_ h
      · simp [hst]
      · simp
      · by_cases e : env.lineCreate = l
        · rw [e]; simp [hst]
        · rw [modLs_other _ _ _ _ e, modLs_other _ _ _ _ e]; exact hm
    · have hw : MapsAgree ((w.modLs l (fun s => { s with buffering := none })).modLs l
          (fun s => { s with hash := headerHash (pendingBytes w l buf) })) := by
        refine MapsAgree.same hinv rfl rfl (fun x => ?_)
        rw [tableEntry_modLs, modLs_same]
        split_ifs with e
        · subst e; simp [tableEntry, hst]
        · rw [tableEntry_mod_buffering]
      refine payloadUnknownDownload_inv env _ w' l _ _ evs hw ?_ ?_ ?_ h
      · simp [hst]
      · simp
      · by_cases e : env.lineCreate = l
        · rw [e]; simp [hst]
        · rw [modLs_other _ _ _ _ e, modLs_other _ _ _ _ e]; exact hm
  · -- UploadInTable
    unfold payloadUploadInTable at h
    simp only at h
    split_ifs at h
    · injection h with h; injection h with h1 h2; subst h1
      refine MapsAgree.same hinv rfl rfl (fun x => ?_)
      rw [tableEntry_mod_buffering, tableEntry_mod_buffering]
    · injection h with h; injection h with h1 h2; subst h1
      refine MapsAgree.same hinv rfl rfl (fun x => ?_)
      rw [tableEntry_mod_buffering]
  · -- UploadDirect
    split at h <;>
      (injection h with h; injection h with h1 h2; subst h1; exact hinv)
  · injection h with h; injection h with h1 h2; subst h1; exact hinv
  · injection h with h; injection h with h1 h2; subst h1; exact hinv

theorem finishDirectMainLine_entries (w : World) (l : line_t) :
    (finishDirectMainLine w l).1.tunnelGetState = w.tunnelGetState ∧
    ∀ x, x ≠ l → tableEntry ((finishDirectMainLine w l).1.lineGetState x) =
      tableEntry (w.lineGetState x) := by
  unfold finishDirectMainLine
  split
  · refine ⟨rfl, fun x hx => ?_⟩
    rw [tableEntry_mod_main, tableEntry_destroyLs, if_neg hx]
  · exact ⟨rfl, fun x _ => rfl⟩

theorem finishDownloadDirectPeer_entries (w : World) (l : line_t) :
    (finishDownloadDirectPeer w l).1.tunnelGetState = w.tunnelGetState ∧
    ∀ x, tableEntry ((finishDownloadDirectPeer w l).1.lineGetState x) =
      tableEntry (w.lineGetState x) := by
  unfold finishDownloadDirectPeer
  split
  · refine ⟨rfl, fun x => ?_⟩
    rw [tableEntry_mod_download_line, tableEntry_mod_main]
  · exact ⟨rfl, fun x => rfl⟩

theorem finishUploadDirectPeer_entries (w : World) (l : line_t) :
    (finishUploadDirectPeer w l).1.tunnelGetState = w.tunnelGetState ∧
    ∀ x, tableEntry ((finishUploadDirectPeer w l).1.lineGetState x) =
      tableEntry (w.lineGetState x) := by
  unfold finishUploadDirectPeer
  split
  · refine ⟨rfl, fun x => ?_⟩
    rw [tableEntry_mod_upload_line, tableEntry_mod_main]
  · exact ⟨rfl, fun x => rfl⟩

/-- fin.c 72-103 leaves the maps alone and no line enters a table state. -/
theorem finishDownloadDirect_entries (w w' : World) (l : line_t) (evs : List Ev)
    (h : finishDownloadDirect w l = .ok (w', evs)) :
    w'.tunnelGetState = w.tunnelGetState ∧
    ∀ x, tableEntry (w'.lineGetState x) =
      if x = l then none else tableEntry (w.lineGetState x) := by
  unfold finishDownloadDirect at h
  simp only at h
  injection h with h; injection h with h1 h2; subst h1
  constructor
  · rw [destroyLs_ts, (finishDownloadDirectPeer_entries _ _).1,
      (finishDirectMainLine_entries _ _).1]
    rfl
  · intro x
    rw [tableEntry_destroyLs]
    split_ifs with e
    · rfl
    · rw [(finishDownloadDirectPeer_entries _ _).2, (finishDirectMainLine_entries _ _).2 x e,
        tableEntry_mod_download_line]

/-- fin.c 105-135 leaves the maps alone and no line enters a table state. -/
theorem finishUploadDirect_entries (w w' : World) (l : line_t) (evs : List Ev)
    (h : finishUploadDirect w l = .ok (w', evs)) :
    w'.tunnelGetState = w.tunnelGetState ∧
    ∀ x, tableEntry (w'.lineGetState x) =
      if x = l then none else tableEntry (w.lineGetState x) := by
  unfold finishUploadDirect at h
  simp only at h
  injection h with h; injection h with h1 h2; subst h1
  constructor
  · rw [destroyLs_ts, (finishUploadDirectPeer_entries _ _).1,
      (finishDirectMainLine_entries _ _).1]
    rfl
  · intro x
    rw [tableEntry_destroyLs]
    split_ifs with e
    · rfl
    · rw [(finishUploadDirectPeer_entries _ _).2, (finishDirectMainLine_entries _ _).2 x e,
        tableEntry_mod_upload_line]

/-- Every finish call that returns keeps the maps and the line states in
agreement, and leaves the finished line without entry. -/
theorem finish_keeps_MapsAgree (w w' : World) (l : line_t) (evs : List Ev)
    (hinv : MapsAgree w) (h : halfduplexserverTunnelUpStreamFinish w l = .ok (w', evs)) :
    MapsAgree w' ∧ tableEntry (w'.lineGetState l) = none := by
  unfold halfduplexserverTunnelUpStreamFinish at h
  split at h
  · rename_i hst
    injection h with h; injection h with h1 h2; subst h1
    refine ⟨MapsAgree.same hinv rfl rfl (fun x => ?_), ?_⟩
    · rw [tableEntry_destroyLs]
      split_ifs with e
      · rw [e, tableEntry_unknown _ hst]
      · rfl
    · rw [tableEntry_destroyLs, if_pos rfl]
  · rename_i hst
    have hmap : w.tunnelGetState.upload_line_map (w.lineGetState l).hash = some l :=
      (hinv.1 _ l).2 ((tableEntry_upload_iff _ _).2 ⟨hst, rfl⟩)
    simp only [hmap_cons_t_find, hmap] at h
    injection h with h; injection h with h1 h2; subst h1
    refine ⟨MapsAgree.eraseUpload hinv l _ hmap rfl rfl (fun x => ?_), ?_⟩
    · rw [tableEntry_destroyLs, tableEntry_setTs]
    · rw [tableEntry_destroyLs, if_pos rfl]
  · rename_i hst
    have hmap : w.tunnelGetState.download_line_map (w.lineGetState l).hash = some l :=
      (hinv.2 _ l).2 ((tableEntry_download_iff _ _).2 ⟨hst, rfl⟩)
    simp only [hmap_cons_t_find, hmap] at h
    injection h with h; injection h with h1 h2; subst h1
    refine ⟨MapsAgree.eraseDownload hinv l _ hmap rfl rfl (fun x => ?_), ?_⟩
    · rw [tableEntry_destroyLs, tableEntry_setTs]
    · rw [tableEntry_destroyLs, if_pos rfl]
  · rename_i hst
    obtain ⟨hts, hent⟩ := finishDownloadDirect_entries w w' l evs h
    refine ⟨MapsAgree.same hinv (by rw [hts]) (by rw [hts]) (fun x => ?_), ?_⟩
    · rw [hent]
      split_ifs with e
      · rw [e, tableEntry_downloadDirect _ hst]
      · rfl
    · rw [hent, if_pos rfl]
  · rename_i hst
    obtain ⟨hts, hent⟩ := finishUploadDirect_entries w w' l evs h
    refine ⟨MapsAgree.same hinv (by rw [hts]) (by rw [hts]) (fun x => ?_), ?_⟩
    · rw [hent]
      split_ifs with e
      · rw [e, tableEntry_uploadDirect _ hst]
      · rfl
    · rw [hent, if_pos rfl]

/-- The maps agree with the line states in every reachable world. -/
theorem reachable_MapsAgree (kMaxBuffering : Nat) (w : World)
    (h : Reachable kMaxBuffering w) : MapsAgree w := by
  induction h with
  | init wid =>
    constructor <;> intro h x <;>
      simp [World.fresh, tableEntry, halfduplexserverLinestateInitialize]
  | step w w' _ hstep ih =>
    cases hstep with
    | payload env l buf _ _ evs hm hrun =>
      exact payload_keeps_MapsAgree kMaxBuffering env w w' l buf evs ih hm hrun
    | finish l _ _ evs hrun =>
      exact (finish_keeps_MapsAgree w w' l evs ih hrun).1

end HalfDuplexServer

namespace HalfDuplexServer

open connection_state

/-! ## The invariant of the pairing maps -/

/-- C7: in every world reached by payload and finish calls that return, a
line state is in `UploadInTable` exactly when the upload map sends its hash to
it, and in `DownloadInTable` exactly when the download map does; a line in a
map sits under its own hash only and is in no other map; a line in `Unknown`,
`UploadDirect` or `DownloadDirect` and a line that just finished is in no map;
and the finish handler returns for every line, so its `exit(1)` arms are never
taken. -/
theorem pairing_maps_invariant (kMaxBuffering : Nat) (w : World)
    (h : Reachable kMaxBuffering w) :
    (∀ x, (w.lineGetState x).state = kCsUploadInTable ↔
      w.tunnelGetState.upload_line_map (w.lineGetState x).hash = some x) ∧
    (∀ x, (w.lineGetState x).state = kCsDownloadInTable ↔
      w.tunnelGetState.download_line_map (w.lineGetState x).hash = some x) ∧
    (∀ x k, w.tunnelGetState.upload_line_map k = some x →
      k = (w.lineGetState x).hash ∧ ∀ k', w.tunnelGetState.download_line_map k' ≠ some x) ∧
    (∀ x k, w.tunnelGetState.download_line_map k = some x →
      k = (w.lineGetState x).hash ∧ ∀ k', w.tunnelGetState.upload_line_map k' ≠ some x) ∧
    (∀ x, (w.lineGetState x).state = kCsUnkown ∨ (w.lineGetState x).state = kCsUploadDirect ∨
        (w.lineGetState x).state = kCsDownloadDirect →
      ∀ k, w.tunnelGetState.upload_line_map k ≠ some x ∧
        w.tunnelGetState.download_line_map k ≠ some x) ∧
    (∀ l w' evs, halfduplexserverTunnelUpStreamFinish w l = .ok (w', evs) →
      ∀ k, w'.tunnelGetState.upload_line_map k ≠ some l ∧
        w'.tunnelGetState.download_line_map k ≠ some l) ∧
    (∀ l, ∃ w' evs, halfduplexserverTunnelUpStreamFinish w l = .ok (w', evs)) := by
  have hinv := reachable_MapsAgree kMaxBuffering w h
  have hup : ∀ x k, w.tunnelGetState.upload_line_map k = some x →
      (w.lineGetState x).state = kCsUploadInTable ∧ (w.lineGetState x).hash = k :=
    fun x k hk => (tableEntry_upload_iff _ _).1 ((hinv.1 k x).1 hk)
  have hdown : ∀ x k, w.tunnelGetState.download_line_map k = some x →
      (w.lineGetState x).state = kCsDownloadInTable ∧ (w.lineGetState x).hash = k :=
    fun x k hk => (tableEntry_download_iff _ _).1 ((hinv.2 k x).1 hk)
  refine ⟨?_, ?_, ?_, ?_, ?_, ?_, ?_⟩
  · intro x
    exact ⟨fun hs => (hinv.1 _ x).2 ((tableEntry_upload_iff _ _).2 ⟨hs, rfl⟩),
      fun hm => (hup x _ hm).1⟩
  · intro x
    exact ⟨fun hs => (hinv.2 _ x).2 ((tableEntry_download_iff _ _).2 ⟨hs, rfl⟩),
      fun hm => (hdown x _ hm).1⟩
  · intro x k hk
    refine ⟨(hup x k hk).2.symm, fun k' hk' => ?_⟩
    have h1 := (hup x k hk).1
    rw [(hdown x k' hk').1] at h1
    exact absurd h1 (by decide)
  · intro x k hk
    refine ⟨(hdown x k hk).2.symm, fun k' hk' => ?_⟩
    have h1 := (hdown x k hk).1
    rw [(hup x k' hk').1] at h1
    exact absurd h1 (by decide)
  · intro x hx k
    constructor
    · intro hk
      have h1 := (hup x k hk).1
      rcases hx with e | e | e <;> rw [e] at h1 <;> exact absurd h1 (by decide)
    · intro hk
      have h1 := (hdown x k hk).1
      rcases hx with e | e | e <;> rw [e] at h1 <;> exact absurd h1 (by decide)
  · intro l w' evs hfin k
    obtain ⟨hinv', hnone⟩ := finish_keeps_MapsAgree w w' l evs hinv hfin
    constructor
    · intro hk
      rw [(hinv'.1 k l).1 hk] at hnone
      exact Option.noConfusion hnone
    · intro hk
      rw [(hinv'.2 k l).1 hk] at hnone
      exact Option.noConfusion hnone
  · intro l
    unfold halfduplexserverTunnelUpStreamFinish
    split
    · exact ⟨_, _, rfl⟩
    · rename_i hst
      have hmap : w.tunnelGetState.upload_line_map (w.lineGetState l).hash = some l :=
        (hinv.1 _ l).2 ((tableEntry_upload_iff _ _).2 ⟨hst, rfl⟩)
      simp only [hmap_cons_t_find, hmap]
      exact ⟨_, _, rfl⟩
    · rename_i hst
      have hmap : w.tunnelGetState.download_line_map (w.lineGetState l).hash = some l :=
        (hinv.2 _ l).2 ((tableEntry_download_iff _ _).2 ⟨hst, rfl⟩)
      simp only [hmap_cons_t_find, hmap]
      exact ⟨_, _, rfl⟩
    · exact ⟨_, _, rfl⟩
    · exact ⟨_, _, rfl⟩

/-- C7, in the world of scenario 1 in which the upload line 1 waits: it is in
`UploadInTable`, the upload map holds it under its hash, and its finish
returns. -/
theorem pairing_maps_invariant_witness :
    ((worldAfter kMaxBufferingSample (World.fresh fun _ => 0)
      [Call.payload (envOn 0 true) 1 (hdrUpload ++ hello)]).lineGetState 1).state =
        kCsUploadInTable ∧
    (worldAfter kMaxBufferingSample (World.fresh fun _ => 0)
      [Call.payload (envOn 0 true) 1 (hdrUpload ++ hello)]).tunnelGetState.upload_line_map
        0x0807060504030201 = some 1 ∧
    (∀ k', (worldAfter kMaxBufferingSample (World.fresh fun _ => 0)
      [Call.payload (envOn 0 true) 1 (hdrUpload ++ hello)]).tunnelGetState.download_line_map
        k' ≠ some 1) ∧
    (∃ w' evs, halfduplexserverTunnelUpStreamFinish
      (worldAfter kMaxBufferingSample (World.fresh fun _ => 0)
        [Call.payload (envOn 0 true) 1 (hdrUpload ++ hello)]) 1 = .ok (w', evs)) := by
  have hreach : Reachable kMaxBufferingSample
      (worldAfter kMaxBufferingSample (World.fresh fun _ => 0)
        [Call.payload (envOn 0 true) 1 (hdrUpload ++ hello)]) :=
    Reachable.step (World.fresh fun _ => 0) _ (Reachable.init _)
      (Step.payload (envOn 0 true) 1 (hdrUpload ++ hello) (World.fresh fun _ => 0) _ []
        (by decide) (by rfl))
  have hall := pairing_maps_invariant kMaxBufferingSample _ hreach
  have hst : ((worldAfter kMaxBufferingSample (World.fresh fun _ => 0)
      [Call.payload (envOn 0 true) 1 (hdrUpload ++ hello)]).lineGetState 1).state =
        kCsUploadInTable := by decide
  have hmap := (hall.1 1).1 hst
  exact ⟨hst, hmap, (hall.2.2.1 1 _ hmap).2, hall.2.2.2.2.2.2 1⟩

end HalfDuplexServer

namespace HalfDuplexServer

open connection_state

/-! ## Upload bytes reach the main line in order -/

theorem headerCleared_append (a b : sbuf_t) (ha : a ≠ []) :
    headerCleared (a ++ b) = headerCleared a ++ b := by
  cases a with
  | nil => exact absurd rfl ha
  | cons x xs => simp [headerCleared, sbufSetByte0, sbufByte0]

theorem headerIsUpload_append (a b : sbuf_t) (ha : a ≠ []) :
    headerIsUpload (a ++ b) ↔ headerIsUpload a := by
  cases a with
  | nil => exact absurd rfl ha
  | cons x xs => simp [headerIsUpload, sbufByte0]

theorem headerHash_append (a b : sbuf_t) (ha : 8 ≤ a.length) :
    headerHash (a ++ b) = headerHash a := by
  have hne : a ≠ [] := by
    intro h; rw [h] at ha; simp at ha
  unfold headerHash sbufReadUnAlignedUI64
  rw [headerCleared_append a b hne, List.take_append_of_le_length]
  rw [headerCleared_length]; exact ha

theorem pendingBytes_stored (w : World) (l : line_t) (acc p : sbuf_t)
    (h : Stored w l acc) : pendingBytes w l p = acc ++ p := by
  unfold pendingBytes
  rcases h with h | ⟨h, hacc⟩
  · rw [h]; rfl
  · rw [h, hacc]; rfl

theorem runCalls_nil (kMaxBuffering : Nat) (w : World) :
    runCalls kMaxBuffering w [] = .ok (w, []) := rfl

theorem runCalls_cons (kMaxBuffering : Nat) (w : World) (c : Call) (cs : List Call) :
    runCalls kMaxBuffering w (c :: cs) =
      match c.run kMaxBuffering w with
      | .error e => .error e
      | .ok (w1, evs1) =>
        match runCalls kMaxBuffering w1 cs with
        | .error e => .error e
        | .ok (w2, evs2) => .ok (w2, evs1 ++ evs2) := rfl

/-- A first call that returns, followed by a run that returns. -/
theorem runCalls_cons_ok (kMaxBuffering : Nat) (w w1 w2 : World) (c : Call)
    (cs : List Call) (evs1 evs2 : List Ev)
    (h1 : c.run kMaxBuffering w = .ok (w1, evs1))
    (h2 : runCalls kMaxBuffering w1 cs = .ok (w2, evs2)) :
    runCalls kMaxBuffering w (c :: cs) = .ok (w2, evs1 ++ evs2) := by
  rw [runCalls_cons, h1]
  simp only [h2]

/-- Two runs that return, one after the other. -/
theorem runCalls_append_ok (kMaxBuffering : Nat) (w w1 w2 : World) (a b : List Call)
    (evs1 evs2 : List Ev)
    (h1 : runCalls kMaxBuffering w a = .ok (w1, evs1))
    (h2 : runCalls kMaxBuffering w1 b = .ok (w2, evs2)) :
    runCalls kMaxBuffering w (a ++ b) = .ok (w2, evs1 ++ evs2) := by
  induction a generalizing w evs1 with
  | nil =>
    rw [runCalls_nil] at h1
    injection h1 with h1; injection h1 with ha hb
    subst ha; subst hb
    simpa using h2
  | cons c cs ih =>
    rw [runCalls_cons] at h1
    cases hc : c.run kMaxBuffering w with
    | error e => rw [hc] at h1; exact Except.noConfusion h1
    | ok r =>
      obtain ⟨wa, ea⟩ := r
      rw [hc] at h1
      simp only at h1
      cases hcs : runCalls kMaxBuffering wa cs with
      | error e => rw [hcs] at h1; exact Except.noConfusion h1
      | ok r2 =>
        obtain ⟨wb, eb⟩ := r2
        rw [hcs] at h1
        simp only at h1
        injection h1 with h1; injection h1 with ha hb
        subst ha; subst hb
        rw [List.cons_append, runCalls_cons_ok kMaxBuffering w wa w2 c (cs ++ b) ea
          (eb ++ evs2) hc (ih wa eb hcs), List.append_assoc]

theorem forwardedOn_forward (m l : line_t) (buf : sbuf_t) (evs : List Ev) :
    forwardedOn m (Ev.tunnelNextUpStreamPayload tunnel_t.t l buf :: evs) =
      if l = m then buf ++ forwardedOn m evs else forwardedOn m evs := rfl

theorem forwardedOn_append (m : line_t) (a b : List Ev) :
    forwardedOn m (a ++ b) = forwardedOn m a ++ forwardedOn m b := by
  induction a with
  | nil => rfl
  | cons e es ih =>
    rw [List.cons_append]
    cases e with
    | tunnelNextUpStreamPayload tun l buf =>
      cases tun with
      | t =>
        rw [forwardedOn_forward, forwardedOn_forward, ih]
        split_ifs
        · rw [List.append_assoc]
        · rfl
      | t_prev => exact ih
    | _ => exact ih

end HalfDuplexServer

namespace HalfDuplexServer

open connection_state

/-- A payload on a spliced upload line goes to the main line. -/
theorem spliced_step (kMaxBuffering : Nat) (env : Env) (w : World) (u m : line_t)
    (p : sbuf_t) (h : UploadSpliced w u m) :
    halfduplexserverTunnelUpStreamPayload kMaxBuffering env w u p =
      .ok (w, [Ev.tunnelNextUpStreamPayload tunnel_t.t m p]) := by
  unfold halfduplexserverTunnelUpStreamPayload
  rw [h.1]
  simp only [h.2]

/-- A payload on the upload line before the download line shows up: nothing
is forwarded and the bytes are kept. -/
theorem uploadAhead_step (kMaxBuffering : Nat) (w : World) (u d m : line_t) (cur : wid_t)
    (hash : hash_t) (acc p : sbuf_t) (hud : u ≠ d)
    (h : UploadAhead w u d cur hash acc)
    (hup : 8 ≤ (acc ++ p).length → headerIsUpload (acc ++ p) ∧ headerHash (acc ++ p) = hash)
    (hK : 8 ≤ acc.length → (acc ++ p).length < kMaxBuffering) :
    ∃ w', halfduplexserverTunnelUpStreamPayload kMaxBuffering (pairEnv cur m) w u p =
        .ok (w', []) ∧
      UploadAhead w' u d cur hash (acc ++ p) := by
  obtain ⟨hwu, hwd, hds, hdb, hdm, hcase⟩ := h
  have hdu : d ≠ u := fun e => hud e.symm
  rcases hcase with ⟨hshort, hst, hsto, hum⟩ | ⟨hlong, hst, hbuf, hul, hum⟩
  · have hpend := pendingBytes_stored w u acc p hsto
    by_cases hlen : (acc ++ p).length < 8
    · rw [payload_unknown_short kMaxBuffering _ w u p hst (by rw [hpend]; exact hlen)]
      refine ⟨_, rfl, hwu, hwd, ?_, ?_, hdm, Or.inl ⟨hlen, ?_, ?_, hum⟩⟩
      · rw [modLs_other _ _ _ _ hdu, modLs_other _ _ _ _ hdu]; exact hds
      · rw [modLs_other _ _ _ _ hdu, modLs_other _ _ _ _ hdu]; exact hdb
      · simp [hst]
      · left; simp [hpend]
    · have hge : 8 ≤ (acc ++ p).length := by omega
      obtain ⟨hu1, hu2⟩ := hup hge
      rw [payload_unknown_header kMaxBuffering _ w u p hst (by rw [hpend]; exact hge), hpend,
        if_pos hu1, hu2]
      obtain ⟨w', hrun, hl, hfr, hdmap, humap⟩ := upload_wait (pairEnv cur m)
        (w.withHeader u hash) u (headerCleared (acc ++ p)) hash
        (by simpa using hdm) (by simpa using hum)
      have hwid := upload_wait_wid (pairEnv cur m) (w.withHeader u hash) w' u
        (headerCleared (acc ++ p)) hash [] (by simpa using hdm) (by simpa using hum) hrun
      refine ⟨w', hrun, ?_, ?_, ?_, ?_, ?_, Or.inr ⟨hge, ?_, ?_, ?_, ?_⟩⟩
      · rw [hwid]; exact hwu
      · rw [hwid]; exact hwd
      · rw [hfr d hdu, withHeader_other _ _ _ _ hdu]; exact hds
      · rw [hfr d hdu, withHeader_other _ _ _ _ hdu]; exact hdb
      · rw [hdmap]; simpa using hdm
      · rw [hl]
      · rw [hl]
      · rw [hl]
      · rw [humap]; simp
  · have hne : acc ≠ [] := by
      intro e; rw [e] at hlong; simp at hlong
    have hpend : pendingBytes w u p = headerCleared (acc ++ p) := by
      unfold pendingBytes
      rw [hbuf, headerCleared_append acc p hne]; rfl
    have hlt := hK hlong
    unfold halfduplexserverTunnelUpStreamPayload
    rw [hst]
    simp only [payloadUploadInTable, hpend, sbufGetLength, headerCleared_length, ge_iff_le,
      Nat.not_le.2 hlt, if_false]
    refine ⟨_, rfl, hwu, hwd, ?_, ?_, hdm, Or.inr ⟨?_, ?_, ?_, ?_, hum⟩⟩
    · rw [modLs_other _ _ _ _ hdu]; exact hds
    · rw [modLs_other _ _ _ _ hdu]; exact hdb
    · rw [List.length_append]; omega
    · simp [hst]
    · simp
    · simp [hul]

end HalfDuplexServer

namespace HalfDuplexServer

open connection_state

/-- The download line shows up after the upload line has received `acc`:
either it waits (the upload header is not complete), or the pair is spliced
and the stored bytes behind the header go to the main line. -/
theorem download_arrives (kMaxBuffering : Nat) (w : World) (u d m : line_t) (cur : wid_t)
    (hash : hash_t) (acc dp : sbuf_t) (hud : u ≠ d) (hmu : m ≠ u) (hmd : m ≠ d)
    (h : UploadAhead w u d cur hash acc)
    (hlen : 8 ≤ dp.length) (hdown : ¬ headerIsUpload dp) (hhash : headerHash dp = hash) :
    ∃ w' evs, halfduplexserverTunnelUpStreamPayload kMaxBuffering (pairEnv cur m) w d dp =
        .ok (w', evs) ∧
      ((acc.length < 8 ∧ forwardedOn m evs = [] ∧ DownloadAhead w' u d cur hash acc) ∨
        (8 ≤ acc.length ∧ forwardedOn m evs = acc.drop 8 ∧ UploadSpliced w' u m)) := by
  obtain ⟨hwu, hwd, hds, hdb, hdm, hcase⟩ := h
  have hdu : d ≠ u := fun e => hud e.symm
  have hpend : pendingBytes w d dp = dp := by
    unfold pendingBytes; rw [hdb]
  rw [payload_unknown_header kMaxBuffering _ w d dp hds (by rw [hpend]; exact hlen), hpend,
    if_neg hdown, hhash]
  rcases hcase with ⟨hshort, hst, hsto, hum⟩ | ⟨hlong, hst, hbuf, hul, hum⟩
  · obtain ⟨w', hrun, hl, hfr, humap, hdmap⟩ := download_wait (pairEnv cur m)
      (w.withHeader d hash) d (headerCleared dp) hash
      (by simpa using hdm) (by simpa using hum)
    have hwid := download_wait_wid (pairEnv cur m) (w.withHeader d hash) w' d
      (headerCleared dp) hash _ (by simpa using hdm) (by simpa using hum) hrun
    refine ⟨w', _, hrun, Or.inl ⟨hshort, rfl, ?_, ?_, ?_, ?_, hshort, ?_, ?_⟩⟩
    · rw [hwid]; exact hwd
    · rw [hl]
    · rw [hl]
    · rw [hdmap]; simp
    · rw [hfr u hud, withHeader_other _ _ _ _ hud]; exact hst
    · unfold Stored
      rw [hfr u hud, withHeader_other _ _ _ _ hud]; exact hsto
  · have hclen : 8 ≤ (headerCleared acc).length := by
      rw [headerCleared_length]; exact hlong
    obtain ⟨w', hrun, -, hu', -, -, -, -⟩ := download_splice (pairEnv cur m)
      (w.withHeader d hash) d u (headerCleared dp) (headerCleared acc) hash
      (by simpa using hum) (by rw [withHeader_other _ _ _ _ hud]; exact hst)
      (by rw [withHeader_other _ _ _ _ hud]; exact hul) (by simpa [pairEnv] using hwu)
      hud hmd hmu (by rw [withHeader_other _ _ _ _ hud]; exact hbuf) hclen
    refine ⟨w', _, hrun, Or.inr ⟨hlong, ?_, ?_, ?_⟩⟩
    · simp [pairEnv, forwardedOn, headerCleared_drop]
    · rw [hu']
    · rw [hu']; rfl

/-- A payload on the upload line while the download line waits: either the
header is still not complete, or the pair is spliced and the bytes behind the
header go to the main line. -/
theorem downloadAhead_step (kMaxBuffering : Nat) (w : World) (u d m : line_t) (cur : wid_t)
    (hash : hash_t) (acc p : sbuf_t) (hud : u ≠ d) (hmu : m ≠ u) (hmd : m ≠ d)
    (h : DownloadAhead w u d cur hash acc)
    (hup : 8 ≤ (acc ++ p).length →
      headerIsUpload (acc ++ p) ∧ headerHash (acc ++ p) = hash) :
    ∃ w' evs, halfduplexserverTunnelUpStreamPayload kMaxBuffering (pairEnv cur m) w u p =
        .ok (w', evs) ∧
      (((acc ++ p).length < 8 ∧ evs = [] ∧ DownloadAhead w' u d cur hash (acc ++ p)) ∨
        (8 ≤ (acc ++ p).length ∧ forwardedOn m evs = (acc ++ p).drop 8 ∧
          UploadSpliced w' u m)) := by
  obtain ⟨hwd, hds, hddl, hdm, hshort, hst, hsto⟩ := h
  have hdu : d ≠ u := fun e => hud e.symm
  have hpend := pendingBytes_stored w u acc p hsto
  by_cases hlen : (acc ++ p).length < 8
  · rw [payload_unknown_short kMaxBuffering _ w u p hst (by rw [hpend]; exact hlen)]
    refine ⟨_, _, rfl, Or.inl ⟨hlen, rfl, hwd, ?_, ?_, hdm, hlen, ?_, ?_⟩⟩
    · rw [modLs_other _ _ _ _ hdu, modLs_other _ _ _ _ hdu]; exact hds
    · rw [modLs_other _ _ _ _ hdu, modLs_other _ _ _ _ hdu]; exact hddl
    · simp [hst]
    · left; simp [hpend]
  · have hge : 8 ≤ (acc ++ p).length := by omega
    obtain ⟨hu1, hu2⟩ := hup hge
    rw [payload_unknown_header kMaxBuffering _ w u p hst (by rw [hpend]; exact hge), hpend,
      if_pos hu1, hu2]
    obtain ⟨w', hrun, hu', -, -, -, -, -⟩ := upload_splice (pairEnv cur m)
      (w.withHeader u hash) u d (headerCleared (acc ++ p)) hash
      (by simpa using hdm) (by rw [withHeader_other _ _ _ _ hdu]; exact hds)
      (by rw [withHeader_other _ _ _ _ hdu]; exact hddl) (by simpa [pairEnv] using hwd)
      hdu hmu hmd (by rw [headerCleared_length]; exact hge)
    refine ⟨w', _, hrun, Or.inr ⟨hge, ?_, ?_, ?_⟩⟩
    · have hd8 : (headerCleared (acc ++ p)).drop 8 = (acc ++ p).drop 8 :=
        headerCleared_drop _ 8 (by norm_num)
      rw [hd8]
      simp only [pairEnv, Bool.true_eq_false, if_false]
      split_ifs with hpos
      · simp [forwardedOn]
      · have : (acc ++ p).drop 8 = [] := by
          apply List.eq_nil_of_length_eq_zero; omega
        simp [forwardedOn, this]
    · rw [hu']
    · rw [hu']; rfl

end HalfDuplexServer

namespace HalfDuplexServer

open connection_state

/-- Payloads on a spliced upload line reach the main line in order. -/
theorem spliced_run (kMaxBuffering : Nat) (env : Env) (u m : line_t) (ps : List sbuf_t)
    (w : World) (h : UploadSpliced w u m) :
    ∃ evs, runCalls kMaxBuffering w (payloadCalls env u ps) = .ok (w, evs) ∧
      forwardedOn m evs = ps.flatten := by
  induction ps with
  | nil => exact ⟨[], rfl, rfl⟩
  | cons p ps ih =>
    obtain ⟨evs, hrun, hfw⟩ := ih
    refine ⟨_, runCalls_cons_ok kMaxBuffering w w w _ _ _ evs
      (spliced_step kMaxBuffering env w u m p h) hrun, ?_⟩
    rw [List.singleton_append, forwardedOn_forward, if_pos rfl, hfw, List.flatten_cons]

/-- Payloads on the upload line before the download line shows up are kept
and nothing is forwarded, as long as no payload handled in `UploadInTable`
brings the stored bytes to `kMaxBuffering`. -/
theorem uploadAhead_run (kMaxBuffering : Nat) (u d m : line_t) (cur : wid_t) (hash : hash_t)
    (hud : u ≠ d) (qs : List sbuf_t) (acc : sbuf_t) (w : World)
    (h : UploadAhead w u d cur hash acc)
    (hup : 8 ≤ (acc ++ qs.flatten).length →
      headerIsUpload (acc ++ qs.flatten) ∧ headerHash (acc ++ qs.flatten) = hash)
    (hK : qs ≠ [] → 8 ≤ (acc ++ qs.dropLast.flatten).length →
      (acc ++ qs.flatten).length < kMaxBuffering) :
    ∃ w', runCalls kMaxBuffering w (payloadCalls (pairEnv cur m) u qs) = .ok (w', []) ∧
      UploadAhead w' u d cur hash (acc ++ qs.flatten) := by
  induction qs generalizing acc w with
  | nil => exact ⟨w, rfl, by simpa using h⟩
  | cons q rest ih =>
    have hstep_up : 8 ≤ (acc ++ q).length →
        headerIsUpload (acc ++ q) ∧ headerHash (acc ++ q) = hash := by
      intro hge
      have hne : acc ++ q ≠ [] := by
        intro e; rw [e] at hge; simp at hge
      have htot : 8 ≤ (acc ++ (q :: rest).flatten).length := by
        simp only [List.flatten_cons, List.length_append] at hge ⊢; omega
      obtain ⟨h1, h2⟩ := hup htot
      rw [List.flatten_cons, ← List.append_assoc] at h1 h2
      exact ⟨(headerIsUpload_append _ _ hne).1 h1, by rw [← headerHash_append _ _ hge, h2]⟩
    have hstep_K : 8 ≤ acc.length → (acc ++ q).length < kMaxBuffering := by
      intro hge
      have h1 := hK (List.cons_ne_nil q rest) (by rw [List.length_append]; omega)
      simp only [List.flatten_cons, List.length_append] at h1 ⊢
      omega
    obtain ⟨w1, hrun1, h1⟩ := uploadAhead_step kMaxBuffering w u d m cur hash acc q hud h
      hstep_up hstep_K
    obtain ⟨w2, hrun2, h2⟩ := ih (acc ++ q) w1 h1
      (by rw [List.append_assoc, ← List.flatten_cons]; exact hup)
      (by
        intro hne hge
        have h3 := hK (List.cons_ne_nil q rest)
          (by rw [List.dropLast_cons_of_ne_nil hne, List.flatten_cons, ← List.append_assoc]
              exact hge)
        rw [List.flatten_cons, ← List.append_assoc] at h3
        exact h3)
    refine ⟨w2, ?_, ?_⟩
    · exact runCalls_cons_ok kMaxBuffering w w1 w2 _ _ [] [] hrun1 hrun2
    · rw [List.flatten_cons, ← List.append_assoc]; exact h2

/-- Payloads on the upload line while the download line waits: once the
header is complete the pair is spliced, and what the main line receives is
everything behind the header. -/
theorem downloadAhead_run (kMaxBuffering : Nat) (u d m : line_t) (cur : wid_t) (hash : hash_t)
    (hud : u ≠ d) (hmu : m ≠ u) (hmd : m ≠ d) (qs : List sbuf_t) (acc : sbuf_t) (w : World)
    (h : DownloadAhead w u d cur hash acc)
    (hup : 8 ≤ (acc ++ qs.flatten).length →
      headerIsUpload (acc ++ qs.flatten) ∧ headerHash (acc ++ qs.flatten) = hash) :
    ∃ w' evs, runCalls kMaxBuffering w (payloadCalls (pairEnv cur m) u qs) = .ok (w', evs) ∧
      forwardedOn m evs = (acc ++ qs.flatten).drop 8 := by
  induction qs generalizing acc w with
  | nil =>
    refine ⟨w, [], rfl, ?_⟩
    have hshort : acc.length < 8 := h.2.2.2.2.1
    simp only [List.flatten_nil, List.append_nil]
    exact (List.drop_eq_nil_of_le (by omega)).symm
  | cons q rest ih =>
    have hstep_up : 8 ≤ (acc ++ q).length →
        headerIsUpload (acc ++ q) ∧ headerHash (acc ++ q) = hash := by
      intro hge
      have hne : acc ++ q ≠ [] := by
        intro e; rw [e] at hge; simp at hge
      have htot : 8 ≤ (acc ++ (q :: rest).flatten).length := by
        simp only [List.flatten_cons, List.length_append] at hge ⊢; omega
      obtain ⟨h1, h2⟩ := hup htot
      rw [List.flatten_cons, ← List.append_assoc] at h1 h2
      exact ⟨(headerIsUpload_append _ _ hne).1 h1, by rw [← headerHash_append _ _ hge, h2]⟩
    obtain ⟨w1, evs1, hrun1, hcase⟩ := downloadAhead_step kMaxBuffering w u d m cur hash acc q
      hud hmu hmd h hstep_up
    rcases hcase with ⟨_, hevs, h1⟩ | ⟨hge, hfw, hsp⟩
    · obtain ⟨w2, evs2, hrun2, hfw2⟩ := ih (acc ++ q) w1 h1
        (by rw [List.append_assoc, ← List.flatten_cons]; exact hup)
      refine ⟨w2, _, runCalls_cons_ok kMaxBuffering w w1 w2 _ _ evs1 evs2 hrun1 hrun2, ?_⟩
      rw [hevs, List.nil_append, hfw2, List.flatten_cons, ← List.append_assoc]
    · obtain ⟨evs2, hrun2, hfw2⟩ := spliced_run kMaxBuffering (pairEnv cur m) u m rest w1 hsp
      refine ⟨w1, _, runCalls_cons_ok kMaxBuffering w w1 w1 _ _ evs1 evs2 hrun1 hrun2, ?_⟩
      rw [forwardedOn_append, hfw, hfw2, List.flatten_cons, ← List.append_assoc,
        List.drop_append_of_le_length hge]

end HalfDuplexServer

namespace HalfDuplexServer

open connection_state

/-- C1, amended: an upload line `u` and a download line `d` on one worker,
both new to the tunnel, with no entry under the hash in either map. The upload
line receives the payloads `pre`, then the download line sends its header (at
least eight bytes, direction bit set, the hash of the upload header), then the
upload line receives `post`; `pre` or `post` may be empty. If the main line
stays alive through `tunnelNextUpStreamInit`, and the bytes of `pre` are fewer
than `kMaxBuffering` unless the upload header was not complete before the last
payload of `pre`, then the run returns and the buffers forwarded on the main
line, put end to end, are the upload bytes without their first eight. -/
theorem upload_bytes_reach_main_line (kMaxBuffering : Nat) (w : World) (u d m : line_t)
    (cur : wid_t) (pre post : List sbuf_t) (dp : sbuf_t)
    (hud : u ≠ d) (hmu : m ≠ u) (hmd : m ≠ d)
    (hwu : w.lineGetWID u = cur) (hwd : w.lineGetWID d = cur)
    (hus : (w.lineGetState u).state = kCsUnkown) (hub : (w.lineGetState u).buffering = none)
    (hds : (w.lineGetState d).state = kCsUnkown) (hdb : (w.lineGetState d).buffering = none)
    (hdlen : 8 ≤ dp.length) (hdown : ¬ headerIsUpload dp)
    (hum : w.tunnelGetState.upload_line_map (headerHash dp) = none)
    (hdm : w.tunnelGetState.download_line_map (headerHash dp) = none)
    (hup : 8 ≤ (pre ++ post).flatten.length →
      headerIsUpload (pre ++ post).flatten ∧
        headerHash (pre ++ post).flatten = headerHash dp)
    (hK : pre ≠ [] → 8 ≤ pre.dropLast.flatten.length → pre.flatten.length < kMaxBuffering) :
    ∃ w' evs,
      runCalls kMaxBuffering w
        (payloadCalls (pairEnv cur m) u pre ++ [Call.payload (pairEnv cur m) d dp] ++
          payloadCalls (pairEnv cur m) u post) = .ok (w', evs) ∧
      forwardedOn m evs = (pre ++ post).flatten.drop 8 := by
  have hstart : UploadAhead w u d cur (headerHash dp) [] :=
    ⟨hwu, hwd, hds, hdb, hdm, Or.inl ⟨by simp, hus, Or.inr ⟨hub, rfl⟩, hum⟩⟩
  have hup_pre : 8 ≤ ([] ++ pre.flatten).length →
      headerIsUpload ([] ++ pre.flatten) ∧ headerHash ([] ++ pre.flatten) = headerHash dp := by
    intro hge
    rw [List.nil_append] at hge ⊢
    have hne : pre.flatten ≠ [] := by
      intro e; rw [e] at hge; simp at hge
    obtain ⟨h1, h2⟩ := hup (by rw [List.flatten_append, List.length_append]; omega)
    rw [List.flatten_append] at h1 h2
    exact ⟨(headerIsUpload_append _ _ hne).1 h1, by rw [← headerHash_append _ _ hge, h2]⟩
  obtain ⟨w1, hrun1, h1⟩ := uploadAhead_run kMaxBuffering u d m cur (headerHash dp) hud pre []
    w hstart hup_pre (by simpa using hK)
  rw [List.nil_append] at h1
  obtain ⟨w2, evs2, hrun2, hcase⟩ := download_arrives kMaxBuffering w1 u d m cur
    (headerHash dp) pre.flatten dp hud hmu hmd h1 hdlen hdown rfl
  have hrun2' : runCalls kMaxBuffering w1 [Call.payload (pairEnv cur m) d dp] =
      .ok (w2, evs2 ++ []) :=
    runCalls_cons_ok kMaxBuffering w1 w2 w2 _ [] evs2 [] hrun2 rfl
  rw [List.append_nil] at hrun2'
  rcases hcase with ⟨hshort, hfw2, hwait⟩ | ⟨hlong, hfw2, hsp⟩
  · obtain ⟨w3, evs3, hrun3, hfw3⟩ := downloadAhead_run kMaxBuffering u d m cur
      (headerHash dp) hud hmu hmd post pre.flatten w2 hwait
      (by rw [← List.flatten_append]; exact hup)
    refine ⟨w3, _, runCalls_append_ok kMaxBuffering w w2 w3 _ _ _ evs3
      (runCalls_append_ok kMaxBuffering w w1 w2 _ _ [] evs2 hrun1 hrun2') hrun3, ?_⟩
    rw [List.nil_append, forwardedOn_append, hfw2, hfw3, List.nil_append,
      List.flatten_append]
  · obtain ⟨evs3, hrun3, hfw3⟩ := spliced_run kMaxBuffering (pairEnv cur m) u m post w2 hsp
    refine ⟨w2, _, runCalls_append_ok kMaxBuffering w w2 w2 _ _ _ evs3
      (runCalls_append_ok kMaxBuffering w w1 w2 _ _ [] evs2 hrun1 hrun2') hrun3, ?_⟩
    rw [List.nil_append, forwardedOn_append, hfw2, hfw3, List.flatten_append,
      List.drop_append_of_le_length hlong]

/-- C1, amended, at scenario 1 and at a fragmented variant of it: the upload
line 1 sends `01 02 03 04 05 06 07 08` and "hello" in one payload and the
download line 2 then sends `81 02 03 04 05 06 07 08`; or the upload line sends
`01 02 03`, then the download line its header, then the upload line
`04 05 06 07 08` and "hello". The main line 100 receives exactly "hello". -/
theorem upload_bytes_reach_main_line_witness :
    (∃ w' evs,
      runCalls kMaxBufferingSample (World.fresh fun _ => 0)
        (payloadCalls (pairEnv 0 100) 1 [hdrUpload ++ hello] ++
          [Call.payload (pairEnv 0 100) 2 hdrDownload] ++
          payloadCalls (pairEnv 0 100) 1 []) = .ok (w', evs) ∧
      forwardedOn 100 evs = hello) ∧
    (∃ w' evs,
      runCalls kMaxBufferingSample (World.fresh fun _ => 0)
        (payloadCalls (pairEnv 0 100) 1 [[0x01, 0x02, 0x03]] ++
          [Call.payload (pairEnv 0 100) 2 hdrDownload] ++
          payloadCalls (pairEnv 0 100) 1 [[0x04, 0x05, 0x06, 0x07, 0x08] ++ hello]) =
            .ok (w', evs) ∧
      forwardedOn 100 evs = hello) :=
  ⟨upload_bytes_reach_main_line kMaxBufferingSample (World.fresh fun _ => 0) 1 2 100 0
      [hdrUpload ++ hello] [] hdrDownload
      (by decide) (by decide) (by decide) (by decide) (by decide) (by decide) (by decide)
      (by decide) (by decide) (by decide) (by decide) (by decide) (by decide) (by decide)
      (by decide),
   upload_bytes_reach_main_line kMaxBufferingSample (World.fresh fun _ => 0) 1 2 100 0
      [[0x01, 0x02, 0x03]] [[0x04, 0x05, 0x06, 0x07, 0x08] ++ hello] hdrDownload
      (by decide) (by decide) (by decide) (by decide) (by decide) (by decide) (by decide)
      (by decide) (by decide) (by decide) (by decide) (by decide) (by decide) (by decide)
      (by decide)⟩

/-- C1 as stated fails on scenario 1 when the main line does not survive
`tunnelNextUpStreamInit`: the upload line sent its header and "hello", the
download line its header, the handler returns, and nothing was forwarded on the
main line 100. -/
theorem upload_bytes_lost_when_main_line_dies :
    (runCalls kMaxBufferingSample (World.fresh fun _ => 0) (scenario1 false)).fault = none ∧
    (runCalls kMaxBufferingSample (World.fresh fun _ => 0) (scenario1 false)).events.map
      (forwardedBuffers 100) = some [] ∧
    ((runCalls kMaxBufferingSample (World.fresh fun _ => 0) (scenario1 false)).events.map
      (forwardedOn 100)) ≠ some ((hdrUpload ++ hello).drop 8) := by
  decide

/-- payload.c 243-247: a payload that brings the stored bytes of a waiting
upload line to `kMaxBuffering` or more releases them all. -/
theorem uploadInTable_overflow (kMaxBuffering : Nat) (env : Env) (w : World) (u : line_t)
    (p stored : sbuf_t) (hst : (w.lineGetState u).state = kCsUploadInTable)
    (hbuf : (w.lineGetState u).buffering = some stored)
    (hK : kMaxBuffering ≤ (stored ++ p).length) :
    halfduplexserverTunnelUpStreamPayload kMaxBuffering env w u p =
      .ok ((w.modLs u (fun s => { s with buffering := some (stored ++ p) })).modLs u
        (fun s => { s with buffering := none }),
        [Ev.bufferpoolReuseBuffer u (some (stored ++ p))]) := by
  have hpend : pendingBytes w u p = stored ++ p := by
    unfold pendingBytes; rw [hbuf]; rfl
  unfold halfduplexserverTunnelUpStreamPayload
  rw [hst]
  simp only [payloadUploadInTable, hpend, sbufGetLength, ge_iff_le, hK, if_true]

/-- payload.c 182: a download line that finds, on its worker, a waiting upload
line without stored bytes fails the assertion (the main line being alive). -/
theorem download_splice_without_buffering (env : Env) (w : World) (l u : line_t)
    (buf : sbuf_t) (hash : hash_t)
    (hmap : w.tunnelGetState.upload_line_map hash = some u)
    (hust : (w.lineGetState u).state = kCsUploadInTable)
    (huul : (w.lineGetState u).upload_line = some u)
    (hwid : w.lineGetWID u = env.getWID)
    (hul : u ≠ l) (hmu : env.lineCreate ≠ u)
    (hbuf : (w.lineGetState u).buffering = none) (halive : env.lineIsAlive = true) :
    payloadUnknownDownload env w l buf hash = .error Fault.assertFailed := by
  simp only [payloadUnknownDownload, hmap_cons_t_find, modLs_ts, hmap, modLs_other _ _ _ _ hul,
    huul, modLs_wid, hwid, if_true, setTs_ls, hust, ne_eq, not_true_eq_false, if_false,
    spliceDownloadArrived, halive, Bool.true_eq_false, modLs_other _ _ _ _ hmu.symm,
    modLs_same, setWID_ls, hbuf]

/-- The second condition of the amended C1 cannot be dropped. For every value
of `kMaxBuffering`: the upload line 1 sends its header and then `kMaxBuffering`
more bytes, which releases everything stored, and the download line 2 that
sends its header next fails the assertion of payload.c line 182. -/
theorem overflow_then_download_faults (kMaxBuffering : Nat) :
    (runCalls kMaxBuffering (World.fresh fun _ => 0)
      (payloadCalls (pairEnv 0 100) 1 [hdrUpload, List.replicate kMaxBuffering 0] ++
        [Call.payload (pairEnv 0 100) 2 hdrDownload])).fault = some Fault.assertFailed := by
  have hstart : UploadAhead (World.fresh fun _ => 0) 1 2 0 (headerHash hdrDownload) [] :=
    ⟨rfl, rfl, rfl, rfl, rfl, Or.inl ⟨by simp, rfl, Or.inr ⟨rfl, rfl⟩, rfl⟩⟩
  obtain ⟨w1, hrun1, h1⟩ := uploadAhead_step kMaxBuffering (World.fresh fun _ => 0) 1 2 100 0
    (headerHash hdrDownload) [] hdrUpload (by decide) hstart (fun _ => by decide)
    (fun h => absurd h (by decide))
  obtain ⟨hwu, hwd, hds, hdb, hdm, hcase⟩ := h1
  rcases hcase with ⟨hshort, -⟩ | ⟨-, hst, hbuf, hul, hum⟩
  · exact absurd hshort (by decide)
  have hrun2 := uploadInTable_overflow kMaxBuffering (pairEnv 0 100) w1 1
    (List.replicate kMaxBuffering 0) _ hst hbuf
    (by simp only [List.length_append, List.length_replicate]; omega)
  have hpend : pendingBytes ((w1.modLs 1 (fun s => { s with
      buffering := some (headerCleared ([] ++ hdrUpload) ++
        List.replicate kMaxBuffering 0) })).modLs 1
      (fun s => { s with buffering := none })) 2 hdrDownload = hdrDownload := by
    unfold pendingBytes
    rw [modLs_other _ _ _ _ (by decide : (2 : line_t) ≠ 1),
      modLs_other _ _ _ _ (by decide : (2 : line_t) ≠ 1), hdb]
  have hrun3 : halfduplexserverTunnelUpStreamPayload kMaxBuffering (pairEnv 0 100)
      ((w1.modLs 1 (fun s => { s with
        buffering := some (headerCleared ([] ++ hdrUpload) ++
          List.replicate kMaxBuffering 0) })).modLs 1
        (fun s => { s with buffering := none })) 2 hdrDownload =
      .error Fault.assertFailed := by
    rw [payload_unknown_header kMaxBuffering _ _ 2 hdrDownload
      (by rw [modLs_other _ _ _ _ (by decide : (2 : line_t) ≠ 1),
            modLs_other _ _ _ _ (by decide : (2 : line_t) ≠ 1)]; exact hds)
      (by rw [hpend]; decide), hpend, if_neg (by decide)]
    exact download_splice_without_buffering (pairEnv 0 100) _ 2 1 _ _
      (by simpa using hum)
      (by rw [withHeader_other _ _ _ _ (by decide : (1 : line_t) ≠ 2)]; simp [hst])
      (by rw [withHeader_other _ _ _ _ (by decide : (1 : line_t) ≠ 2)]; simp [hul])
      (by simpa [pairEnv] using hwu) (by decide) (by decide)
      (by rw [withHeader_other _ _ _ _ (by decide : (1 : line_t) ≠ 2)]; simp) rfl
  have hall : runCalls kMaxBuffering (World.fresh fun _ => 0)
      (payloadCalls (pairEnv 0 100) 1 [hdrUpload, List.replicate kMaxBuffering 0] ++
        [Call.payload (pairEnv 0 100) 2 hdrDownload]) = .error Fault.assertFailed := by
    simp only [payloadCalls, List.map_cons, List.map_nil, List.cons_append, List.nil_append]
    rw [runCalls_cons]
    simp only [Call.run, hrun1]
    rw [runCalls_cons]
    simp only [Call.run, hrun2]
    rw [runCalls_cons]
    simp only [Call.run, hrun3]
  rw [hall]
  rfl

end HalfDuplexServer

namespace HalfDuplexServer

open connection_state

/-! ## Frame of the cross-worker path -/

/-- C11: a line `l` in `Unknown` whose hash has a waiter in the opposite map
that is pinned to another worker. The handler returns; the tunnel state with
both maps, the worker of every line and the state of every line but `l` (so
the waiter's) are unchanged; no line is created; the state of `l` is destroyed,
once; `pipeTo` is called once, for `l`, with the waiter's worker as target. -/
theorem cross_worker_frame (kMaxBuffering : Nat) (env : Env) (w : World)
    (l waiter : line_t) (buf : sbuf_t)
    (hstate : (w.lineGetState l).state = kCsUnkown)
    (hlen : 8 ≤ (pendingBytes w l buf).length)
    (hmap : (if headerIsUpload (pendingBytes w l buf) then w.tunnelGetState.download_line_map
      else w.tunnelGetState.upload_line_map) (headerHash (pendingBytes w l buf)) = some waiter)
    (hwaiter : (w.lineGetState waiter).state =
      if headerIsUpload (pendingBytes w l buf) then kCsDownloadInTable else kCsUploadInTable)
    (hself : (if headerIsUpload (pendingBytes w l buf) then (w.lineGetState waiter).download_line
      else (w.lineGetState waiter).upload_line) = some waiter)
    (hwid : w.lineGetWID waiter ≠ env.getWID) :
    ∃ w' evs,
      halfduplexserverTunnelUpStreamPayload kMaxBuffering env w l buf = .ok (w', evs) ∧
      w'.tunnelGetState = w.tunnelGetState ∧
      w'.lineGetWID = w.lineGetWID ∧
      w'.lineGetState waiter = w.lineGetState waiter ∧
      (∀ x, x ≠ l → w'.lineGetState x = w.lineGetState x) ∧
      w'.lineGetState l = halfduplexserverLinestateInitialize ∧
      destroyCount l evs = 1 ∧ destroyCount waiter evs = 0 ∧
      createdLines evs = [] ∧
      pipedTo evs = [(l, w.lineGetWID waiter)] ∧
      forwardedAnywhere evs = [(l, headerCleared (pendingBytes w l buf))] := by
  have hdisp := payload_unknown_header kMaxBuffering env w l buf hstate hlen
  have hwl : waiter ≠ l := by
    intro h
    rw [h, hstate] at hwaiter
    split_ifs at hwaiter
  have hlw : l ≠ waiter := fun h => hwl h.symm
  by_cases hup : headerIsUpload (pendingBytes w l buf)
  · rw [if_pos hup] at hmap hself
    rw [hdisp, if_pos hup]
    simp only [payloadUnknownUpload, hmap_cons_t_find, modLs_ts, withHeader_ts, hmap,
      modLs_other _ _ _ _ hwl, withHeader_other _ _ _ _ hwl, hself, modLs_wid, withHeader_wid,
      hwid, if_false]
    refine ⟨_, _, rfl, rfl, rfl, ?_, ?_, ?_, ?_, ?_, ?_, ?_, ?_⟩
    · rw [destroyLs_other _ _ _ hwl, modLs_other _ _ _ _ hwl, withHeader_other _ _ _ _ hwl]
    · intro x hx
      rw [destroyLs_other _ _ _ hx, modLs_other _ _ _ _ hx, withHeader_other _ _ _ _ hx]
    · simp
    · simp [destroyCount]
    · rw [destroyCount, List.count_eq_zero]; simp [hwl]
    · simp [createdLines]
    · simp [pipedTo]
    · simp [forwardedAnywhere]
  · rw [if_neg hup] at hmap hself
    rw [hdisp, if_neg hup]
    simp only [payloadUnknownDownload, hmap_cons_t_find, modLs_ts, withHeader_ts, hmap,
      modLs_other _ _ _ _ hwl, withHeader_other _ _ _ _ hwl, hself, modLs_wid, withHeader_wid,
      hwid, if_false]
    refine ⟨_, _, rfl, rfl, rfl, ?_, ?_, ?_, ?_, ?_, ?_, ?_, ?_⟩
    · rw [destroyLs_other _ _ _ hwl, modLs_other _ _ _ _ hwl, withHeader_other _ _ _ _ hwl]
    · intro x hx
      rw [destroyLs_other _ _ _ hx, modLs_other _ _ _ _ hx, withHeader_other _ _ _ _ hx]
    · simp
    · simp [destroyCount]
    · rw [destroyCount, List.count_eq_zero]; simp [hwl]
    · simp [createdLines]
    · simp [pipedTo]
    · simp [forwardedAnywhere]

/-- C11, on scenario 2 in both directions: line 1 waits on worker 0 and line 2
arrives on worker 1, as download for the waiting upload and as upload for the
waiting download; line 2 is piped to worker 0 and line 1 is left as it was. -/
theorem cross_worker_frame_witness :
    (∃ w' evs,
      halfduplexserverTunnelUpStreamPayload kMaxBufferingSample (envOn 1 true)
        (worldAfter kMaxBufferingSample (World.fresh widScenario2)
          [Call.payload (envOn 0 true) 1 (hdrUpload ++ hello)]) 2 hdrDownload = .ok (w', evs) ∧
      w'.tunnelGetState = (worldAfter kMaxBufferingSample (World.fresh widScenario2)
          [Call.payload (envOn 0 true) 1 (hdrUpload ++ hello)]).tunnelGetState ∧
      (w'.lineGetState 1).state = kCsUploadInTable ∧
      createdLines evs = [] ∧ pipedTo evs = [(2, 0)]) ∧
    (∃ w' evs,
      halfduplexserverTunnelUpStreamPayload kMaxBufferingSample (envOn 1 true)
        (worldAfter kMaxBufferingSample (World.fresh widScenario2)
          [Call.payload (envOn 0 true) 1 hdrDownload]) 2 hdrUpload = .ok (w', evs) ∧
      w'.tunnelGetState = (worldAfter kMaxBufferingSample (World.fresh widScenario2)
          [Call.payload (envOn 0 true) 1 hdrDownload]).tunnelGetState ∧
      (w'.lineGetState 1).state = kCsDownloadInTable ∧
      createdLines evs = [] ∧ pipedTo evs = [(2, 0)]) := by
  obtain ⟨w1, e1, h1, ht1, -, hs1, -, -, -, -, hc1, hp1, -⟩ :=
    cross_worker_frame kMaxBufferingSample (envOn 1 true)
      (worldAfter kMaxBufferingSample (World.fresh widScenario2)
        [Call.payload (envOn 0 true) 1 (hdrUpload ++ hello)]) 2 1 hdrDownload
      (by decide) (by decide) (by decide) (by decide) (by decide) (by decide)
  obtain ⟨w2, e2, h2, ht2, -, hs2, -, -, -, -, hc2, hp2, -⟩ :=
    cross_worker_frame kMaxBufferingSample (envOn 1 true)
      (worldAfter kMaxBufferingSample (World.fresh widScenario2)
        [Call.payload (envOn 0 true) 1 hdrDownload]) 2 1 hdrUpload
      (by decide) (by decide) (by decide) (by decide) (by decide) (by decide)
  refine ⟨⟨w1, e1, h1, ht1, ?_, hc1, hp1⟩, ⟨w2, e2, h2, ht2, ?_, hc2, hp2⟩⟩
  · rw [hs1]; decide
  · rw [hs2]; decide

/-! ## Payload on a download line -/

/-- C12: the download line 2 of scenario 1 receives "hello", once while it
waits in `DownloadInTable` and once after the splice in `DownloadDirect`. The
only call made is `bufferpoolReuseBuffer` with `ls->buffering`, which is
`NULL`; the arriving buffer is not among the released buffers. -/
theorem download_payload_releases_null :
    ((worldAfter kMaxBufferingSample (World.fresh fun _ => 0)
      [Call.payload (envOn 0 true) 2 hdrDownload]).lineGetState 2).state =
        kCsDownloadInTable ∧
    (halfduplexserverTunnelUpStreamPayload kMaxBufferingSample (envOn 0 true)
      (worldAfter kMaxBufferingSample (World.fresh fun _ => 0)
        [Call.payload (envOn 0 true) 2 hdrDownload]) 2 hello).events =
      some [Ev.bufferpoolReuseBuffer 2 none] ∧
    ((worldAfter kMaxBufferingSample (World.fresh fun _ => 0)
      (scenario1 true)).lineGetState 2).state = kCsDownloadDirect ∧
    (halfduplexserverTunnelUpStreamPayload kMaxBufferingSample (envOn 0 true)
      (worldAfter kMaxBufferingSample (World.fresh fun _ => 0) (scenario1 true)) 2
        hello).events = some [Ev.bufferpoolReuseBuffer 2 none] ∧
    ((halfduplexserverTunnelUpStreamPayload kMaxBufferingSample (envOn 0 true)
      (worldAfter kMaxBufferingSample (World.fresh fun _ => 0) (scenario1 true)) 2
        hello).events.map releasedBuffers) ≠ some [some hello] := by
  decide

/-! ## Finish of one side and the other side's references -/

/-- C13: the pair of scenario 1 is spliced. When the upload line 1 finishes,
the download line 2 keeps `main_line = 100` and `upload_line = 1` and no close
event is posted. When instead the download line 2 finishes, the upload line 1
keeps `main_line = 100`, no close event is posted, and a payload that arrives
on line 1 afterwards is forwarded on the main line 100, not released. -/
theorem finish_leaves_counterpart_references :
    ((worldAfter kMaxBufferingSample (World.fresh fun _ => 0)
      (scenario1 true ++ [Call.finish 1])).lineGetState 2).main_line = some 100 ∧
    ((worldAfter kMaxBufferingSample (World.fresh fun _ => 0)
      (scenario1 true ++ [Call.finish 1])).lineGetState 2).upload_line = some 1 ∧
    ((halfduplexserverTunnelUpStreamFinish (worldAfter kMaxBufferingSample
      (World.fresh fun _ => 0) (scenario1 true)) 1).events.map postedCloses) = some [] ∧
    ((worldAfter kMaxBufferingSample (World.fresh fun _ => 0)
      (scenario1 true ++ [Call.finish 2])).lineGetState 1).state = kCsUploadDirect ∧
    ((worldAfter kMaxBufferingSample (World.fresh fun _ => 0)
      (scenario1 true ++ [Call.finish 2])).lineGetState 1).main_line = some 100 ∧
    ((halfduplexserverTunnelUpStreamFinish (worldAfter kMaxBufferingSample
      (World.fresh fun _ => 0) (scenario1 true)) 2).events.map postedCloses) = some [] ∧
    (halfduplexserverTunnelUpStreamPayload kMaxBufferingSample (envOn 0 true)
      (worldAfter kMaxBufferingSample (World.fresh fun _ => 0)
        (scenario1 true ++ [Call.finish 2])) 1 hello).events =
      some [Ev.tunnelNextUpStreamPayload tunnel_t.t 100 hello] := by
  decide

end HalfDuplexServer

namespace HalfDuplexServer

open connection_state

/-! ## A main line that does not survive `tunnelNextUpStreamInit` -/

/-- C29: the main line 100 is not alive after `tunnelNextUpStreamInit`. When
the upload line 1 arrives at the waiting download line 2, nothing is forwarded
on line 100, line 100 is unlocked once and the arriving buffer is released.
When the download line 2 arrives at the waiting upload line 1 (scenario 1),
nothing is forwarded, line 100 is unlocked once and the arriving buffer is
released, but the thirteen bytes stored for the upload line are not among the
released buffers: line 1 still holds them. -/
theorem dead_main_line_upload_buffering_not_released :
    (halfduplexserverTunnelUpStreamPayload kMaxBufferingSample (envOn 0 false)
      (worldAfter kMaxBufferingSample (World.fresh fun _ => 0)
        [Call.payload (envOn 0 true) 2 hdrDownload]) 1 (hdrUpload ++ hello)).events =
      some [Ev.lineCreate 100, Ev.linestateInitialize 100, Ev.lineLock 100,
        Ev.tunnelNextUpStreamInit 100, Ev.bufferpoolReuseBuffer 1 (some (hdrUpload ++ hello)),
        Ev.lineUnlock 100] ∧
    ((worldAfter kMaxBufferingSample (World.fresh fun _ => 0)
      [Call.payload (envOn 0 true) 1 (hdrUpload ++ hello)]).lineGetState 1).buffering =
        some (hdrUpload ++ hello) ∧
    (halfduplexserverTunnelUpStreamPayload kMaxBufferingSample (envOn 0 false)
      (worldAfter kMaxBufferingSample (World.fresh fun _ => 0)
        [Call.payload (envOn 0 true) 1 (hdrUpload ++ hello)]) 2 hdrDownload).events.map
        (forwardedBuffers 100) = some [] ∧
    (halfduplexserverTunnelUpStreamPayload kMaxBufferingSample (envOn 0 false)
      (worldAfter kMaxBufferingSample (World.fresh fun _ => 0)
        [Call.payload (envOn 0 true) 1 (hdrUpload ++ hello)]) 2 hdrDownload).events.map
        (List.count (Ev.lineUnlock 100)) = some 1 ∧
    (halfduplexserverTunnelUpStreamPayload kMaxBufferingSample (envOn 0 false)
      (worldAfter kMaxBufferingSample (World.fresh fun _ => 0)
        [Call.payload (envOn 0 true) 1 (hdrUpload ++ hello)]) 2 hdrDownload).events.map
        releasedBuffers = some [some hdrUpload] ∧
    ((worldAfter kMaxBufferingSample (World.fresh fun _ => 0) (scenario1 false)).lineGetState
      1).buffering = some (hdrUpload ++ hello) := by
  decide

/-! ## Stored bytes of a waiting upload line after the limit -/

/-- payload.c 234-248: a payload on a waiting upload line that holds nothing
and stays below the limit is stored as it is. -/
theorem uploadInTable_restart (kMaxBuffering : Nat) (env : Env) (w : World) (u : line_t)
    (p : sbuf_t) (hst : (w.lineGetState u).state = kCsUploadInTable)
    (hbuf : (w.lineGetState u).buffering = none) (hK : p.length < kMaxBuffering) :
    halfduplexserverTunnelUpStreamPayload kMaxBuffering env w u p =
      .ok (w.modLs u (fun s => { s with buffering := some p }), []) := by
  have hpend : pendingBytes w u p = p := by
    unfold pendingBytes; rw [hbuf]
  unfold halfduplexserverTunnelUpStreamPayload
  rw [hst]
  simp only [payloadUploadInTable, hpend, sbufGetLength, ge_iff_le]
  rw [if_neg (by omega)]

/-- payload.c 184-187: a download line that finds, on its worker, a waiting
upload line with one to seven bytes stored shifts past their end (the main
line being alive). -/
theorem download_splice_short_buffering (env : Env) (w : World) (l u : line_t)
    (buf stored : sbuf_t) (hash : hash_t)
    (hmap : w.tunnelGetState.upload_line_map hash = some u)
    (hust : (w.lineGetState u).state = kCsUploadInTable)
    (huul : (w.lineGetState u).upload_line = some u)
    (hwid : w.lineGetWID u = env.getWID)
    (hul : u ≠ l) (hmu : env.lineCreate ≠ u)
    (hbuf : (w.lineGetState u).buffering = some stored)
    (hpos : 0 < stored.length) (hshort : stored.length < 8)
    (halive : env.lineIsAlive = true) :
    payloadUnknownDownload env w l buf hash = .error Fault.shiftPastEnd := by
  have hns : ¬ 8 ≤ stored.length := by omega
  simp only [payloadUnknownDownload, hmap_cons_t_find, modLs_ts, hmap, modLs_other _ _ _ _ hul,
    huul, modLs_wid, hwid, if_true, setTs_ls, hust, ne_eq, not_true_eq_false, if_false,
    spliceDownloadArrived, halive, Bool.true_eq_false, modLs_other _ _ _ _ hmu.symm,
    modLs_same, setWID_ls, hbuf, sbufGetLength, gt_iff_lt, hpos, sbufShiftRight, hns]

/-- A run that returns, followed by a run that faults. -/
theorem runCalls_append_fault (kMaxBuffering : Nat) (w w1 : World) (a b : List Call)
    (evs1 : List Ev) (e : Fault)
    (h1 : runCalls kMaxBuffering w a = .ok (w1, evs1))
    (h2 : runCalls kMaxBuffering w1 b = .error e) :
    runCalls kMaxBuffering w (a ++ b) = .error e := by
  induction a generalizing w evs1 with
  | nil =>
    rw [runCalls_nil] at h1
    injection h1 with h1; injection h1 with ha hb
    subst ha
    simpa using h2
  | cons c cs ih =>
    rw [runCalls_cons] at h1
    cases hc : c.run kMaxBuffering w with
    | error e => rw [hc] at h1; exact Except.noConfusion h1
    | ok r =>
      obtain ⟨wa, ea⟩ := r
      rw [hc] at h1
      simp only at h1
      cases hcs : runCalls kMaxBuffering wa cs with
      | error e => rw [hcs] at h1; exact Except.noConfusion h1
      | ok r2 =>
        obtain ⟨wb, eb⟩ := r2
        rw [hcs] at h1
        simp only at h1
        injection h1 with h1; injection h1 with ha hb
        subst ha
        rw [List.cons_append, runCalls_cons, hc]
        simp only [ih wa eb hcs]

/-- The run of the upload line 1 that sends its header and then
`kMaxBuffering` more bytes: it returns, and line 1 is left waiting in the
table under its hash with nothing stored. -/
theorem overflow_run (kMaxBuffering : Nat) :
    ∃ w2 evs, runCalls kMaxBuffering (World.fresh fun _ => 0)
        (payloadCalls (pairEnv 0 100) 1 [hdrUpload, List.replicate kMaxBuffering 0]) =
        .ok (w2, evs) ∧
      (w2.lineGetState 1).state = kCsUploadInTable ∧
      (w2.lineGetState 1).buffering = none ∧
      (w2.lineGetState 1).upload_line = some 1 ∧
      w2.tunnelGetState.upload_line_map (headerHash hdrDownload) = some 1 ∧
      w2.lineGetWID 1 = 0 ∧
      (w2.lineGetState 2).state = kCsUnkown ∧
      (w2.lineGetState 2).buffering = none := by
  have hstart : UploadAhead (World.fresh fun _ => 0) 1 2 0 (headerHash hdrDownload) [] :=
    ⟨rfl, rfl, rfl, rfl, rfl, Or.inl ⟨by simp, rfl, Or.inr ⟨rfl, rfl⟩, rfl⟩⟩
  obtain ⟨w1, hrun1, h1⟩ := uploadAhead_step kMaxBuffering (World.fresh fun _ => 0) 1 2 100 0
    (headerHash hdrDownload) [] hdrUpload (by decide) hstart (fun _ => by decide)
    (fun h => absurd h (by decide))
  obtain ⟨hwu, hwd, hds, hdb, hdm, hcase⟩ := h1
  rcases hcase with ⟨hshort, -⟩ | ⟨-, hst, hbuf, hul, hum⟩
  · exact absurd hshort (by decide)
  have hrun2 := uploadInTable_overflow kMaxBuffering (pairEnv 0 100) w1 1
    (List.replicate kMaxBuffering 0) _ hst hbuf
    (by simp only [List.length_append, List.length_replicate]; omega)
  have h2 := runCalls_cons_ok kMaxBuffering w1 _ _
    (Call.payload (pairEnv 0 100) 1 (List.replicate kMaxBuffering 0)) [] _ _ hrun2
    (runCalls_nil kMaxBuffering _)
  have h1 := runCalls_cons_ok kMaxBuffering (World.fresh fun _ => 0) w1 _
    (Call.payload (pairEnv 0 100) 1 hdrUpload) _ _ _ hrun1 h2
  refine ⟨_, _, h1, ?_, ?_, ?_, ?_, ?_, ?_, ?_⟩
  · simp [hst]
  · simp
  · simp [hul]
  · simpa using hum
  · simpa using hwu
  · rw [modLs_other _ _ _ _ (by decide : (2 : line_t) ≠ 1),
      modLs_other _ _ _ _ (by decide : (2 : line_t) ≠ 1)]
    exact hds
  · rw [modLs_other _ _ _ _ (by decide : (2 : line_t) ≠ 1),
      modLs_other _ _ _ _ (by decide : (2 : line_t) ≠ 1)]
    exact hdb

/-- C30: for every value of `kMaxBuffering`, the upload line 1 sends its header
and then `kMaxBuffering` more bytes. The handler returns each time and line 1
still waits in `UploadInTable` under its hash, but `ls.buffering` is `NULL`.
When the download line 2 sends its header next, the assertion of payload.c
line 182 fails. When line 1 first sends "hello" (with `kMaxBuffering` above
5), its buffering is those five bytes without a header, and the download line
that arrives next shifts eight bytes past their end. -/
theorem overflow_breaks_stored_header (kMaxBuffering : Nat) :
    (runCalls kMaxBuffering (World.fresh fun _ => 0)
      (payloadCalls (pairEnv 0 100) 1 [hdrUpload, List.replicate kMaxBuffering 0])).fault =
        none ∧
    ((worldAfter kMaxBuffering (World.fresh fun _ => 0)
      (payloadCalls (pairEnv 0 100) 1
        [hdrUpload, List.replicate kMaxBuffering 0])).lineGetState 1).state =
        kCsUploadInTable ∧
    ((worldAfter kMaxBuffering (World.fresh fun _ => 0)
      (payloadCalls (pairEnv 0 100) 1
        [hdrUpload, List.replicate kMaxBuffering 0])).lineGetState 1).buffering = none ∧
    (worldAfter kMaxBuffering (World.fresh fun _ => 0)
      (payloadCalls (pairEnv 0 100) 1
        [hdrUpload, List.replicate kMaxBuffering 0])).tunnelGetState.upload_line_map
        (headerHash hdrUpload) = some 1 ∧
    (runCalls kMaxBuffering (World.fresh fun _ => 0)
      (payloadCalls (pairEnv 0 100) 1 [hdrUpload, List.replicate kMaxBuffering 0] ++
        [Call.payload (pairEnv 0 100) 2 hdrDownload])).fault = some Fault.assertFailed ∧
    (5 < kMaxBuffering →
      (runCalls kMaxBuffering (World.fresh fun _ => 0)
        (payloadCalls (pairEnv 0 100) 1 [hdrUpload, List.replicate kMaxBuffering 0] ++
          [Call.payload (pairEnv 0 100) 1 hello,
           Call.payload (pairEnv 0 100) 2 hdrDownload])).fault = some Fault.shiftPastEnd) := by
  obtain ⟨w2, evs, hrun, hst, hbuf, hul, hum, hwu, hds, hdb⟩ := overflow_run kMaxBuffering
  have hwa : worldAfter kMaxBuffering (World.fresh fun _ => 0)
      (payloadCalls (pairEnv 0 100) 1 [hdrUpload, List.replicate kMaxBuffering 0]) = w2 := by
    unfold worldAfter
    rw [hrun]
  refine ⟨by rw [hrun]; rfl, by rw [hwa]; exact hst, by rw [hwa]; exact hbuf,
    by rw [hwa]; exact hum, overflow_then_download_faults kMaxBuffering, ?_⟩
  intro hK
  have hrun3 := uploadInTable_restart kMaxBuffering (pairEnv 0 100) w2 1 hello hst hbuf
    (by simpa [hello] using hK)
  have hpend : pendingBytes (w2.modLs 1 (fun s => { s with buffering := some hello })) 2
      hdrDownload = hdrDownload := by
    unfold pendingBytes
    rw [modLs_other _ _ _ _ (by decide : (2 : line_t) ≠ 1), hdb]
  have hrun4 : halfduplexserverTunnelUpStreamPayload kMaxBuffering (pairEnv 0 100)
      (w2.modLs 1 (fun s => { s with buffering := some hello })) 2 hdrDownload =
      .error Fault.shiftPastEnd := by
    rw [payload_unknown_header kMaxBuffering _ _ 2 hdrDownload
      (by rw [modLs_other _ _ _ _ (by decide : (2 : line_t) ≠ 1)]; exact hds)
      (by rw [hpend]; decide), hpend, if_neg (by decide)]
    exact download_splice_short_buffering (pairEnv 0 100) _ 2 1 _ hello _
      (by simpa using hum)
      (by rw [withHeader_other _ _ _ _ (by decide : (1 : line_t) ≠ 2)]; simp [hst])
      (by rw [withHeader_other _ _ _ _ (by decide : (1 : line_t) ≠ 2)]; simp [hul])
      (by simpa [pairEnv] using hwu) (by decide) (by decide)
      (by rw [withHeader_other _ _ _ _ (by decide : (1 : line_t) ≠ 2)]; simp)
      (by decide) (by decide) rfl
  have htail : runCalls kMaxBuffering w2
      [Call.payload (pairEnv 0 100) 1 hello, Call.payload (pairEnv 0 100) 2 hdrDownload] =
      .error Fault.shiftPastEnd := by
    rw [runCalls_cons]
    simp only [Call.run, hrun3]
    rw [runCalls_cons]
    simp only [Call.run, hrun4]
  rw [runCalls_append_fault kMaxBuffering _ w2 _ _ evs _ hrun htail]
  rfl

end HalfDuplexServer

namespace HalfDuplexServer

open connection_state

/-! ## A splice when the upload bytes are exactly the header -/

/-- C33: the upload bytes at the splice are exactly the 8-byte header. When
the upload line 1 arrives at the waiting download line 2, nothing is forwarded
on the main line 100 and the emptied buffer is released. When the download
line 2 arrives at the waiting upload line 1, which holds the eight header
bytes, a buffer of length zero is forwarded on the main line 100 and nothing
of the upload side is released. -/
theorem header_only_upload_forwards_empty_buffer :
    (halfduplexserverTunnelUpStreamPayload kMaxBufferingSample (envOn 0 true)
      (worldAfter kMaxBufferingSample (World.fresh fun _ => 0)
        [Call.payload (envOn 0 true) 2 hdrDownload]) 1 hdrUpload).events =
      some [Ev.lineCreate 100, Ev.linestateInitialize 100, Ev.lineLock 100,
        Ev.tunnelNextUpStreamInit 100, Ev.lineUnlock 100,
        Ev.bufferpoolReuseBuffer 1 (some [])] ∧
    ((worldAfter kMaxBufferingSample (World.fresh fun _ => 0)
      [Call.payload (envOn 0 true) 1 hdrUpload]).lineGetState 1).buffering =
        some hdrUpload ∧
    (halfduplexserverTunnelUpStreamPayload kMaxBufferingSample (envOn 0 true)
      (worldAfter kMaxBufferingSample (World.fresh fun _ => 0)
        [Call.payload (envOn 0 true) 1 hdrUpload]) 2 hdrDownload).events =
      some [Ev.bufferpoolReuseBuffer 2 (some hdrUpload), Ev.lineCreate 100,
        Ev.linestateInitialize 100, Ev.lineLock 100, Ev.tunnelNextUpStreamInit 100,
        Ev.lineUnlock 100, Ev.tunnelNextUpStreamPayload tunnel_t.t 100 []] ∧
    (halfduplexserverTunnelUpStreamPayload kMaxBufferingSample (envOn 0 true)
      (worldAfter kMaxBufferingSample (World.fresh fun _ => 0)
        [Call.payload (envOn 0 true) 1 hdrUpload]) 2 hdrDownload).events.map
        (forwardedBuffers 100) = some [[]] := by
  decide

/-! ## The two maps never share a key -/

theorem mapsMove_same {ts ts' : halfduplexserver_tstate_t} (l : line_t) (h : ts' = ts) :
    MapsMove ts ts' l := by
  rw [h]
  exact Or.inl ⟨rfl, rfl⟩

/-- A change of the maps as in `MapsMove` leaves them without a common key. -/
theorem mapsMove_disjoint {ts ts' : halfduplexserver_tstate_t} {l : line_t}
    (hm : MapsMove ts ts' l) (hd : MapsDisjoint ts) : MapsDisjoint ts' := by
  intro h
  rcases hm with ⟨hu, hdn⟩ | ⟨k, -, hk, hu, hdn⟩ | ⟨k, hk, -, hdn, hu⟩ | ⟨k, hu, hdn⟩ |
    ⟨k, hdn, hu⟩
  · rw [hu, hdn]; exact hd h
  · rw [hu, hdn]
    by_cases e : h = k
    · right; rw [e]; exact hk
    · rw [Function.update_noteq e]; exact hd h
  · rw [hu, hdn]
    by_cases e : h = k
    · left; rw [e]; exact hk
    · rw [Function.update_noteq e]; exact hd h
  · rw [hu, hdn]
    by_cases e : h = k
    · left; rw [e, Function.update_same]
    · rw [Function.update_noteq e]; exact hd h
  · rw [hu, hdn]
    by_cases e : h = k
    · right; rw [e, Function.update_same]
    · rw [Function.update_noteq e]; exact hd h

/-- A key that a change of the maps as in `MapsMove` adds to one map was in
neither map before, and the line stored under it is the line of the call. -/
theorem mapsMove_added {ts ts' : halfduplexserver_tstate_t} {l : line_t}
    (hm : MapsMove ts ts' l) (h : hash_t) (x : line_t) :
    (ts.upload_line_map h = none → ts'.upload_line_map h = some x →
      ts.download_line_map h = none ∧ x = l) ∧
    (ts.download_line_map h = none → ts'.download_line_map h = some x →
      ts.upload_line_map h = none ∧ x = l) := by
  rcases hm with ⟨hu, hdn⟩ | ⟨k, hku, hkd, hu, hdn⟩ | ⟨k, hku, hkd, hdn, hu⟩ | ⟨k, hu, hdn⟩ |
    ⟨k, hdn, hu⟩
  · constructor
    · intro h0 h1; rw [hu, h0] at h1; exact Option.noConfusion h1
    · intro h0 h1; rw [hdn, h0] at h1; exact Option.noConfusion h1
  · constructor
    · intro h0 h1
      rw [hu] at h1
      by_cases e : h = k
      · rw [e, Function.update_same] at h1
        rw [e]
        exact ⟨hkd, (Option.some.inj h1).symm⟩
      · rw [Function.update_noteq e, h0] at h1; exact Option.noConfusion h1
    · intro h0 h1; rw [hdn, h0] at h1; exact Option.noConfusion h1
  · constructor
    · intro h0 h1; rw [hu, h0] at h1; exact Option.noConfusion h1
    · intro h0 h1
      rw [hdn] at h1
      by_cases e : h = k
      · rw [e, Function.update_same] at h1
        rw [e]
        exact ⟨hku, (Option.some.inj h1).symm⟩
      · rw [Function.update_noteq e, h0] at h1; exact Option.noConfusion h1
  · constructor
    · intro h0 h1
      rw [hu] at h1
      by_cases e : h = k
      · rw [e, Function.update_same] at h1; exact Option.noConfusion h1
      · rw [Function.update_noteq e, h0] at h1; exact Option.noConfusion h1
    · intro h0 h1; rw [hdn, h0] at h1; exact Option.noConfusion h1
  · constructor
    · intro h0 h1; rw [hu, h0] at h1; exact Option.noConfusion h1
    · intro h0 h1
      rw [hdn] at h1
      by_cases e : h = k
      · rw [e, Function.update_same] at h1; exact Option.noConfusion h1
      · rw [Function.update_noteq e, h0] at h1; exact Option.noConfusion h1

/-- The upload branch of the `Unknown` handler: the download map loses the
entry of the hash, or the upload map gains one when neither map has an entry
under the hash, or the maps stay. -/
theorem payloadUnknownUpload_move (env : Env) (w w' : World) (l : line_t) (buf : sbuf_t)
    (hash : hash_t) (evs : List Ev)
    (h : payloadUnknownUpload env w l buf hash = .ok (w', evs)) :
    MapsMove w.tunnelGetState w'.tunnelGetState l := by
  unfold payloadUnknownUpload at h
  simp only [hmap_cons_t_find, modLs_ts] at h
  split at h
  · split at h
    · exact Except.noConfusion h
    · split_ifs at h with hwid hassert
      · obtain ⟨hts, -⟩ := spliceUploadArrived_entries _ _ _ _ _ _ _ _ h
        rw [hts]
        exact Or.inr (Or.inr (Or.inr (Or.inr ⟨hash, rfl, rfl⟩)))
      · injection h with h; injection h with h1 h2; subst h1
        exact mapsMove_same l rfl
  · rename_i hdm
    cases hum : w.tunnelGetState.upload_line_map hash with
    | some first =>
      simp only [hmap_cons_t_insert, modLs_ts, hum, if_true] at h
      injection h with h; injection h with h1 h2; subst h1
      exact mapsMove_same l rfl
    | none =>
      simp only [hmap_cons_t_insert, modLs_ts, hum, Bool.true_eq_false, if_false] at h
      injection h with h; injection h with h1 h2; subst h1
      exact Or.inr (Or.inl ⟨hash, hum, hdm, rfl, rfl⟩)

/-- The download branch of the `Unknown` handler: the upload map loses the
entry of the hash, or the download map gains one when neither map has an entry
under the hash, or the maps stay. -/
theorem payloadUnknownDownload_move (env : Env) (w w' : World) (l : line_t)
    (buf : sbuf_t) (hash : hash_t) (evs : List Ev)
    (h : payloadUnknownDownload env w l buf hash = .ok (w', evs)) :
    MapsMove w.tunnelGetState w'.tunnelGetState l := by
  unfold payloadUnknownDownload at h
  simp only [hmap_cons_t_find, modLs_ts] at h
  split at h
  · split at h
    · exact Except.noConfusion h
    · split_ifs at h with hwid hassert
      · split at h
        · exact Except.noConfusion h
        · rename_i w2 evs2 hsp
          injection h with h; injection h with h1 h2; subst h1
          obtain ⟨hts, -⟩ := spliceDownloadArrived_entries _ _ _ _ _ _ hsp
          rw [hts]
          exact Or.inr (Or.inr (Or.inr (Or.inl ⟨hash, rfl, rfl⟩)))
      · injection h with h; injection h with h1 h2; subst h1
        exact mapsMove_same l rfl
  · rename_i hum
    cases hdm : w.tunnelGetState.download_line_map hash with
    | some first =>
      simp only [hmap_cons_t_insert, modLs_ts, hdm, if_true] at h
      injection h with h; injection h with h1 h2; subst h1
      exact mapsMove_same l rfl
    | none =>
      simp only [hmap_cons_t_insert, modLs_ts, hdm, Bool.true_eq_false, if_false] at h
      injection h with h; injection h with h1 h2; subst h1
      exact Or.inr (Or.inr (Or.inl ⟨hash, hum, hdm, rfl, rfl⟩))

/-- Every payload call that returns changes the maps as in `MapsMove`. -/
theorem payload_move (kMaxBuffering : Nat) (env : Env) (w w' : World)
    (l : line_t) (buf : sbuf_t) (evs : List Ev)
    (h : halfduplexserverTunnelUpStreamPayload kMaxBuffering env w l buf = .ok (w', evs)) :
    MapsMove w.tunnelGetState w'.tunnelGetState l := by
  unfold halfduplexserverTunnelUpStreamPayload at h
  split at h
  · unfold payloadUnknown at h
    simp only at h
    split_ifs at h with hshort hup
    · injection h with h; injection h with h1 h2; subst h1
      exact mapsMove_same l rfl
    · have hmove := payloadUnknownUpload_move env _ w' l _ _ evs h
      simp only [modLs_ts] at hmove
      exact hmove
    · have hmove := payloadUnknownDownload_move env _ w' l _ _ evs h
      simp only [modLs_ts] at hmove
      exact hmove
  · unfold payloadUploadInTable at h
    simp only at h
    split_ifs at h
    · injection h with h; injection h with h1 h2; subst h1
      exact mapsMove_same l rfl
    · injection h with h; injection h with h1 h2; subst h1
      exact mapsMove_same l rfl
  · split at h <;>
      (injection h with h; injection h with h1 h2; subst h1; exact mapsMove_same l rfl)
  · injection h with h; injection h with h1 h2; subst h1; exact mapsMove_same l rfl
  · injection h with h; injection h with h1 h2; subst h1; exact mapsMove_same l rfl

/-- Every finish call that returns changes the maps as in `MapsMove`. -/
theorem finish_move (w w' : World) (l : line_t) (evs : List Ev)
    (h : halfduplexserverTunnelUpStreamFinish w l = .ok (w', evs)) :
    MapsMove w.tunnelGetState w'.tunnelGetState l := by
  unfold halfduplexserverTunnelUpStreamFinish at h
  split at h
  · injection h with h; injection h with h1 h2; subst h1
    exact mapsMove_same l rfl
  · simp only [hmap_cons_t_find] at h
    split at h
    · exact Except.noConfusion h
    · injection h with h; injection h with h1 h2; subst h1
      exact Or.inr (Or.inr (Or.inr (Or.inl ⟨_, rfl, rfl⟩)))
  · simp only [hmap_cons_t_find] at h
    split at h
    · exact Except.noConfusion h
    · injection h with h; injection h with h1 h2; subst h1
      exact Or.inr (Or.inr (Or.inr (Or.inr ⟨_, rfl, rfl⟩)))
  · obtain ⟨hts, -⟩ := finishDownloadDirect_entries w w' l evs h
    exact mapsMove_same l hts
  · obtain ⟨hts, -⟩ := finishUploadDirect_entries w w' l evs h
    exact mapsMove_same l hts

/-- The maps have no common key in every reachable world. -/
theorem reachable_disjoint (kMaxBuffering : Nat) (w : World)
    (hr : Reachable kMaxBuffering w) : MapsDisjoint w.tunnelGetState := by
  induction hr with
  | init wid =>
    intro h
    left
    rfl
  | step w w' _ hstep ih =>
    cases hstep with
    | payload env l buf _ _ evs hm hrun =>
      exact mapsMove_disjoint (payload_move kMaxBuffering env w w' l buf evs hrun) ih
    | finish l _ _ evs hrun =>
      exact mapsMove_disjoint (finish_move w w' l evs hrun) ih

/-- C34: in every world reached from empty maps by payload and finish calls
that each return, no hash is a key of both `upload_line_map` and
`download_line_map`; and whenever a payload call adds a key to one of the
maps, neither map held that key before the call and the line stored is the
line of the call. -/
theorem pairing_maps_disjoint (kMaxBuffering : Nat) (w : World)
    (hreach : Reachable kMaxBuffering w) :
    MapsDisjoint w.tunnelGetState ∧
    (∀ h u d, w.tunnelGetState.upload_line_map h = some u →
      w.tunnelGetState.download_line_map h = some d → False) ∧
    (∀ env l buf w' evs h x,
      halfduplexserverTunnelUpStreamPayload kMaxBuffering env w l buf = .ok (w', evs) →
      (w.tunnelGetState.upload_line_map h = none →
        w'.tunnelGetState.upload_line_map h = some x →
        w.tunnelGetState.download_line_map h = none ∧ x = l) ∧
      (w.tunnelGetState.download_line_map h = none →
        w'.tunnelGetState.download_line_map h = some x →
        w.tunnelGetState.upload_line_map h = none ∧ x = l)) := by
  have hdis := reachable_disjoint kMaxBuffering w hreach
  refine ⟨hdis, ?_, ?_⟩
  · intro h u d hu hdn
    rcases hdis h with e | e
    · rw [e] at hu; exact Option.noConfusion hu
    · rw [e] at hdn; exact Option.noConfusion hdn
  · intro env l buf w' evs h x hrun
    exact mapsMove_added (payload_move kMaxBuffering env w w' l buf evs hrun) h x

/-- C34 on scenario 1: after the upload line has shown its header the hash is
a key of the upload map only, and after the download line has shown its header
it is a key of neither map. -/
theorem pairing_maps_disjoint_witness :
    MapsDisjoint (worldAfter kMaxBufferingSample (World.fresh fun _ => 0)
      [Call.payload (envOn 0 true) 1 (hdrUpload ++ hello)]).tunnelGetState ∧
    (worldAfter kMaxBufferingSample (World.fresh fun _ => 0)
      [Call.payload (envOn 0 true) 1 (hdrUpload ++ hello)]).tunnelGetState.upload_line_map
        (headerHash hdrUpload) = some 1 ∧
    (worldAfter kMaxBufferingSample (World.fresh fun _ => 0)
      [Call.payload (envOn 0 true) 1 (hdrUpload ++ hello)]).tunnelGetState.download_line_map
        (headerHash hdrUpload) = none :=
  ⟨(pairing_maps_disjoint kMaxBufferingSample _
      (Reachable.step (World.fresh fun _ => 0)
        (worldAfter kMaxBufferingSample (World.fresh fun _ => 0)
          [Call.payload (envOn 0 true) 1 (hdrUpload ++ hello)])
        (Reachable.init fun _ => 0)
        (Step.payload (envOn 0 true) 1 (hdrUpload ++ hello) (World.fresh fun _ => 0)
          (worldAfter kMaxBufferingSample (World.fresh fun _ => 0)
            [Call.payload (envOn 0 true) 1 (hdrUpload ++ hello)]) [] (by decide)
          (by rfl)))).1,
   by decide, by decide⟩

end HalfDuplexServer

namespace WireGuardDevice

open ip_addr_type err_t

/-! ## The lookup by allowed IP -/

theorem allowedIpMatches_iff (ipaddr : ip_addr_t) (a : wireguard_allowed_ip_t) :
    allowedIpMatches ipaddr a = true ↔ EntryCovers ipaddr a := by
  unfold allowedIpMatches EntryCovers ip4AddrNetcmp ip6AddrNetcmp
  cases hv : a.valid
  · simp
  · cases ht : ipaddr.type <;> cases hat : a.ip.type
    · simp only [and_self, if_true, beq_iff_eq, true_and]
      exact eq_comm
    · simp
    · simp
    · simp only [and_self, if_true, beq_iff_eq, true_and, reduceCtorEq, if_false]
      exact eq_comm

theorem scanAllowedIps_iff (ipaddr : ip_addr_t) (l : List wireguard_allowed_ip_t) :
    scanAllowedIps ipaddr l = true ↔ ∃ a ∈ l, EntryCovers ipaddr a := by
  induction l with
  | nil => simp [scanAllowedIps]
  | cons a rest ih =>
    unfold scanAllowedIps
    by_cases h : allowedIpMatches ipaddr a = true
    · simp [h, (allowedIpMatches_iff ipaddr a).1 h]
    · have hn : ¬ EntryCovers ipaddr a := fun hc => h ((allowedIpMatches_iff ipaddr a).2 hc)
      simp [h, ih, hn]

theorem peerTest_iff (ipaddr : ip_addr_t) (p : wireguard_peer_t) :
    (p.valid && scanAllowedIps ipaddr p.allowed_source_ips) = true ↔ PeerMatches ipaddr p := by
  unfold PeerMatches
  rw [Bool.and_eq_true, scanAllowedIps_iff]

/-- The outer loop returns the first index, counted from `x`, whose peer
matches. -/
theorem peerLookupFrom_some (ipaddr : ip_addr_t) (peers : List wireguard_peer_t)
    (x i : Nat) :
    peerLookupFrom ipaddr x peers = some i ↔
      ∃ k, i = x + k ∧ (∃ p, peers.get? k = some p ∧ PeerMatches ipaddr p) ∧
        ∀ j < k, ∀ q, peers.get? j = some q → ¬ PeerMatches ipaddr q := by
  induction peers generalizing x with
  | nil => simp [peerLookupFrom]
  | cons p rest ih =>
    unfold peerLookupFrom
    by_cases h : (p.valid && scanAllowedIps ipaddr p.allowed_source_ips) = true
    · have hm := (peerTest_iff ipaddr p).1 h
      rw [if_pos h]
      constructor
      · intro e
        injection e with e
        exact ⟨0, by omega, ⟨p, rfl, hm⟩, fun j hj => absurd hj (Nat.not_lt_zero j)⟩
      · rintro ⟨k, hk, -, hfirst⟩
        cases k with
        | zero => rw [hk]; rfl
        | succ k => exact absurd hm (hfirst 0 (Nat.succ_pos k) p rfl)
    · have hm : ¬ PeerMatches ipaddr p := fun hc => h ((peerTest_iff ipaddr p).2 hc)
      rw [if_neg h, ih]
      constructor
      · rintro ⟨k, hk, hex, hfirst⟩
        refine ⟨k + 1, by omega, hex, fun j hj q hq => ?_⟩
        cases j with
        | zero =>
          simp only [List.get?_cons_zero, Option.some.injEq] at hq
          rw [← hq]; exact hm
        | succ j => exact hfirst j (by omega) q hq
      · rintro ⟨k, hk, hex, hfirst⟩
        cases k with
        | zero =>
          obtain ⟨q, hq, hqm⟩ := hex
          simp only [List.get?_cons_zero, Option.some.injEq] at hq
          rw [← hq] at hqm; exact absurd hqm hm
        | succ k =>
          exact ⟨k, by omega, hex, fun j hj q hq => hfirst (j + 1) (by omega) q hq⟩

theorem peerLookupFrom_none (ipaddr : ip_addr_t) (peers : List wireguard_peer_t) (x : Nat) :
    peerLookupFrom ipaddr x peers = none ↔ ∀ p ∈ peers, ¬ PeerMatches ipaddr p := by
  induction peers generalizing x with
  | nil => simp [peerLookupFrom]
  | cons p rest ih =>
    unfold peerLookupFrom
    by_cases h : (p.valid && scanAllowedIps ipaddr p.allowed_source_ips) = true
    · have hm := (peerTest_iff ipaddr p).1 h
      rw [if_pos h]
      simp only [List.mem_cons, forall_eq_or_imp, reduceCtorEq, false_iff, not_and]
      intro hc; exact absurd hm hc
    · have hm : ¬ PeerMatches ipaddr p := fun hc => h ((peerTest_iff ipaddr p).2 hc)
      rw [if_neg h, ih]
      simp [hm]

/-- The lookup returns the lowest index whose peer matches. -/
theorem lookup_some_iff (device : wireguard_device_t) (ipaddr : ip_addr_t) (i : Nat) :
    peerLookupByAllowedIp device ipaddr = some i ↔
      (∃ p, device.peers.get? i = some p ∧ PeerMatches ipaddr p) ∧
        ∀ j < i, ∀ q, device.peers.get? j = some q → ¬ PeerMatches ipaddr q := by
  unfold peerLookupByAllowedIp
  rw [peerLookupFrom_some]
  constructor
  · rintro ⟨k, hk, h⟩
    have : i = k := by omega
    rw [this]; exact h
  · intro h
    exact ⟨i, by omega, h⟩

end WireGuardDevice

namespace WireGuardDevice

open ip_addr_type err_t

/-- C14: for every device and destination address, `peerLookupByAllowedIp`
returns index `i` exactly when the peer at `i` is valid and has a valid
allowed-IP entry of the address's family whose masked network equals the
address's masked network, and no peer before `i` has; so a matching peer later
in the array never overrides an earlier one, every matching peer makes the
lookup return an index at or before it, and the lookup returns `NULL` exactly
when no peer matches. -/
theorem peer_lookup_first_match (device : wireguard_device_t) (ipaddr : ip_addr_t) :
    (∀ i, peerLookupByAllowedIp device ipaddr = some i ↔
      (∃ p, device.peers.get? i = some p ∧ PeerMatches ipaddr p) ∧
        ∀ j < i, ∀ q, device.peers.get? j = some q → ¬ PeerMatches ipaddr q) ∧
    (∀ i p, device.peers.get? i = some p → PeerMatches ipaddr p →
      ∃ k, k ≤ i ∧ peerLookupByAllowedIp device ipaddr = some k) ∧
    (peerLookupByAllowedIp device ipaddr = none ↔
      ∀ p ∈ device.peers, ¬ PeerMatches ipaddr p) := by
  refine ⟨fun i => lookup_some_iff device ipaddr i, ?_, peerLookupFrom_none ipaddr _ 0⟩
  intro i p hp hm
  cases hl : peerLookupByAllowedIp device ipaddr with
  | none =>
    have hnone := (peerLookupFrom_none ipaddr device.peers 0).1 hl
    exact absurd hm (hnone p (List.get?_mem hp))
  | some k =>
    refine ⟨k, ?_, rfl⟩
    by_contra hlt
    have hk := ((lookup_some_iff device ipaddr k).1 hl).2
    exact hk i (by omega) p hp hm

end WireGuardDevice

namespace WireGuardDevice

open ip_addr_type err_t

/-! ## The peer the upstream path selects -/

/-- Every frame `wireguardifOutputToPeer` hands on is handed on for the peer it
was called with. -/
theorem handedFrames_of_output (cfg : Config) (env : Env) (q : sbuf_t) (idx : Nat)
    (peer peer' : wireguard_peer_t) (res : err_t) (evs : List Ev)
    (h : wireguardifOutputToPeer cfg env q idx peer = .ok (res, peer', evs)) :
    ∀ x ∈ handedFrames evs, x.1 = idx := by
  unfold wireguardifOutputToPeer at h
  simp only [] at h
  split_ifs at h
  all_goals first
    | (cases h
       simp [handedFrames])
    | (split at h
       · exact absurd h (by simp)
       · cases h
         intro x hx
         simp only [handedFrames, List.mem_singleton] at hx
         rw [hx])

theorem handedFrames_append (a b : List Ev) :
    handedFrames (a ++ b) = handedFrames a ++ handedFrames b := by
  induction a with
  | nil => rfl
  | cons e rest ih => cases e <;> simp [handedFrames, ih]

/-- The destination lookup of the handler, for a packet long enough for the
header of its version. -/
theorem routePacket_eq (dev : wireguard_device_t) (data : List Nat) (dest : ip_addr_t)
    (hlen : 20 ≤ data.length) (h6 : IP_HDR_GET_VERSION data = 6 → 40 ≤ data.length)
    (hd : packetDest data = some dest) :
    routePacket dev data = .ok (peerLookupByAllowedIp dev dest) := by
  unfold packetDest at hd
  unfold routePacket readField
  by_cases h4 : IP_HDR_GET_VERSION data = 4
  · rw [if_pos h4] at hd
    injection hd with hd
    rw [if_pos h4, if_pos (by omega), ← hd]
  · rw [if_neg h4] at hd
    by_cases h6' : IP_HDR_GET_VERSION data = 6
    · rw [if_pos h6'] at hd
      injection hd with hd
      have := h6 h6'
      rw [if_neg h4, if_pos h6', if_pos (by omega), ← hd]
    · rw [if_neg h6'] at hd
      exact absurd hd (by simp)

/-- C15, the counterexample: peer 0 allows 10.0.0.0/8, peer 1 allows
10.1.0.0/16, and a packet to 10.1.2.3 arrives. Peer 1 matches the destination
and its mask has the longer prefix (16 against 8), yet the lookup of the
handler returns peer 0 and the one frame handed to `wireguardifPeerOutput` is
handed on for peer 0. -/
theorem longest_prefix_not_selected :
    packetDest packetSample = some ⟨IPADDR_TYPE_V4, 0x0A010203⟩ ∧
    PeerMatches ⟨IPADDR_TYPE_V4, 0x0A010203⟩ (peerSample 0x0A000000 0xFF000000) ∧
    PeerMatches ⟨IPADDR_TYPE_V4, 0x0A010203⟩ (peerSample 0x0A010000 0xFFFF0000) ∧
    prefixLength 0xFF000000 = 8 ∧ prefixLength 0xFFFF0000 = 16 ∧
    routePacket deviceSample packetSample = .ok (some 0) ∧
    ((wireguarddeviceTunnelUpStreamPayload cfgSample (envSample ERR_OK) deviceSample
        (bufSample packetSample)).toOption.map
      (fun r => (handedFrames r.2).map Prod.fst)) = some [0] := by
  refine ⟨by decide, by decide, by decide, by decide, by decide, ?_, by decide⟩
  rw [routePacket_eq deviceSample packetSample ⟨IPADDR_TYPE_V4, 0x0A010203⟩ (by decide)
    (by decide) (by decide)]
  exact congrArg Except.ok (by decide)

/-- C15, amended: for every device and every packet of at least 20 bytes (40
for version 6) whose destination is `dest`, the lookup of the upstream handler
is `peerLookupByAllowedIp` on `dest`; it selects index `i` exactly when the
peer at `i` matches `dest` and no peer before `i` does, whatever the prefix
lengths; and every frame the handler hands to `wireguardifPeerOutput` is
handed on for that peer. -/
theorem upstream_selects_first_match (cfg : Config) (env : Env) (dev : wireguard_device_t)
    (buf : sbuf_t) (dest : ip_addr_t)
    (hlen : 20 ≤ buf.bytes.length)
    (h6 : IP_HDR_GET_VERSION buf.bytes = 6 → 40 ≤ buf.bytes.length)
    (hd : packetDest buf.bytes = some dest) :
    routePacket dev buf.bytes = .ok (peerLookupByAllowedIp dev dest) ∧
    (∀ i, routePacket dev buf.bytes = .ok (some i) ↔
      (∃ p, dev.peers.get? i = some p ∧ PeerMatches dest p) ∧
        ∀ j < i, ∀ q, dev.peers.get? j = some q → ¬ PeerMatches dest q) ∧
    (∀ dev' evs, wireguarddeviceTunnelUpStreamPayload cfg env dev buf = .ok (dev', evs) →
      ∀ x ∈ handedFrames evs, peerLookupByAllowedIp dev dest = some x.1) := by
  have hr := routePacket_eq dev buf.bytes dest hlen h6 hd
  refine ⟨hr, ?_, ?_⟩
  · intro i
    rw [hr, ← lookup_some_iff]
    simp
  · intro dev' evs h x hx
    unfold wireguarddeviceTunnelUpStreamPayload at h
    rw [if_neg (by simp only [sbufGetLength, sizeof_ip4_hdr_t]; omega), hr] at h
    cases hl : peerLookupByAllowedIp dev dest with
    | none =>
      rw [hl] at h
      cases h
      simp [handedFrames] at hx
    | some idx =>
      rw [hl] at h
      cases hp : dev.peers.get? idx with
      | none =>
        simp only [hp] at h
        exact absurd h (by simp)
      | some peer =>
        simp only [hp] at h
        cases ho : wireguardifOutputToPeer cfg env buf idx peer with
        | error e =>
          simp only [ho] at h
          exact absurd h (by simp)
        | ok r =>
          obtain ⟨res, peer', evs'⟩ := r
          simp only [ho] at h
          cases h
          rw [handedFrames_append, handedFrames_append] at hx
          simp only [handedFrames, List.nil_append, List.append_nil] at hx
          rw [handedFrames_of_output cfg env buf idx peer peer' res evs' ho x hx]

theorem upstream_selects_first_match_witness :
    (20 ≤ (bufSample packetSample).bytes.length ∧
      packetDest (bufSample packetSample).bytes = some ⟨IPADDR_TYPE_V4, 0x0A010203⟩) ∧
    routePacket deviceSample (bufSample packetSample).bytes =
      .ok (peerLookupByAllowedIp deviceSample ⟨IPADDR_TYPE_V4, 0x0A010203⟩) ∧
    peerLookupByAllowedIp deviceSample ⟨IPADDR_TYPE_V4, 0x0A010203⟩ = some 0 :=
  ⟨⟨by decide, by decide⟩,
   (upstream_selects_first_match cfgSample (envSample ERR_OK) deviceSample
      (bufSample packetSample) ⟨IPADDR_TYPE_V4, 0x0A010203⟩ (by decide) (by decide)
      (by decide)).1,
   by decide⟩

end WireGuardDevice

namespace WireGuardDevice

open ip_addr_type err_t

/-! ## The padded length -/

theorem testBit_mask (i : Nat) (hi : i < 32) : Nat.testBit 0xFFFFFFF0 i = decide (4 ≤ i) := by
  revert i
  decide

/-- Masking a 32-bit value with `0xFFFFFFF0` rounds it down to a multiple of
16. -/
theorem land_mask (m : Nat) (h : m < 2 ^ 32) : m &&& 0xFFFFFFF0 = m / 16 * 16 := by
  have e : m / 16 * 16 = (m >>> 4) <<< 4 := by
    rw [Nat.shiftLeft_eq, Nat.shiftRight_eq_div_pow]
  rw [e]
  apply Nat.eq_of_testBit_eq
  intro i
  rw [Nat.testBit_land, Nat.testBit_shiftLeft, Nat.testBit_shiftRight]
  by_cases hi : i < 32
  · rw [testBit_mask i hi]
    by_cases h4 : 4 ≤ i
    · have : 4 + (i - 4) = i := by omega
      simp [h4, this]
    · simp [h4]
  · have hm : m.testBit i = false := by
      apply Nat.testBit_lt_two_pow
      calc m < 2 ^ 32 := h
        _ ≤ 2 ^ i := Nat.pow_le_pow_right (by decide) (by omega)
    have hm' : m.testBit (4 + (i - 4)) = false := by
      have : 4 + (i - 4) = i := by omega
      rw [this]; exact hm
    simp [hm, hm']

/-- The expression of payload.c line 90 rounds up to the next multiple of
16. -/
theorem paddedLen_eq (n : Nat) (h : n + 15 < 2 ^ 32) : paddedLen n = (n + 15) / 16 * 16 := by
  unfold paddedLen
  rw [Nat.mod_eq_of_lt h, land_mask _ h]

/-! ## The frame of an accepted send -/

theorem fitLength_length (n : Nat) (out : List Nat) : (fitLength n out).length = n := by
  simp [fitLength]

theorem fitLength_of_length (n : Nat) (out : List Nat) (h : out.length = n) :
    fitLength n out = out := by
  unfold fitLength
  rw [List.take_append_of_le_length (by omega), List.take_of_length_le (by omega)]

theorem writeZeros_aux (front body : List Nat) (h : front.length = 16) :
    List.replicate (min 16 (front ++ body).length) 0 ++ (front ++ body).drop 16 =
      [0, 0, 0, 0, 0, 0, 0, 0, 0, 0, 0, 0, 0, 0, 0, 0] ++ body := by
  have h1 : min 16 (front ++ body).length = 16 := by
    rw [List.length_append, h]; omega
  have h2 : (front ++ body).drop 16 = body := by
    rw [← h, List.drop_left]
  rw [h1, h2]
  rfl

/-- The buffer after payload.c lines 93-111, when the buffer has 16 bytes in
front and `padded_len + 16` bytes from its cursor on. -/
theorem buildFrame_ok (cfg : Config) (q : sbuf_t) (padded_len : Nat)
    (k : wireguard_keypair_t) (hl : 16 ≤ q.left.length) (hP : padded_len + 16 < 2 ^ 32)
    (hr : padded_len + 16 ≤ q.bytes.length + q.right.length) :
    buildFrame cfg q padded_len k = .ok
      { left := q.left.take (q.left.length - 16),
        bytes := [cfg.MESSAGE_TRANSPORT_DATA % 256, 0, 0, 0] ++ u32le k.remote_index ++
          U64TO8_LITTLE k.sending_counter ++ (q.bytes ++ q.right).take (padded_len + 16),
        right := (q.bytes ++ q.right).drop (padded_len + 16) } := by
  unfold buildFrame sbufSetLength WIREGUARD_AUTHTAG_LEN
  rw [Nat.mod_eq_of_lt hP, if_pos (by rw [List.length_append]; exact hr)]
  simp only []
  unfold sbufShiftLeft
  rw [if_pos hl]
  simp only []
  unfold sbufWriteZeros
  simp only []
  rw [writeZeros_aux _ _ (by rw [List.length_drop]; omega)]
  rfl

/-- The frame after the packet is sealed: the frame of the external
interface. -/
theorem sealed_frame (cfg : Config) (env : Env) (q : sbuf_t) (k : wireguard_keypair_t) :
    (wireguardEncryptPacket env
      { left := q.left.take (q.left.length - 16),
        bytes := [cfg.MESSAGE_TRANSPORT_DATA % 256, 0, 0, 0] ++ u32le k.remote_index ++
          U64TO8_LITTLE k.sending_counter ++
          (q.bytes ++ q.right).take ((q.bytes.length + 15) / 16 * 16 + 16),
        right := (q.bytes ++ q.right).drop ((q.bytes.length + 15) / 16 * 16 + 16) }
      16 ((q.bytes.length + 15) / 16 * 16) k).1 = transportFrame cfg env q k := by
  have hn : q.bytes.length ≤ (q.bytes.length + 15) / 16 * 16 := by omega
  generalize hPdef : (q.bytes.length + 15) / 16 * 16 = P at hn
  have hplain : (((q.bytes ++ q.right).take (P + 16)).take P) =
      q.bytes ++ q.right.take (P - q.bytes.length) := by
    rw [List.take_take, min_eq_left (by omega), List.take_append_eq_append_take,
      List.take_of_length_le hn]
  have hrest : ((q.bytes ++ q.right).take (P + 16)).drop (P + 16) = [] := by
    rw [List.drop_eq_nil_iff, List.length_take]
    omega
  have hright : (q.bytes ++ q.right).drop (P + 16) = q.right.drop (P + 16 - q.bytes.length) := by
    rw [List.drop_append_eq_append_drop, List.drop_of_length_le (by omega), List.nil_append]
  unfold wireguardEncryptPacket transportFrame sbufStore WIREGUARD_AUTHTAG_LEN
  simp only [hPdef]
  have hdrop : ([cfg.MESSAGE_TRANSPORT_DATA % 256, 0, 0, 0] ++ u32le k.remote_index ++
      U64TO8_LITTLE k.sending_counter ++ (q.bytes ++ q.right).take (P + 16)).drop 16 =
      (q.bytes ++ q.right).take (P + 16) := rfl
  have htake : ([cfg.MESSAGE_TRANSPORT_DATA % 256, 0, 0, 0] ++ u32le k.remote_index ++
      U64TO8_LITTLE k.sending_counter ++ (q.bytes ++ q.right).take (P + 16)).take 16 =
      [cfg.MESSAGE_TRANSPORT_DATA % 256, 0, 0, 0] ++ u32le k.remote_index ++
      U64TO8_LITTLE k.sending_counter := rfl
  rw [hdrop, hplain, htake, fitLength_length, ← List.drop_drop, hdrop, hrest, hright,
    List.append_nil]

theorem eligible_first_test (cfg : Config) (now : Nat) (k : wireguard_keypair_t)
    (he : Eligible cfg now k) :
    (k.valid && (k.initiator || k.last_rx != 0)) = true := by
  obtain ⟨hv, hi, -, -⟩ := he
  rw [hv, Bool.true_and, Bool.or_eq_true]
  rcases hi with hi | hi
  · exact Or.inl hi
  · exact Or.inr (by simpa using hi)

theorem eligible_second_test (cfg : Config) (now : Nat) (k : wireguard_keypair_t)
    (he : Eligible cfg now k) :
    ((!wireguardExpired now k.keypair_millis cfg.REJECT_AFTER_TIME) &&
      decide (k.sending_counter < cfg.REJECT_AFTER_MESSAGES)) = true := by
  obtain ⟨-, -, ha, hc⟩ := he
  unfold keypairAge at ha
  unfold wireguardExpired
  simp only [Bool.and_eq_true, Bool.not_eq_true', decide_eq_false_iff_not, decide_eq_true_eq,
    not_le]
  exact ⟨ha, hc⟩

/-- An accepted send: with an eligible keypair selected and room in the
buffer, `wireguardifOutputToPeer` hands exactly the transport frame of the
packet to `wireguardifPeerOutput`, returns that call's result, and the
keypair's counter has advanced by one. -/
theorem output_accepted (cfg : Config) (env : Env) (q : sbuf_t) (idx : Nat)
    (peer : wireguard_peer_t)
    (he : Eligible cfg env.now (peer.getKeypair (selectKeypair peer)))
    (hroom : RoomForFrame cfg q) :
    wireguardifOutputToPeer cfg env q idx peer = .ok
      (env.peerOutputResult,
       afterPeerOutput cfg env
         (peer.setKeypair (selectKeypair peer)
           { peer.getKeypair (selectKeypair peer) with
             sending_counter :=
               ((peer.getKeypair (selectKeypair peer)).sending_counter + 1) % 2 ^ 64 })
         (selectKeypair peer) env.peerOutputResult,
       [Ev.wireguardifPeerOutput idx
         (transportFrame cfg env q (peer.getKeypair (selectKeypair peer)))]) := by
  obtain ⟨hn, hs, hl, hr⟩ := hroom
  have hlen : (if sbufGetLength q > 0 then sbufGetLength q else 0) = q.bytes.length := by
    unfold sbufGetLength
    split_ifs with h
    · rfl
    · omega
  have hpad : paddedLen q.bytes.length = (q.bytes.length + 15) / 16 * 16 :=
    paddedLen_eq _ (by omega)
  have hP : (q.bytes.length + 15) / 16 * 16 ≤ 1500 := by omega
  unfold wireguardifOutputToPeer
  simp only []
  rw [if_pos (eligible_first_test cfg env.now _ he),
    if_pos (eligible_second_test cfg env.now _ he), hlen, hpad]
  have hmod : ((q.bytes.length + 15) / 16 * 16 + WIREGUARD_AUTHTAG_LEN) % 2 ^ 32 =
      (q.bytes.length + 15) / 16 * 16 + 16 := by
    unfold WIREGUARD_AUTHTAG_LEN
    exact Nat.mod_eq_of_lt (by omega)
  rw [hmod, if_neg (by omega), if_neg (by omega),
    buildFrame_ok cfg q _ _ hl (by omega) hr]
  simp only []
  rw [sealed_frame cfg env q _]
  rfl

end WireGuardDevice

namespace WireGuardDevice

open ip_addr_type err_t

/-! ## Reads and writes through the keypair pointer -/

@[simp] theorem getKeypair_setKeypair (peer : wireguard_peer_t) (r : keypair_ref)
    (k : wireguard_keypair_t) : (peer.setKeypair r k).getKeypair r = k := by
  cases r <;> rfl

@[simp] theorem getKeypair_setKeypair_other (peer : wireguard_peer_t) (r : keypair_ref)
    (k : wireguard_keypair_t) : (peer.setKeypair r k).getKeypair r.other = peer.getKeypair r.other := by
  cases r <;> rfl

@[simp] theorem setKeypair_valid (peer : wireguard_peer_t) (r : keypair_ref)
    (k : wireguard_keypair_t) : (peer.setKeypair r k).valid = peer.valid := by
  cases r <;> rfl

@[simp] theorem setKeypair_allowed (peer : wireguard_peer_t) (r : keypair_ref)
    (k : wireguard_keypair_t) :
    (peer.setKeypair r k).allowed_source_ips = peer.allowed_source_ips := by
  cases r <;> rfl

/-- The time stamps and the rekey flag of payload.c lines 133-148 leave the
counter of the keypair as it is. -/
theorem afterPeerOutput_counter (cfg : Config) (env : Env) (peer : wireguard_peer_t)
    (r : keypair_ref) (result : err_t) :
    ((afterPeerOutput cfg env peer r result).getKeypair r).sending_counter =
      (peer.getKeypair r).sending_counter := by
  cases r <;> by_cases hr : result = ERR_OK <;>
    simp only [afterPeerOutput, hr, if_true, if_false] <;> split_ifs <;> rfl

/-! ## Rejected sends -/

/-- The second test of payload.c lines 75-76 fails at the reject thresholds. -/
theorem rejected_second_test (cfg : Config) (now : Nat) (k : wireguard_keypair_t)
    (h : cfg.REJECT_AFTER_MESSAGES ≤ k.sending_counter ∨
      cfg.REJECT_AFTER_TIME ≤ keypairAge now k) :
    ¬ ((!wireguardExpired now k.keypair_millis cfg.REJECT_AFTER_TIME) &&
      decide (k.sending_counter < cfg.REJECT_AFTER_MESSAGES)) = true := by
  unfold keypairAge at h
  unfold wireguardExpired
  simp only [Bool.and_eq_true, Bool.not_eq_true', decide_eq_false_iff_not, decide_eq_true_eq,
    not_le, not_and, not_lt]
  intro hlt
  rcases h with h | h
  · exact h
  · omega

/-- C16: for every send attempt in which the selected keypair has
`sending_counter ≥ REJECT_AFTER_MESSAGES` or age `≥ REJECT_AFTER_TIME`, the
boundary included, `wireguardifOutputToPeer` returns `ERR_CONN`, hands no frame
to `wireguardifPeerOutput`, gives the packet back to the pool, leaves the
counter of the selected keypair as it was, destroys no keypair other than the
selected one and that at most once, and leaves `peer.valid`, the allowed-IP
list and the other keypair unchanged; when the keypair passed the first test
(valid, initiator or has received) it is destroyed. -/
theorem reject_thresholds_return_ERR_CONN (cfg : Config) (env : Env) (q : sbuf_t) (idx : Nat)
    (peer : wireguard_peer_t)
    (h : cfg.REJECT_AFTER_MESSAGES ≤ (peer.getKeypair (selectKeypair peer)).sending_counter ∨
      cfg.REJECT_AFTER_TIME ≤ keypairAge env.now (peer.getKeypair (selectKeypair peer))) :
    ∃ peer' evs, wireguardifOutputToPeer cfg env q idx peer = .ok (ERR_CONN, peer', evs) ∧
      handedFrames evs = [] ∧ reusedBuffers evs = [q] ∧
      (peer'.getKeypair (selectKeypair peer)).sending_counter =
        (peer.getKeypair (selectKeypair peer)).sending_counter ∧
      (∀ x ∈ destroyedKeypairs evs, x = selectKeypair peer) ∧
      (destroyedKeypairs evs).length ≤ 1 ∧
      peer'.valid = peer.valid ∧
      peer'.allowed_source_ips = peer.allowed_source_ips ∧
      peer'.getKeypair (selectKeypair peer).other =
        peer.getKeypair (selectKeypair peer).other ∧
      ((peer.getKeypair (selectKeypair peer)).valid = true →
        ((peer.getKeypair (selectKeypair peer)).initiator = true ∨
          (peer.getKeypair (selectKeypair peer)).last_rx ≠ 0) →
        (peer'.getKeypair (selectKeypair peer)).valid = false ∧
          destroyedKeypairs evs = [selectKeypair peer]) := by
  have h2 := rejected_second_test cfg env.now _ h
  unfold wireguardifOutputToPeer
  simp only []
  by_cases h1 : ((peer.getKeypair (selectKeypair peer)).valid &&
      ((peer.getKeypair (selectKeypair peer)).initiator ||
        (peer.getKeypair (selectKeypair peer)).last_rx != 0)) = true
  · rw [if_pos h1, if_neg h2]
    refine ⟨_, _, rfl, rfl, rfl, ?_, ?_, ?_, ?_, ?_, ?_, ?_⟩
    · rw [getKeypair_setKeypair]; rfl
    · intro x hx
      simpa [destroyedKeypairs] using hx
    · simp [destroyedKeypairs]
    · simp
    · simp
    · simp
    · intro _ _
      rw [getKeypair_setKeypair]
      exact ⟨rfl, rfl⟩
  · rw [if_neg h1]
    refine ⟨_, _, rfl, rfl, rfl, rfl, ?_, ?_, rfl, rfl, rfl, ?_⟩
    · intro x hx
      simp [destroyedKeypairs] at hx
    · simp [destroyedKeypairs]
    · intro hv hi
      exfalso
      apply h1
      rw [hv, Bool.true_and, Bool.or_eq_true]
      rcases hi with hi | hi
      · exact Or.inl hi
      · exact Or.inr (by simpa using hi)

theorem reject_thresholds_return_ERR_CONN_witness :
    cfgSample.REJECT_AFTER_TIME =
      keypairAge (envAt 180000 ERR_OK).now
        ((peerSample 0 0).getKeypair (selectKeypair (peerSample 0 0))) ∧
    ∃ peer' evs, wireguardifOutputToPeer cfgSample (envAt 180000 ERR_OK)
        (bufSample packetSample) 0 (peerSample 0 0) = .ok (ERR_CONN, peer', evs) ∧
      handedFrames evs = [] ∧ reusedBuffers evs = [bufSample packetSample] ∧
      (peer'.getKeypair (selectKeypair (peerSample 0 0))).sending_counter = 7 ∧
      (peer'.getKeypair (selectKeypair (peerSample 0 0))).valid = false :=
  ⟨by decide, by
    obtain ⟨peer', evs, h1, h2, h3, h4, -, -, -, -, -, h5⟩ :=
      reject_thresholds_return_ERR_CONN cfgSample (envAt 180000 ERR_OK)
        (bufSample packetSample) 0 (peerSample 0 0) (Or.inr (by decide))
    exact ⟨peer', evs, h1, h2, h3, h4, (h5 (by decide) (by decide)).1⟩⟩

/-! ## Accepted sends -/

/-- Sends with room for the frame: `wireguardifOutputToPeer` returns `ERR_CONN`, hands no frame to
`wireguardifPeerOutput` and gives the packet back whenever the selected
keypair is not valid or is a non-initiator keypair with `last_rx == 0`, and
the peer is as it was; whenever the selected keypair is eligible (valid,
initiator or `last_rx != 0`, age below `REJECT_AFTER_TIME`, counter below
`REJECT_AFTER_MESSAGES`) and the buffer has the room the assertions ask for,
exactly one frame is handed to `wireguardifPeerOutput`, nothing else is
called, and the result of that call is the return value; and with an eligible
keypair every call that returns at all has handed on exactly one frame and
returns the result of that call. -/
theorem ineligible_drops_eligible_sends (cfg : Config) (env : Env) (q : sbuf_t) (idx : Nat)
    (peer : wireguard_peer_t) :
    (((peer.getKeypair (selectKeypair peer)).valid = false ∨
        ((peer.getKeypair (selectKeypair peer)).initiator = false ∧
          (peer.getKeypair (selectKeypair peer)).last_rx = 0)) →
      ∃ evs, wireguardifOutputToPeer cfg env q idx peer = .ok (ERR_CONN, peer, evs) ∧
        handedFrames evs = [] ∧ reusedBuffers evs = [q]) ∧
    (Eligible cfg env.now (peer.getKeypair (selectKeypair peer)) → RoomForFrame cfg q →
      ∃ peer' frame, wireguardifOutputToPeer cfg env q idx peer =
          .ok (env.peerOutputResult, peer', [Ev.wireguardifPeerOutput idx frame])) ∧
    (Eligible cfg env.now (peer.getKeypair (selectKeypair peer)) →
      ∀ res peer' evs, wireguardifOutputToPeer cfg env q idx peer = .ok (res, peer', evs) →
        res = env.peerOutputResult ∧ ∃ frame, evs = [Ev.wireguardifPeerOutput idx frame]) := by
  refine ⟨?_, ?_, ?_⟩
  · intro h
    refine ⟨[Ev.LOGD, Ev.bufferpoolReuseBuffer q], ?_, rfl, rfl⟩
    unfold wireguardifOutputToPeer
    simp only []
    rw [if_neg]
    rcases h with h | ⟨hi, hr⟩
    · simp [h]
    · simp [hi, hr]
  · intro he hroom
    exact ⟨_, _, output_accepted cfg env q idx peer he hroom⟩
  · intro he res peer' evs h
    unfold wireguardifOutputToPeer at h
    simp only [] at h
    rw [if_pos (eligible_first_test cfg env.now _ he),
      if_pos (eligible_second_test cfg env.now _ he)] at h
    split_ifs at h
    all_goals
      split at h
      · exact absurd h (by simp)
      · cases h
        exact ⟨rfl, _, rfl⟩

theorem ineligible_drops_eligible_sends_witness :
    (∃ evs, wireguardifOutputToPeer cfgSample (envSample ERR_OK) (bufSample packetSample) 0
        { peerSample 0 0 with curr_keypair := keypairFresh } =
          .ok (ERR_CONN, { peerSample 0 0 with curr_keypair := keypairFresh }, evs) ∧
        handedFrames evs = [] ∧ reusedBuffers evs = [bufSample packetSample]) ∧
    (∃ peer' frame, wireguardifOutputToPeer cfgSample (envSample ERR_OTHER)
        (bufSample packetSample) 0 (peerSample 0 0) =
          .ok (ERR_OTHER, peer', [Ev.wireguardifPeerOutput 0 frame])) :=
  ⟨(ineligible_drops_eligible_sends cfgSample (envSample ERR_OK) (bufSample packetSample) 0
      { peerSample 0 0 with curr_keypair := keypairFresh }).1 (Or.inl (by decide)),
   (ineligible_drops_eligible_sends cfgSample (envSample ERR_OTHER) (bufSample packetSample) 0
      (peerSample 0 0)).2.1 (by decide) (by decide)⟩

end WireGuardDevice

namespace WireGuardDevice

open ip_addr_type err_t

/-! ## The transport header -/

theorem decodeLittle_U64TO8_LITTLE (v : Nat) (h : v < 2 ^ 64) :
    decodeLittle (U64TO8_LITTLE v) = v := by
  unfold U64TO8_LITTLE
  simp only [decodeLittle]
  omega

theorem decodeLittle_u32le (v : Nat) (h : v < 2 ^ 32) : decodeLittle (u32le v) = v := by
  unfold u32le
  simp only [decodeLittle]
  omega

theorem transportFrame_header (cfg : Config) (env : Env) (q : sbuf_t)
    (k : wireguard_keypair_t) :
    (transportFrame cfg env q k).bytes.take 16 =
      [cfg.MESSAGE_TRANSPORT_DATA % 256, 0, 0, 0] ++ u32le k.remote_index ++
        U64TO8_LITTLE k.sending_counter := rfl

theorem transportFrame_receiver (cfg : Config) (env : Env) (q : sbuf_t)
    (k : wireguard_keypair_t) :
    ((transportFrame cfg env q k).bytes.drop 4).take 4 = u32le k.remote_index := rfl

theorem transportFrame_counter (cfg : Config) (env : Env) (q : sbuf_t)
    (k : wireguard_keypair_t) :
    ((transportFrame cfg env q k).bytes.drop 8).take 8 = U64TO8_LITTLE k.sending_counter := rfl

theorem transportFrame_sealed (cfg : Config) (env : Env) (q : sbuf_t)
    (k : wireguard_keypair_t) :
    (transportFrame cfg env q k).bytes.drop 16 =
      fitLength ((q.bytes.length + 15) / 16 * 16 + 16)
        (env.chacha20poly1305Encrypt k.sending_key k.sending_counter
          (q.bytes ++ q.right.take ((q.bytes.length + 15) / 16 * 16 - q.bytes.length))) := rfl

theorem transportFrame_length (cfg : Config) (env : Env) (q : sbuf_t)
    (k : wireguard_keypair_t) :
    (transportFrame cfg env q k).bytes.length = 16 + (q.bytes.length + 15) / 16 * 16 + 16 := by
  simp only [transportFrame, u32le, U64TO8_LITTLE, List.length_append, fitLength_length,
    List.length_cons, List.length_nil]
  omega

/-- C18: for every accepted send (eligible keypair selected, room in the
buffer) the first 16 bytes of the one frame handed to `wireguardifPeerOutput`
are: byte 0 `MESSAGE_TRANSPORT_DATA`, bytes 1..3 zero, bytes 4..7 the
keypair's `remote_index` and bytes 8..15 its `sending_counter` as it was
before the call, both least significant byte first; decoding bytes 8..15
returns that counter when it is a 64-bit value, as `decodeLittle` inverts
`U64TO8_LITTLE` on every 64-bit value, and the keypair's counter afterwards is
one more. -/
theorem transport_header_layout (cfg : Config) (env : Env) (q : sbuf_t) (idx : Nat)
    (peer : wireguard_peer_t)
    (he : Eligible cfg env.now (peer.getKeypair (selectKeypair peer)))
    (hroom : RoomForFrame cfg q) :
    (∃ peer' frame, wireguardifOutputToPeer cfg env q idx peer =
        .ok (env.peerOutputResult, peer', [Ev.wireguardifPeerOutput idx frame]) ∧
      frame.bytes.take 16 =
        [cfg.MESSAGE_TRANSPORT_DATA % 256, 0, 0, 0] ++
          [(peer.getKeypair (selectKeypair peer)).remote_index % 256,
           (peer.getKeypair (selectKeypair peer)).remote_index / 2 ^ 8 % 256,
           (peer.getKeypair (selectKeypair peer)).remote_index / 2 ^ 16 % 256,
           (peer.getKeypair (selectKeypair peer)).remote_index / 2 ^ 24 % 256] ++
          U64TO8_LITTLE (peer.getKeypair (selectKeypair peer)).sending_counter ∧
      (cfg.MESSAGE_TRANSPORT_DATA < 256 → frame.bytes.get? 0 = some cfg.MESSAGE_TRANSPORT_DATA) ∧
      ((peer.getKeypair (selectKeypair peer)).remote_index < 2 ^ 32 →
        decodeLittle ((frame.bytes.drop 4).take 4) =
          (peer.getKeypair (selectKeypair peer)).remote_index) ∧
      ((peer.getKeypair (selectKeypair peer)).sending_counter < 2 ^ 64 →
        decodeLittle ((frame.bytes.drop 8).take 8) =
          (peer.getKeypair (selectKeypair peer)).sending_counter) ∧
      (peer'.getKeypair (selectKeypair peer)).sending_counter =
        ((peer.getKeypair (selectKeypair peer)).sending_counter + 1) % 2 ^ 64) ∧
    ∀ v, v < 2 ^ 64 → decodeLittle (U64TO8_LITTLE v) = v := by
  refine ⟨⟨_, _, output_accepted cfg env q idx peer he hroom, rfl, ?_, ?_, ?_, ?_⟩,
    decodeLittle_U64TO8_LITTLE⟩
  · intro h
    show some (cfg.MESSAGE_TRANSPORT_DATA % 256) = some cfg.MESSAGE_TRANSPORT_DATA
    rw [Nat.mod_eq_of_lt h]
  · intro h
    rw [transportFrame_receiver, decodeLittle_u32le _ h]
  · intro h
    rw [transportFrame_counter, decodeLittle_U64TO8_LITTLE _ h]
  · rw [afterPeerOutput_counter, getKeypair_setKeypair]

theorem transport_header_layout_witness :
    ∃ peer' frame, wireguardifOutputToPeer cfgSample (envSample ERR_OK)
        (bufSample packetSample) 0 (peerSample 0 0) =
        .ok (ERR_OK, peer', [Ev.wireguardifPeerOutput 0 frame]) ∧
      frame.bytes.take 16 = [4, 0, 0, 0, 0x44, 0x33, 0x22, 0x11, 7, 0, 0, 0, 0, 0, 0, 0] ∧
      decodeLittle ((frame.bytes.drop 8).take 8) = 7 := by
  obtain ⟨⟨peer', frame, h1, h2, -, -, h3, -⟩, -⟩ :=
    transport_header_layout cfgSample (envSample ERR_OK) (bufSample packetSample) 0
      (peerSample 0 0) (by decide) (by decide)
  exact ⟨peer', frame, h1, h2, h3 (by decide)⟩

end WireGuardDevice

namespace WireGuardDevice

open ip_addr_type err_t

/-! ## The padded length and the first assertion -/

theorem packetFull_length : (bufSample packetFull).bytes.length = 1500 := by
  show (_ ++ List.replicate 1480 0).length = 1500
  rw [List.length_append, List.length_replicate]
  rfl

/-- The assertion of payload.c line 91 fails for an eligible keypair and a
packet of 1489 to 1500 bytes. -/
theorem assertion_fails (cfg : Config) (env : Env) (q : sbuf_t) (idx : Nat)
    (peer : wireguard_peer_t)
    (he : Eligible cfg env.now (peer.getKeypair (selectKeypair peer)))
    (hlo : 1489 ≤ q.bytes.length) (hhi : q.bytes.length ≤ 1500) :
    wireguardifOutputToPeer cfg env q idx peer = .error .assertFailed := by
  have hlen : (if sbufGetLength q > 0 then sbufGetLength q else 0) = q.bytes.length := by
    unfold sbufGetLength
    split_ifs with h
    · rfl
    · omega
  have hpad : paddedLen q.bytes.length = (q.bytes.length + 15) / 16 * 16 :=
    paddedLen_eq _ (by omega)
  unfold wireguardifOutputToPeer
  simp only []
  rw [if_pos (eligible_first_test cfg env.now _ he),
    if_pos (eligible_second_test cfg env.now _ he), hlen, hpad]
  have hmod : ((q.bytes.length + 15) / 16 * 16 + WIREGUARD_AUTHTAG_LEN) % 2 ^ 32 =
      (q.bytes.length + 15) / 16 * 16 + 16 := by
    unfold WIREGUARD_AUTHTAG_LEN
    exact Nat.mod_eq_of_lt (by omega)
  rw [hmod, if_pos (by omega)]

/-- C19: a packet of 1500 bytes on an eligible keypair. The padded length
`(1500 + 15) & 0xFFFFFFF0` is 1504, the least multiple of 16 that is at least
1500, so `padded_len + 16` is 1520: the assertion
`padded_len + WIREGUARD_AUTHTAG_LEN <= 1516` of payload.c line 91 does not
hold, and `wireguardifOutputToPeer` stops there without a frame, although the
buffer has room for the frame. -/
theorem full_size_packet_fails_assertion :
    (bufSample packetFull).bytes.length = 1500 ∧
    paddedLen 1500 = 1504 ∧
    ¬ (paddedLen 1500 + WIREGUARD_AUTHTAG_LEN ≤ 1516) ∧
    Eligible cfgSample (envSample ERR_OK).now
      ((peerSample 0 0).getKeypair (selectKeypair (peerSample 0 0))) ∧
    paddedLen 1500 + WIREGUARD_AUTHTAG_LEN ≤
      (bufSample packetFull).bytes.length + (bufSample packetFull).right.length ∧
    wireguardifOutputToPeer cfgSample (envSample ERR_OK) (bufSample packetFull) 0
      (peerSample 0 0) = .error .assertFailed :=
  ⟨packetFull_length, by decide, by decide, by decide,
   by rw [packetFull_length]; decide,
   assertion_fails cfgSample (envSample ERR_OK) (bufSample packetFull) 0
     (peerSample 0 0) (by decide)
     (by rw [packetFull_length]; decide) (by rw [packetFull_length])⟩

/-- Packets that pass the assertions: for every packet of length `n ≤ 1488` sent on an eligible
keypair from a buffer with room, `padded_len = (n + 15) & 0xFFFFFFF0` in
32-bit arithmetic is the least multiple of 16 that is at least `n`, the
assertion `padded_len + 16 <= 1516` holds, and the one frame handed to
`wireguardifPeerOutput` has length `16 + padded_len + 16`, which is 32 for
`n = 0`; among the lengths up to 1500 the assertion holds exactly for
`n ≤ 1488`. -/
theorem padded_length_and_frame_size (cfg : Config) (env : Env) (q : sbuf_t) (idx : Nat)
    (peer : wireguard_peer_t)
    (he : Eligible cfg env.now (peer.getKeypair (selectKeypair peer)))
    (hroom : RoomForFrame cfg q) :
    (16 ∣ paddedLen q.bytes.length ∧ q.bytes.length ≤ paddedLen q.bytes.length ∧
      ∀ m, 16 ∣ m → q.bytes.length ≤ m → paddedLen q.bytes.length ≤ m) ∧
    paddedLen q.bytes.length + WIREGUARD_AUTHTAG_LEN ≤ 1516 ∧
    (∃ peer' frame, wireguardifOutputToPeer cfg env q idx peer =
        .ok (env.peerOutputResult, peer', [Ev.wireguardifPeerOutput idx frame]) ∧
      frame.bytes.length = 16 + paddedLen q.bytes.length + 16 ∧
      (q.bytes.length = 0 → frame.bytes.length = 32)) ∧
    ∀ n, n ≤ 1500 → (paddedLen n + WIREGUARD_AUTHTAG_LEN ≤ 1516 ↔ n ≤ 1488) := by
  have hn : q.bytes.length ≤ 1488 := hroom.1
  have hpad : paddedLen q.bytes.length = (q.bytes.length + 15) / 16 * 16 :=
    paddedLen_eq _ (by omega)
  refine ⟨⟨?_, ?_, ?_⟩, ?_, ⟨_, _, output_accepted cfg env q idx peer he hroom, ?_, ?_⟩, ?_⟩
  · rw [hpad]; exact Dvd.intro_left _ rfl
  · rw [hpad]; omega
  · intro m hm hle
    rw [hpad]
    obtain ⟨c, rfl⟩ := hm
    omega
  · rw [hpad]; unfold WIREGUARD_AUTHTAG_LEN; omega
  · rw [transportFrame_length, hpad]
  · intro h0
    rw [transportFrame_length, h0]
  · intro n hn'
    rw [paddedLen_eq n (by omega)]
    unfold WIREGUARD_AUTHTAG_LEN
    omega

theorem padded_length_and_frame_size_witness :
    RoomForFrame cfgSample (bufSample []) ∧
    paddedLen (bufSample []).bytes.length + WIREGUARD_AUTHTAG_LEN ≤ 1516 ∧
    ∃ peer' frame, wireguardifOutputToPeer cfgSample (envSample ERR_OK) (bufSample []) 0
        (peerSample 0 0) = .ok (ERR_OK, peer', [Ev.wireguardifPeerOutput 0 frame]) ∧
      frame.bytes.length = 32 := by
  obtain ⟨-, h1, ⟨peer', frame, h2, -, h3⟩, -⟩ :=
    padded_length_and_frame_size cfgSample (envSample ERR_OK) (bufSample []) 0
      (peerSample 0 0) (by decide) (by decide)
  exact ⟨by decide, h1, peer', frame, h2, h3 rfl⟩

/-! ## Round trip -/

theorem toySeal_length (key : List Nat) (counter : Nat) (plain : List Nat) :
    (toySeal key counter plain).length = plain.length + 16 := by
  simp [toySeal]

theorem toyOpen_toySeal (key : List Nat) (counter : Nat) (plain : List Nat) :
    toyOpen key counter (toySeal key counter plain) = some plain := by
  have hl : (List.map (fun b => b ^^^ 1) plain ++ List.replicate 16 (counter % 256)).length - 16
      = (List.map (fun b => b ^^^ 1) plain).length := by
    simp
  have hx : ∀ b : Nat, (b ^^^ 1) ^^^ 1 = b := by
    intro b
    rw [Nat.xor_assoc, Nat.xor_self, Nat.xor_zero]
  unfold toyOpen toySeal
  rw [hl, List.drop_left, List.take_left, if_pos ⟨rfl, by simp⟩, List.map_map]
  congr 1
  conv_rhs => rw [← List.map_id plain]
  apply List.map_congr_left
  intro b _
  exact hx b

/-- Round trip for packets that pass the assertions. Let the cipher add a 16-byte tag and let
`chacha20poly1305Decrypt` open what it sealed under the same key and counter.
For every packet with room for its frame (at most 1488 bytes) and every
eligible keypair with a 32-bit `remote_index` and a 64-bit counter, the frame
that `wireguardifOutputToPeer` hands on carries `remote_index` in bytes 4..7
and the counter from before the call in bytes 8..15, and opening the bytes
after the header with the sending key and the counter read from the header
succeeds with a plaintext of length `round_up(len, 16)` whose first `len` bytes
are the packet. -/
theorem frame_round_trip (cfg : Config) (env : Env) (q : sbuf_t) (idx : Nat)
    (peer : wireguard_peer_t)
    (chacha20poly1305Decrypt : List Nat → Nat → List Nat → Option (List Nat))
    (hopen : ∀ key counter plain,
      chacha20poly1305Decrypt key counter (env.chacha20poly1305Encrypt key counter plain) =
        some plain)
    (htag : ∀ key counter plain,
      (env.chacha20poly1305Encrypt key counter plain).length = plain.length + 16)
    (he : Eligible cfg env.now (peer.getKeypair (selectKeypair peer)))
    (hroom : RoomForFrame cfg q)
    (hri : (peer.getKeypair (selectKeypair peer)).remote_index < 2 ^ 32)
    (hsc : (peer.getKeypair (selectKeypair peer)).sending_counter < 2 ^ 64) :
    ∃ peer' frame plain, wireguardifOutputToPeer cfg env q idx peer =
        .ok (env.peerOutputResult, peer', [Ev.wireguardifPeerOutput idx frame]) ∧
      decodeLittle ((frame.bytes.drop 4).take 4) =
        (peer.getKeypair (selectKeypair peer)).remote_index ∧
      decodeLittle ((frame.bytes.drop 8).take 8) =
        (peer.getKeypair (selectKeypair peer)).sending_counter ∧
      chacha20poly1305Decrypt (peer.getKeypair (selectKeypair peer)).sending_key
        (decodeLittle ((frame.bytes.drop 8).take 8)) (frame.bytes.drop 16) = some plain ∧
      plain.length = (q.bytes.length + 15) / 16 * 16 ∧
      plain.take q.bytes.length = q.bytes := by
  obtain ⟨hn, hs, hl, hr⟩ := hroom
  have hcount := transportFrame_counter cfg env q (peer.getKeypair (selectKeypair peer))
  have hplen : (q.bytes ++ q.right.take ((q.bytes.length + 15) / 16 * 16 - q.bytes.length)).length
      = (q.bytes.length + 15) / 16 * 16 := by
    rw [List.length_append, List.length_take]
    omega
  refine ⟨_, _, q.bytes ++ q.right.take ((q.bytes.length + 15) / 16 * 16 - q.bytes.length),
    output_accepted cfg env q idx peer he ⟨hn, hs, hl, hr⟩, ?_, ?_, ?_, hplen, ?_⟩
  · rw [transportFrame_receiver, decodeLittle_u32le _ hri]
  · rw [hcount, decodeLittle_U64TO8_LITTLE _ hsc]
  · rw [hcount, decodeLittle_U64TO8_LITTLE _ hsc, transportFrame_sealed,
      fitLength_of_length _ _ (by rw [htag, hplen]), hopen]
  · rw [List.take_left]

theorem frame_round_trip_witness :
    ∃ peer' frame plain, wireguardifOutputToPeer cfgSample (envSample ERR_OK)
        (bufSample packetSample) 0 (peerSample 0 0) =
        .ok (ERR_OK, peer', [Ev.wireguardifPeerOutput 0 frame]) ∧
      frame.bytes.length = 64 ∧
      toyOpen [] 7 (frame.bytes.drop 16) = some plain ∧
      plain.length = 32 ∧ plain.take 20 = packetSample := by
  obtain ⟨peer', frame, plain, h1, -, h2, h3, h4, h5⟩ :=
    frame_round_trip cfgSample (envSample ERR_OK) (bufSample packetSample) 0 (peerSample 0 0)
      toyOpen toyOpen_toySeal toySeal_length (by decide) (by decide) (by decide) (by decide)
  have hf : frame = transportFrame cfgSample (envSample ERR_OK) (bufSample packetSample)
      ((peerSample 0 0).getKeypair (selectKeypair (peerSample 0 0))) := by
    have h := output_accepted cfgSample (envSample ERR_OK) (bufSample packetSample) 0
      (peerSample 0 0) (by decide) (by decide)
    rw [h1] at h
    injection h with h
    injection h with _ h
    injection h with _ h
    injection h with h _
    injection h with _ h
  rw [h2] at h3
  exact ⟨peer', frame, plain, h1, by rw [hf, transportFrame_length]; rfl, h3, h4, h5⟩

/-- C20: a 1500-byte IPv4 packet to 10.1.2.3 arrives at the upstream handler
of a device whose peer 0 allows 10.0.0.0/8 and has an eligible keypair; the
buffer has 32 bytes of room on either side. The handler selects peer 0 and
`wireguardifOutputToPeer` stops at the assertion of payload.c line 91
(`padded_len + 16` is 1520), so no frame is produced and there is nothing to
decrypt. -/
theorem full_size_packet_has_no_round_trip :
    (bufSample packetFull).bytes.length = 1500 ∧
    packetDest (bufSample packetFull).bytes = some ⟨IPADDR_TYPE_V4, 0x0A010203⟩ ∧
    peerLookupByAllowedIp deviceSample ⟨IPADDR_TYPE_V4, 0x0A010203⟩ = some 0 ∧
    Eligible cfgSample (envSample ERR_OK).now
      ((peerSample 0x0A000000 0xFF000000).getKeypair
        (selectKeypair (peerSample 0x0A000000 0xFF000000))) ∧
    wireguarddeviceTunnelUpStreamPayload cfgSample (envSample ERR_OK) deviceSample
      (bufSample packetFull) = .error .assertFailed := by
  have hlen := packetFull_length
  have hd : packetDest (bufSample packetFull).bytes = some ⟨IPADDR_TYPE_V4, 0x0A010203⟩ := by
    decide
  have hv : IP_HDR_GET_VERSION (bufSample packetFull).bytes = 6 →
      40 ≤ (bufSample packetFull).bytes.length := by
    intro _; rw [hlen]; decide
  refine ⟨hlen, hd, by decide, by decide, ?_⟩
  unfold wireguarddeviceTunnelUpStreamPayload
  rw [if_neg (by simp only [sbufGetLength, sizeof_ip4_hdr_t, hlen]; decide),
    routePacket_eq deviceSample _ _ (by rw [hlen]; decide) hv hd]
  have hl : peerLookupByAllowedIp deviceSample ⟨IPADDR_TYPE_V4, 0x0A010203⟩ = some 0 := by
    decide
  have hp : deviceSample.peers.get? 0 = some (peerSample 0x0A000000 0xFF000000) := rfl
  simp only [hl, hp]
  rw [assertion_fails cfgSample (envSample ERR_OK) (bufSample packetFull) 0
    (peerSample 0x0A000000 0xFF000000) (by decide) (by rw [hlen]; decide) (by rw [hlen])]

end WireGuardDevice

namespace WireGuardDevice

open ip_addr_type err_t

/-! ## The two tests and the selected keypair -/

theorem eligible_iff_tests (cfg : Config) (now : Nat) (k : wireguard_keypair_t) :
    Eligible cfg now k ↔
      (k.valid && (k.initiator || k.last_rx != 0)) = true ∧
      ((!wireguardExpired now k.keypair_millis cfg.REJECT_AFTER_TIME) &&
        decide (k.sending_counter < cfg.REJECT_AFTER_MESSAGES)) = true := by
  constructor
  · intro he
    exact ⟨eligible_first_test cfg now k he, eligible_second_test cfg now k he⟩
  · rintro ⟨h1, h2⟩
    unfold wireguardExpired at h2
    simp only [Bool.and_eq_true, Bool.not_eq_true', decide_eq_false_iff_not, decide_eq_true_eq,
      not_le, Bool.or_eq_true, bne_iff_ne, ne_eq] at h1 h2
    exact ⟨h1.1, h1.2, h2.1, h2.2⟩

/-- A send on a keypair that is not eligible: `ERR_CONN`, the packet goes back
to the pool, and the keypair is destroyed when it passed the first test. -/
theorem output_rejected (cfg : Config) (env : Env) (q : sbuf_t) (idx : Nat)
    (peer : wireguard_peer_t)
    (hne : ¬ Eligible cfg env.now (peer.getKeypair (selectKeypair peer))) :
    wireguardifOutputToPeer cfg env q idx peer =
        .ok (ERR_CONN, peer, [Ev.LOGD, Ev.bufferpoolReuseBuffer q]) ∨
    wireguardifOutputToPeer cfg env q idx peer =
        .ok (ERR_CONN,
          peer.setKeypair (selectKeypair peer)
            (keypairDestroy (peer.getKeypair (selectKeypair peer))),
          [Ev.LOGD, Ev.keypairDestroy idx (selectKeypair peer), Ev.bufferpoolReuseBuffer q]) := by
  unfold wireguardifOutputToPeer
  simp only []
  by_cases h1 : ((peer.getKeypair (selectKeypair peer)).valid &&
      ((peer.getKeypair (selectKeypair peer)).initiator ||
        (peer.getKeypair (selectKeypair peer)).last_rx != 0)) = true
  · have h2 : ¬ ((!wireguardExpired env.now (peer.getKeypair (selectKeypair peer)).keypair_millis
          cfg.REJECT_AFTER_TIME) &&
        decide ((peer.getKeypair (selectKeypair peer)).sending_counter <
          cfg.REJECT_AFTER_MESSAGES)) = true :=
      fun h2 => hne ((eligible_iff_tests cfg env.now _).2 ⟨h1, h2⟩)
    rw [if_pos h1, if_neg h2]
    exact Or.inr rfl
  · rw [if_neg h1]
    exact Or.inl rfl

/-- Writing the selected keypair back with the same `initiator` and `last_rx`,
and `valid` the same or cleared, does not change which keypair is selected. -/
theorem selectKeypair_setKeypair (peer : wireguard_peer_t) (k : wireguard_keypair_t)
    (hi : k.initiator = (peer.getKeypair (selectKeypair peer)).initiator)
    (hr : k.last_rx = (peer.getKeypair (selectKeypair peer)).last_rx)
    (hv : k.valid = (peer.getKeypair (selectKeypair peer)).valid ∨ k.valid = false) :
    selectKeypair (peer.setKeypair (selectKeypair peer) k) = selectKeypair peer := by
  by_cases hc : (peer.curr_keypair.valid && (!peer.curr_keypair.initiator) &&
      (peer.curr_keypair.last_rx == 0)) = true
  · have hs : selectKeypair peer = .prev_keypair := by
      unfold selectKeypair; rw [if_pos hc]
    rw [hs]
    unfold selectKeypair wireguard_peer_t.setKeypair
    simp only [hc, if_true]
  · have hs : selectKeypair peer = .curr_keypair := by
      unfold selectKeypair; rw [if_neg hc]
    rw [hs] at hi hr hv ⊢
    unfold selectKeypair wireguard_peer_t.setKeypair
    simp only [wireguard_peer_t.getKeypair] at hi hr hv
    simp only [hi, hr]
    rcases hv with hv | hv
    · rw [hv, if_neg hc]
    · rw [hv]; rfl

/-- The keypair named by `r` after payload.c lines 133-148: only `last_tx` may
have changed. -/
theorem afterPeerOutput_getKeypair (cfg : Config) (env : Env) (peer : wireguard_peer_t)
    (r : keypair_ref) (result : err_t) :
    (afterPeerOutput cfg env peer r result).getKeypair r =
      if result = ERR_OK then { peer.getKeypair r with last_tx := env.now }
      else peer.getKeypair r := by
  cases r <;> by_cases hr : result = ERR_OK <;>
    simp only [afterPeerOutput, hr, if_true, if_false] <;> split_ifs <;> rfl

theorem afterPeerOutput_other (cfg : Config) (env : Env) (peer : wireguard_peer_t)
    (r : keypair_ref) (result : err_t) :
    (afterPeerOutput cfg env peer r result).getKeypair r.other = peer.getKeypair r.other := by
  cases r <;> by_cases hr : result = ERR_OK <;>
    simp only [afterPeerOutput, hr, if_true, if_false] <;> split_ifs <;> rfl

theorem afterPeerOutput_valid (cfg : Config) (env : Env) (peer : wireguard_peer_t)
    (r : keypair_ref) (result : err_t) :
    (afterPeerOutput cfg env peer r result).valid = peer.valid := by
  cases r <;> by_cases hr : result = ERR_OK <;>
    simp only [afterPeerOutput, hr, if_true, if_false] <;> split_ifs <;> rfl

theorem afterPeerOutput_allowed (cfg : Config) (env : Env) (peer : wireguard_peer_t)
    (r : keypair_ref) (result : err_t) :
    (afterPeerOutput cfg env peer r result).allowed_source_ips = peer.allowed_source_ips := by
  cases r <;> by_cases hr : result = ERR_OK <;>
    simp only [afterPeerOutput, hr, if_true, if_false] <;> split_ifs <;> rfl

/-- The rekey flag after payload.c lines 141-148. -/
theorem afterPeerOutput_send_handshake (cfg : Config) (env : Env) (peer : wireguard_peer_t)
    (r : keypair_ref) (result : err_t) :
    (afterPeerOutput cfg env peer r result).send_handshake =
      if cfg.REKEY_AFTER_MESSAGES ≤ (peer.getKeypair r).sending_counter ∨
          ((peer.getKeypair r).initiator = true ∧
            cfg.REKEY_AFTER_TIME ≤ keypairAge env.now (peer.getKeypair r)) then true
      else peer.send_handshake := by
  have key : ∀ p : wireguard_peer_t,
      (if (p.getKeypair r).sending_counter ≥ cfg.REKEY_AFTER_MESSAGES then
          { p with send_handshake := true }
        else if ((p.getKeypair r).initiator &&
            wireguardExpired env.now (p.getKeypair r).keypair_millis cfg.REKEY_AFTER_TIME) = true
          then { p with send_handshake := true }
        else p).send_handshake =
      if cfg.REKEY_AFTER_MESSAGES ≤ (p.getKeypair r).sending_counter ∨
          ((p.getKeypair r).initiator = true ∧
            cfg.REKEY_AFTER_TIME ≤ keypairAge env.now (p.getKeypair r)) then true
      else p.send_handshake := by
    intro p
    unfold wireguardExpired keypairAge
    simp only [ge_iff_le, Bool.and_eq_true, decide_eq_true_eq]
    by_cases h1 : cfg.REKEY_AFTER_MESSAGES ≤ (p.getKeypair r).sending_counter
    · rw [if_pos h1, if_pos (Or.inl h1)]
    · by_cases h2 : (p.getKeypair r).initiator = true ∧ cfg.REKEY_AFTER_TIME ≤
          (env.now % 2 ^ 32 + 2 ^ 32 - (p.getKeypair r).keypair_millis % 2 ^ 32) % 2 ^ 32
      · rw [if_neg h1, if_pos h2, if_pos (Or.inr h2)]
      · rw [if_neg h1, if_neg h2, if_neg (fun h => h.elim h1 h2)]
  by_cases hr : result = ERR_OK
  · cases r <;> simp only [afterPeerOutput, hr, if_true] <;> exact key _
  · cases r <;> simp only [afterPeerOutput, hr, if_false] <;> exact key _

/-- The selected keypair is the same after payload.c lines 133-148. -/
theorem selectKeypair_afterPeerOutput (cfg : Config) (env : Env) (peer : wireguard_peer_t)
    (r : keypair_ref) (result : err_t) :
    selectKeypair (afterPeerOutput cfg env peer r result) = selectKeypair peer := by
  cases r <;> by_cases hr : result = ERR_OK <;>
    simp only [afterPeerOutput, hr, if_true, if_false] <;> split_ifs <;> rfl

end WireGuardDevice

namespace WireGuardDevice

open ip_addr_type err_t

/-! ## The counter over successive sends -/

/-- One accepted send: the frame carries the counter of before the call, the
counter afterwards is one more, and the same keypair stays selected. -/
theorem accepted_step (cfg : Config) (env : Env) (q : sbuf_t) (idx : Nat)
    (peer : wireguard_peer_t)
    (he : Eligible cfg env.now (peer.getKeypair (selectKeypair peer)))
    (hroom : RoomForFrame cfg q) (hmax : cfg.REJECT_AFTER_MESSAGES < 2 ^ 64) :
    ∃ peer' frame, wireguardifOutputToPeer cfg env q idx peer =
        .ok (env.peerOutputResult, peer', [Ev.wireguardifPeerOutput idx frame]) ∧
      frameCounter frame = (peer.getKeypair (selectKeypair peer)).sending_counter ∧
      (peer'.getKeypair (selectKeypair peer)).sending_counter =
        (peer.getKeypair (selectKeypair peer)).sending_counter + 1 ∧
      selectKeypair peer' = selectKeypair peer := by
  have hc : (peer.getKeypair (selectKeypair peer)).sending_counter <
      cfg.REJECT_AFTER_MESSAGES := he.2.2.2
  refine ⟨_, _, output_accepted cfg env q idx peer he hroom, ?_, ?_, ?_⟩
  · unfold frameCounter
    rw [transportFrame_counter, decodeLittle_U64TO8_LITTLE _ (by omega)]
  · rw [afterPeerOutput_counter, getKeypair_setKeypair]
    exact Nat.mod_eq_of_lt (by omega)
  · rw [selectKeypair_afterPeerOutput]
    exact selectKeypair_setKeypair peer _ rfl rfl (Or.inl rfl)

/-- One rejected send: no frame, the counter and the selected keypair are as
they were. -/
theorem rejected_step (cfg : Config) (env : Env) (q : sbuf_t) (idx : Nat)
    (peer : wireguard_peer_t)
    (hne : ¬ Eligible cfg env.now (peer.getKeypair (selectKeypair peer))) :
    ∃ peer' evs, wireguardifOutputToPeer cfg env q idx peer = .ok (ERR_CONN, peer', evs) ∧
      handedFrames evs = [] ∧ reusedBuffers evs = [q] ∧
      (peer'.getKeypair (selectKeypair peer)).sending_counter =
        (peer.getKeypair (selectKeypair peer)).sending_counter ∧
      selectKeypair peer' = selectKeypair peer ∧
      peer'.send_handshake = peer.send_handshake := by
  rcases output_rejected cfg env q idx peer hne with h | h
  · exact ⟨_, _, h, rfl, rfl, rfl, rfl, rfl⟩
  · refine ⟨_, _, h, rfl, rfl, ?_, ?_, ?_⟩
    · rw [getKeypair_setKeypair]; rfl
    · exact selectKeypair_setKeypair peer _ rfl rfl (Or.inr rfl)
    · cases selectKeypair peer <;> rfl

/-- Sends one after the other from buffers with room: the run returns, the
counters carried by the frames handed on are consecutive from the counter at
the start, and the counter at the end is the counter at the start plus the
number of frames. -/
theorem sendRun_counters (cfg : Config) (idx : Nat) (hmax : cfg.REJECT_AFTER_MESSAGES < 2 ^ 64)
    (calls : List (Env × sbuf_t)) :
    ∀ peer : wireguard_peer_t, (∀ c ∈ calls, RoomForFrame cfg c.2) →
    ∃ peer' evs, sendRun cfg idx peer calls = .ok (peer', evs) ∧
      selectKeypair peer' = selectKeypair peer ∧
      (handedFrames evs).map (fun x => frameCounter x.2) =
        List.range' (peer.getKeypair (selectKeypair peer)).sending_counter
          (handedFrames evs).length ∧
      (peer'.getKeypair (selectKeypair peer)).sending_counter =
        (peer.getKeypair (selectKeypair peer)).sending_counter + (handedFrames evs).length := by
  induction calls with
  | nil =>
    intro peer _
    exact ⟨peer, [], rfl, rfl, rfl, rfl⟩
  | cons c rest ih =>
    intro peer hroom
    obtain ⟨env, q⟩ := c
    have hq : RoomForFrame cfg q := hroom (env, q) (List.mem_cons_self _ _)
    have hrest : ∀ c ∈ rest, RoomForFrame cfg c.2 :=
      fun c hc => hroom c (List.mem_cons_of_mem _ hc)
    by_cases he : Eligible cfg env.now (peer.getKeypair (selectKeypair peer))
    · obtain ⟨peer1, frame, h1, hf, hc1, hs1⟩ := accepted_step cfg env q idx peer he hq hmax
      obtain ⟨peer2, evs2, h2, hs2, hm2, hc2⟩ := ih peer1 hrest
      rw [hs1] at hs2 hm2 hc2
      rw [hc1] at hm2 hc2
      have hh : handedFrames (Ev.wireguardifPeerOutput idx frame :: evs2) =
          (idx, frame) :: handedFrames evs2 := rfl
      refine ⟨peer2, Ev.wireguardifPeerOutput idx frame :: evs2, ?_, hs2, ?_, ?_⟩
      · simp only [sendRun, h1, h2]
        rfl
      · rw [hh, List.map_cons, List.length_cons, List.range'_succ, hf, hm2]
      · rw [hh, List.length_cons, hc2]
        omega
    · obtain ⟨peer1, evs1, h1, hh1, -, hc1, hs1, -⟩ := rejected_step cfg env q idx peer he
      obtain ⟨peer2, evs2, h2, hs2, hm2, hc2⟩ := ih peer1 hrest
      rw [hs1] at hs2 hm2 hc2
      rw [hc1] at hm2 hc2
      refine ⟨peer2, evs1 ++ evs2, ?_, hs2, ?_, ?_⟩
      · simp only [sendRun, h1, h2]
      · rw [handedFrames_append, hh1, List.nil_append]
        exact hm2
      · rw [handedFrames_append, hh1, List.nil_append]
        exact hc2

/-- C21: with `REJECT_AFTER_MESSAGES` a 64-bit value, every accepted send
(eligible keypair, room in the buffer) leaves the counter of the used keypair
exactly one greater than before and its frame carries the counter of before;
and for sends one after the other on one peer, from buffers with room, the
counters carried by the frames handed on are consecutive from the counter at
the start, so they are strictly increasing and no value is carried by two
frames, and the counter at the end is the counter at the start plus the
number of frames. -/
theorem counter_advances_by_one (cfg : Config) (idx : Nat) (peer : wireguard_peer_t)
    (calls : List (Env × sbuf_t))
    (hmax : cfg.REJECT_AFTER_MESSAGES < 2 ^ 64)
    (hroom : ∀ c ∈ calls, RoomForFrame cfg c.2) :
    (∀ c ∈ calls, Eligible cfg c.1.now (peer.getKeypair (selectKeypair peer)) →
      ∃ peer' frame, wireguardifOutputToPeer cfg c.1 c.2 idx peer =
          .ok (c.1.peerOutputResult, peer', [Ev.wireguardifPeerOutput idx frame]) ∧
        frameCounter frame = (peer.getKeypair (selectKeypair peer)).sending_counter ∧
        (peer'.getKeypair (selectKeypair peer)).sending_counter =
          (peer.getKeypair (selectKeypair peer)).sending_counter + 1) ∧
    ∃ peer' evs, sendRun cfg idx peer calls = .ok (peer', evs) ∧
      (handedFrames evs).map (fun x => frameCounter x.2) =
        List.range' (peer.getKeypair (selectKeypair peer)).sending_counter
          (handedFrames evs).length ∧
      ((handedFrames evs).map (fun x => frameCounter x.2)).Pairwise (fun a b => a < b) ∧
      ((handedFrames evs).map (fun x => frameCounter x.2)).Nodup ∧
      (peer'.getKeypair (selectKeypair peer)).sending_counter =
        (peer.getKeypair (selectKeypair peer)).sending_counter + (handedFrames evs).length := by
  constructor
  · intro c hc he
    obtain ⟨peer', frame, h1, h2, h3, -⟩ :=
      accepted_step cfg c.1 c.2 idx peer he (hroom c hc) hmax
    exact ⟨peer', frame, h1, h2, h3⟩
  · obtain ⟨peer', evs, h1, -, h2, h3⟩ := sendRun_counters cfg idx hmax calls peer hroom
    refine ⟨peer', evs, h1, h2, ?_, ?_, h3⟩
    · rw [h2]; exact List.pairwise_lt_range' _ _
    · rw [h2]; exact List.nodup_range' _ _

theorem counter_advances_by_one_witness :
    ∃ peer' evs, sendRun cfgSample 0 (peerSample 0 0)
        [(envSample ERR_OK, bufSample packetSample), (envSample ERR_OTHER, bufSample []),
         (envSample ERR_OK, bufSample packetSample)] = .ok (peer', evs) ∧
      (handedFrames evs).map (fun x => frameCounter x.2) = [7, 8, 9] ∧
      (peer'.getKeypair (selectKeypair (peerSample 0 0))).sending_counter = 10 := by
  obtain ⟨peer', evs, h1, h2, -, -, h3⟩ :=
    (counter_advances_by_one cfgSample 0 (peerSample 0 0)
      [(envSample ERR_OK, bufSample packetSample), (envSample ERR_OTHER, bufSample []),
       (envSample ERR_OK, bufSample packetSample)] (by decide) (by decide)).2
  have hlen : (handedFrames evs).length = 3 := by
    have h : (sendRun cfgSample 0 (peerSample 0 0)
        [(envSample ERR_OK, bufSample packetSample), (envSample ERR_OTHER, bufSample []),
         (envSample ERR_OK, bufSample packetSample)]).toOption.map
        (fun r => (handedFrames r.2).length) = some 3 := by decide
    rw [h1] at h
    exact Option.some.inj h
  rw [hlen] at h2 h3
  exact ⟨peer', evs, h1, h2, h3⟩

end WireGuardDevice

namespace WireGuardDevice

open ip_addr_type err_t

/-! ## The rekey flag -/

@[simp] theorem setKeypair_send_handshake (peer : wireguard_peer_t) (r : keypair_ref)
    (k : wireguard_keypair_t) : (peer.setKeypair r k).send_handshake = peer.send_handshake := by
  cases r <;> rfl

/-- C22: after every accepted send (eligible keypair, room in the buffer)
`peer.send_handshake` is true if the counter of the used keypair, as the send
leaves it, is at least `REKEY_AFTER_MESSAGES`, or if the keypair is initiator
and its age is at least `REKEY_AFTER_TIME`, and otherwise keeps its value; so
for a keypair that is not initiator the age never sets it; the send that
brings the counter to `REKEY_AFTER_MESSAGES` sets it whatever
`wireguardifPeerOutput` returns; and a send on a keypair that is not eligible
returns `ERR_CONN` and leaves the flag as it was. -/
theorem rekey_flag_after_send (cfg : Config) (env : Env) (q : sbuf_t) (idx : Nat)
    (peer : wireguard_peer_t) :
    (Eligible cfg env.now (peer.getKeypair (selectKeypair peer)) → RoomForFrame cfg q →
      ∃ peer' frame, wireguardifOutputToPeer cfg env q idx peer =
          .ok (env.peerOutputResult, peer', [Ev.wireguardifPeerOutput idx frame]) ∧
        (peer'.getKeypair (selectKeypair peer)).sending_counter =
          ((peer.getKeypair (selectKeypair peer)).sending_counter + 1) % 2 ^ 64 ∧
        peer'.send_handshake =
          (if cfg.REKEY_AFTER_MESSAGES ≤ (peer'.getKeypair (selectKeypair peer)).sending_counter ∨
              ((peer.getKeypair (selectKeypair peer)).initiator = true ∧
                cfg.REKEY_AFTER_TIME ≤
                  keypairAge env.now (peer.getKeypair (selectKeypair peer))) then true
            else peer.send_handshake) ∧
        ((peer.getKeypair (selectKeypair peer)).initiator = false →
          (peer'.send_handshake = true ↔
            cfg.REKEY_AFTER_MESSAGES ≤ (peer'.getKeypair (selectKeypair peer)).sending_counter ∨
              peer.send_handshake = true)) ∧
        ((peer.getKeypair (selectKeypair peer)).sending_counter + 1 = cfg.REKEY_AFTER_MESSAGES →
          cfg.REKEY_AFTER_MESSAGES < 2 ^ 64 → peer'.send_handshake = true)) ∧
    (¬ Eligible cfg env.now (peer.getKeypair (selectKeypair peer)) →
      ∃ peer' evs, wireguardifOutputToPeer cfg env q idx peer = .ok (ERR_CONN, peer', evs) ∧
        handedFrames evs = [] ∧ peer'.send_handshake = peer.send_handshake) := by
  constructor
  · intro he hroom
    have hcount : ((afterPeerOutput cfg env
        (peer.setKeypair (selectKeypair peer)
          { peer.getKeypair (selectKeypair peer) with
            sending_counter :=
              ((peer.getKeypair (selectKeypair peer)).sending_counter + 1) % 2 ^ 64 })
        (selectKeypair peer) env.peerOutputResult).getKeypair (selectKeypair peer)).sending_counter
        = ((peer.getKeypair (selectKeypair peer)).sending_counter + 1) % 2 ^ 64 := by
      rw [afterPeerOutput_counter, getKeypair_setKeypair]
    have hflag : (afterPeerOutput cfg env
        (peer.setKeypair (selectKeypair peer)
          { peer.getKeypair (selectKeypair peer) with
            sending_counter :=
              ((peer.getKeypair (selectKeypair peer)).sending_counter + 1) % 2 ^ 64 })
        (selectKeypair peer) env.peerOutputResult).send_handshake =
        if cfg.REKEY_AFTER_MESSAGES ≤
            ((peer.getKeypair (selectKeypair peer)).sending_counter + 1) % 2 ^ 64 ∨
          ((peer.getKeypair (selectKeypair peer)).initiator = true ∧
            cfg.REKEY_AFTER_TIME ≤ keypairAge env.now (peer.getKeypair (selectKeypair peer)))
        then true else peer.send_handshake := by
      have h := afterPeerOutput_send_handshake cfg env
        (peer.setKeypair (selectKeypair peer)
          { peer.getKeypair (selectKeypair peer) with
            sending_counter :=
              ((peer.getKeypair (selectKeypair peer)).sending_counter + 1) % 2 ^ 64 })
        (selectKeypair peer) env.peerOutputResult
      rw [getKeypair_setKeypair, setKeypair_send_handshake] at h
      exact h
    refine ⟨_, _, output_accepted cfg env q idx peer he hroom, hcount, ?_, ?_, ?_⟩
    · rw [hcount]
      exact hflag
    · intro hi
      rw [hcount, hflag]
      by_cases h : cfg.REKEY_AFTER_MESSAGES ≤
          ((peer.getKeypair (selectKeypair peer)).sending_counter + 1) % 2 ^ 64
      · rw [if_pos (Or.inl h)]
        exact ⟨fun _ => Or.inl h, fun _ => rfl⟩
      · have hn : ¬ (cfg.REKEY_AFTER_MESSAGES ≤
              ((peer.getKeypair (selectKeypair peer)).sending_counter + 1) % 2 ^ 64 ∨
            ((peer.getKeypair (selectKeypair peer)).initiator = true ∧
              cfg.REKEY_AFTER_TIME ≤
                keypairAge env.now (peer.getKeypair (selectKeypair peer)))) := by
          rintro (h' | ⟨h', -⟩)
          · exact h h'
          · rw [hi] at h'
            exact Bool.noConfusion h'
        rw [if_neg hn]
        constructor
        · intro hp
          exact Or.inr hp
        · rintro (h' | h')
          · exact absurd h' h
          · exact h'
    · intro h1 h2
      rw [hflag, if_pos]
      left
      rw [Nat.mod_eq_of_lt (by omega)]
      omega
  · intro hne
    obtain ⟨peer', evs, h1, h2, -, -, -, h3⟩ := rejected_step cfg env q idx peer hne
    exact ⟨peer', evs, h1, h2, h3⟩

theorem rekey_flag_after_send_witness :
    (∃ peer' frame, wireguardifOutputToPeer cfgSample (envSample ERR_OTHER)
        (bufSample packetSample) 0
        { peerSample 0 0 with
          curr_keypair := { keypairSample with initiator := false, last_rx := 900,
                                               sending_counter := 2 ^ 60 - 1 } } =
          .ok (ERR_OTHER, peer', [Ev.wireguardifPeerOutput 0 frame]) ∧
        peer'.send_handshake = true) ∧
    (∃ peer' evs, wireguardifOutputToPeer cfgSample (envAt 180000 ERR_OK)
        (bufSample packetSample) 0 (peerSample 0 0) = .ok (ERR_CONN, peer', evs) ∧
        handedFrames evs = [] ∧ peer'.send_handshake = false) := by
  constructor
  · obtain ⟨peer', frame, h1, -, -, -, h2⟩ :=
      (rekey_flag_after_send cfgSample (envSample ERR_OTHER) (bufSample packetSample) 0
        { peerSample 0 0 with
          curr_keypair := { keypairSample with initiator := false, last_rx := 900,
                                               sending_counter := 2 ^ 60 - 1 } }).1
        (by decide) (by decide)
    exact ⟨peer', frame, h1, h2 (by decide) (by decide)⟩
  · exact (rekey_flag_after_send cfgSample (envAt 180000 ERR_OK) (bufSample packetSample) 0
      (peerSample 0 0)).2 (by decide)

/-! ## The keypair a send uses -/

end WireGuardDevice

namespace WireGuardDevice

open ip_addr_type err_t

/-! ## Where the buffer of the upstream handler goes -/

theorem reusedBuffers_append (a b : List Ev) :
    reusedBuffers (a ++ b) = reusedBuffers a ++ reusedBuffers b := by
  induction a with
  | nil => rfl
  | cons e rest ih => cases e <;> simp [reusedBuffers, ih]

/-- A packet whose version is neither 4 nor 6 has no peer. -/
theorem routePacket_none (dev : wireguard_device_t) (data : List Nat)
    (hd : packetDest data = none) : routePacket dev data = .ok none := by
  unfold packetDest at hd
  unfold routePacket
  by_cases h4 : IP_HDR_GET_VERSION data = 4
  · rw [if_pos h4] at hd
    exact absurd hd (by simp)
  · rw [if_neg h4] at hd
    by_cases h6 : IP_HDR_GET_VERSION data = 6
    · rw [if_pos h6] at hd
      exact absurd hd (by simp)
    · rw [if_neg h4, if_neg h6]

/-- A send that returns has either given the packet back and handed on
nothing, or handed on exactly one frame and given nothing back. -/
theorem output_returned_or_handed (cfg : Config) (env : Env) (q : sbuf_t) (idx : Nat)
    (peer peer' : wireguard_peer_t) (res : err_t) (evs : List Ev)
    (h : wireguardifOutputToPeer cfg env q idx peer = .ok (res, peer', evs)) :
    (reusedBuffers evs = [q] ∧ handedFrames evs = []) ∨
    (reusedBuffers evs = [] ∧ ∃ frame, handedFrames evs = [(idx, frame)]) := by
  by_cases he : Eligible cfg env.now (peer.getKeypair (selectKeypair peer))
  · right
    unfold wireguardifOutputToPeer at h
    simp only [] at h
    rw [if_pos (eligible_first_test cfg env.now _ he),
      if_pos (eligible_second_test cfg env.now _ he)] at h
    split_ifs at h
    all_goals
      split at h
      · exact absurd h (by simp)
      · cases h
        exact ⟨rfl, _, rfl⟩
  · left
    obtain ⟨peer1, evs1, h1, hh, hr, -⟩ := rejected_step cfg env q idx peer he
    rw [h] at h1
    cases h1
    exact ⟨hr, hh⟩

/-- Buffers for which the handler returns: where the buffer given to
`wireguarddeviceTunnelUpStreamPayload` goes. A buffer shorter than 20 bytes is given back to the pool and nothing
else happens, whatever the device holds, so no peer is looked up. Whenever
the handler returns, either the buffer was given back once and no frame was
handed on, or one frame was handed to `wireguardifPeerOutput` and nothing was
given back. For a packet of at least 20 bytes (40 for version 6): with a
version that is neither 4 nor 6, or no matching peer, the buffer is given
back; with a matching peer it is given back when the selected keypair is not
eligible, and handed on in one frame when it is eligible and the buffer has
room. -/
theorem upstream_buffer_returned_or_handed (cfg : Config) (env : Env)
    (dev : wireguard_device_t) (buf : sbuf_t) :
    (sbufGetLength buf < sizeof_ip4_hdr_t →
      ∀ dev2, wireguarddeviceTunnelUpStreamPayload cfg env dev2 buf =
        .ok (dev2, [Ev.bufferpoolReuseBuffer buf])) ∧
    (∀ dev' evs, wireguarddeviceTunnelUpStreamPayload cfg env dev buf = .ok (dev', evs) →
      (reusedBuffers evs = [buf] ∧ handedFrames evs = []) ∨
      (reusedBuffers evs = [] ∧ ∃ x, handedFrames evs = [x])) ∧
    (sizeof_ip4_hdr_t ≤ sbufGetLength buf →
      (IP_HDR_GET_VERSION buf.bytes = 6 → 40 ≤ buf.bytes.length) →
      (packetDest buf.bytes = none →
        wireguarddeviceTunnelUpStreamPayload cfg env dev buf =
          .ok (dev, [Ev.mutexLock, Ev.LOGD, Ev.bufferpoolReuseBuffer buf, Ev.mutexUnlock])) ∧
      (∀ dest, packetDest buf.bytes = some dest → peerLookupByAllowedIp dev dest = none →
        wireguarddeviceTunnelUpStreamPayload cfg env dev buf =
          .ok (dev, [Ev.mutexLock, Ev.LOGD, Ev.bufferpoolReuseBuffer buf, Ev.mutexUnlock])) ∧
      (∀ dest idx, packetDest buf.bytes = some dest →
        peerLookupByAllowedIp dev dest = some idx →
        ∃ peer, dev.peers.get? idx = some peer ∧
          (¬ Eligible cfg env.now (peer.getKeypair (selectKeypair peer)) →
            ∃ dev' evs, wireguarddeviceTunnelUpStreamPayload cfg env dev buf = .ok (dev', evs) ∧
              reusedBuffers evs = [buf] ∧ handedFrames evs = []) ∧
          (Eligible cfg env.now (peer.getKeypair (selectKeypair peer)) →
            RoomForFrame cfg buf →
            ∃ dev' frame, wireguarddeviceTunnelUpStreamPayload cfg env dev buf =
              .ok (dev', [Ev.mutexLock, Ev.wireguardifPeerOutput idx frame,
                Ev.mutexUnlock])))) := by
  refine ⟨?_, ?_, ?_⟩
  · intro hshort dev2
    unfold wireguarddeviceTunnelUpStreamPayload
    rw [if_pos hshort]
  · intro dev' evs h
    unfold wireguarddeviceTunnelUpStreamPayload at h
    by_cases hshort : sbufGetLength buf < sizeof_ip4_hdr_t
    · rw [if_pos hshort] at h
      cases h
      exact Or.inl ⟨rfl, rfl⟩
    · rw [if_neg hshort] at h
      cases hr : routePacket dev buf.bytes with
      | error e =>
        simp only [hr] at h
        exact absurd h (by simp)
      | ok o =>
        cases o with
        | none =>
          simp only [hr] at h
          cases h
          exact Or.inl ⟨rfl, rfl⟩
        | some idx =>
          simp only [hr] at h
          cases hp : dev.peers.get? idx with
          | none =>
            simp only [hp] at h
            exact absurd h (by simp)
          | some peer =>
            simp only [hp] at h
            cases ho : wireguardifOutputToPeer cfg env buf idx peer with
            | error e =>
              simp only [ho] at h
              exact absurd h (by simp)
            | ok r =>
              obtain ⟨res, peer', evs'⟩ := r
              simp only [ho] at h
              cases h
              rw [reusedBuffers_append, reusedBuffers_append, handedFrames_append,
                handedFrames_append]
              simp only [reusedBuffers, handedFrames, List.nil_append, List.append_nil]
              rcases output_returned_or_handed cfg env buf idx peer peer' res evs' ho with
                hcase | ⟨h1, frame, h2⟩
              · exact Or.inl hcase
              · exact Or.inr ⟨h1, _, h2⟩
  · intro hlen h6
    have hlen' : 20 ≤ buf.bytes.length := hlen
    have hns : ¬ sbufGetLength buf < sizeof_ip4_hdr_t := by omega
    refine ⟨?_, ?_, ?_⟩
    · intro hd
      unfold wireguarddeviceTunnelUpStreamPayload
      rw [if_neg hns, routePacket_none dev _ hd]
    · intro dest hd hl
      unfold wireguarddeviceTunnelUpStreamPayload
      rw [if_neg hns, routePacket_eq dev _ dest hlen' h6 hd, hl]
    · intro dest idx hd hl
      obtain ⟨⟨peer, hp, -⟩, -⟩ := (lookup_some_iff dev dest idx).1 hl
      refine ⟨peer, hp, ?_, ?_⟩
      · intro hne
        obtain ⟨peer1, evs1, h1, hh, hr, -⟩ := rejected_step cfg env buf idx peer hne
        refine ⟨dev.setPeer idx peer1, [Ev.mutexLock] ++ evs1 ++ [Ev.mutexUnlock], ?_, ?_, ?_⟩
        · unfold wireguarddeviceTunnelUpStreamPayload
          rw [if_neg hns, routePacket_eq dev _ dest hlen' h6 hd, hl]
          simp only [hp, h1]
        · rw [reusedBuffers_append, reusedBuffers_append, hr]
          rfl
        · rw [handedFrames_append, handedFrames_append, hh]
          rfl
      · intro he hroom
        have hacc := output_accepted cfg env buf idx peer he hroom
        refine ⟨dev.setPeer idx (afterPeerOutput cfg env
            (peer.setKeypair (selectKeypair peer)
              { peer.getKeypair (selectKeypair peer) with
                sending_counter :=
                  ((peer.getKeypair (selectKeypair peer)).sending_counter + 1) % 2 ^ 64 })
            (selectKeypair peer) env.peerOutputResult),
          transportFrame cfg env buf (peer.getKeypair (selectKeypair peer)), ?_⟩
        unfold wireguarddeviceTunnelUpStreamPayload
        rw [if_neg hns, routePacket_eq dev _ dest hlen' h6 hd, hl]
        simp only [hp, hacc]
        rfl

theorem upstream_buffer_returned_or_handed_witness :
    wireguarddeviceTunnelUpStreamPayload cfgSample (envSample ERR_OK) deviceSample
        (bufSample [0x45, 0, 0, 19]) =
      .ok (deviceSample, [Ev.bufferpoolReuseBuffer (bufSample [0x45, 0, 0, 19])]) ∧
    (∃ dev' frame, wireguarddeviceTunnelUpStreamPayload cfgSample (envSample ERR_OK)
        deviceSample (bufSample packetSample) =
      .ok (dev', [Ev.mutexLock, Ev.wireguardifPeerOutput 0 frame, Ev.mutexUnlock])) := by
  constructor
  · exact (upstream_buffer_returned_or_handed cfgSample (envSample ERR_OK) deviceSample
      (bufSample [0x45, 0, 0, 19])).1 (by decide) deviceSample
  · obtain ⟨peer, hp, -, h⟩ :=
      ((upstream_buffer_returned_or_handed cfgSample (envSample ERR_OK) deviceSample
        (bufSample packetSample)).2.2 (by decide) (by decide)).2.2
        ⟨IPADDR_TYPE_V4, 0x0A010203⟩ 0 (by decide) (by decide)
    have hpeer : peer = peerSample 0x0A000000 0xFF000000 := by
      have : deviceSample.peers.get? 0 = some (peerSample 0x0A000000 0xFF000000) := rfl
      rw [this] at hp
      exact (Option.some.inj hp).symm
    rw [hpeer] at h
    exact h (by decide) (by decide)

end WireGuardDevice

namespace WireGuardDevice

open ip_addr_type err_t

/-! ## The destination address read by the upstream handler -/

/-- The four destination bytes of a version-4 header lie in every packet that
passes the length check. -/
theorem readField_v4_dest (data : List Nat) (hlen : sizeof_ip4_hdr_t ≤ data.length) :
    readField data 16 4 = .ok ((data.drop 16).take 4) := by
  unfold readField
  unfold sizeof_ip4_hdr_t at hlen
  rw [if_pos (by omega)]

/-- The sixteen destination bytes of a version-6 header do not lie in a packet
of fewer than 40 bytes. -/
theorem readField_v6_dest_short (data : List Nat) (hlen : data.length < 40) :
    readField data 24 16 = .error Fault.readPastEnd := by
  unfold readField
  rw [if_neg (by omega)]

/-- C31: a packet of 20 bytes whose version nibble is 6 passes the length
check of `wireguarddeviceTunnelUpStreamPayload`, and the sixteen destination
bytes the handler reads at offsets 24..39 lie behind its last byte: the read
is a read past the end, in the lookup and in the handler. For version 4 the
bytes 16..19 lie in every packet that passes the check, and so do the bytes
24..39 for version 6 in a packet of at least 40 bytes. -/
theorem v6_destination_read_past_end :
    packetV6Short.length = 20 ∧
    ¬ (sbufGetLength (bufSample packetV6Short) < sizeof_ip4_hdr_t) ∧
    IP_HDR_GET_VERSION packetV6Short = 6 ∧
    packetV6Short.length < 24 + 16 ∧
    readField packetV6Short 24 16 = .error Fault.readPastEnd ∧
    routePacket deviceSample packetV6Short = .error Fault.readPastEnd ∧
    wireguarddeviceTunnelUpStreamPayload cfgSample (envSample ERR_OK) deviceSample
      (bufSample packetV6Short) = .error Fault.readPastEnd ∧
    (∀ data : List Nat, sizeof_ip4_hdr_t ≤ data.length →
      readField data 16 4 = .ok ((data.drop 16).take 4)) ∧
    (∀ data : List Nat, 40 ≤ data.length →
      readField data 24 16 = .ok ((data.drop 24).take 16)) := by
  refine ⟨rfl, by decide, by decide, by decide, rfl, rfl, rfl, readField_v4_dest, ?_⟩
  intro data hlen
  unfold readField
  rw [if_pos (by omega)]

end WireGuardDevice

namespace WireGuardDevice

open ip_addr_type err_t

/-! ## Full-size packets on an eligible keypair -/

/-- C17: an eligible keypair whose send hands on no frame. The selected
keypair of the peer is eligible (valid, initiator, age 1000 ms below
`REJECT_AFTER_TIME`, counter 7 below `REJECT_AFTER_MESSAGES`), the packet has
1500 bytes, and the buffer has 16 bytes in front of the packet and the frame
fits `SMALL_BUFFER_SIZE` and the buffer. `wireguardifOutputToPeer` stops at
the assertion `padded_len + WIREGUARD_AUTHTAG_LEN <= 1516` of payload.c
line 91, since `padded_len + 16` is 1520: the call has no return value, so
no frame is handed to `wireguardifPeerOutput` and no result of that call is
returned. -/
theorem eligible_send_hands_no_frame :
    Eligible cfgSample (envSample ERR_OK).now
      ((peerSample 0 0).getKeypair (selectKeypair (peerSample 0 0))) ∧
    (bufSample packetFull).bytes.length = 1500 ∧
    16 ≤ (bufSample packetFull).left.length ∧
    paddedLen 1500 + WIREGUARD_AUTHTAG_LEN ≤ cfgSample.SMALL_BUFFER_SIZE ∧
    paddedLen 1500 + WIREGUARD_AUTHTAG_LEN ≤
      (bufSample packetFull).bytes.length + (bufSample packetFull).right.length ∧
    paddedLen 1500 + WIREGUARD_AUTHTAG_LEN = 1520 ∧
    wireguardifOutputToPeer cfgSample (envSample ERR_OK) (bufSample packetFull) 0
      (peerSample 0 0) = .error .assertFailed ∧
    ¬ ∃ res peer' evs,
      wireguardifOutputToPeer cfgSample (envSample ERR_OK) (bufSample packetFull) 0
        (peerSample 0 0) = .ok (res, peer', evs) := by
  have hlen := packetFull_length
  have hfail : wireguardifOutputToPeer cfgSample (envSample ERR_OK) (bufSample packetFull) 0
      (peerSample 0 0) = .error .assertFailed :=
    assertion_fails cfgSample (envSample ERR_OK) (bufSample packetFull) 0
      (peerSample 0 0) (by decide) (by rw [hlen]; decide) (by rw [hlen])
  refine ⟨by decide, hlen, by decide, by decide, by rw [hlen]; decide, by decide, hfail, ?_⟩
  rintro ⟨res, peer', evs, h⟩
  rw [hfail] at h
  exact absurd h (by simp)

/-- C23: a buffer that is neither given back to the pool nor handed to
`wireguardifPeerOutput`. A 1500-byte version-4 packet to 10.1.2.3 passes the
length check of `wireguarddeviceTunnelUpStreamPayload`; peer 0 of the device
allows 10.0.0.0/8 and is the peer found, and its selected keypair is
eligible, so the buffer is not given back by any of the four rejecting
paths. `wireguardifOutputToPeer` then stops at the assertion of payload.c
line 91 (`padded_len + 16` is 1520, above 1516), before the frame is built:
the handler has no outcome in which the buffer was given back or a frame was
handed on. -/
theorem full_size_packet_neither_returned_nor_handed :
    (bufSample packetFull).bytes.length = 1500 ∧
    ¬ (sbufGetLength (bufSample packetFull) < sizeof_ip4_hdr_t) ∧
    IP_HDR_GET_VERSION (bufSample packetFull).bytes = 4 ∧
    packetDest (bufSample packetFull).bytes = some ⟨IPADDR_TYPE_V4, 0x0A010203⟩ ∧
    peerLookupByAllowedIp deviceSample ⟨IPADDR_TYPE_V4, 0x0A010203⟩ = some 0 ∧
    deviceSample.peers.get? 0 = some (peerSample 0x0A000000 0xFF000000) ∧
    Eligible cfgSample (envSample ERR_OK).now
      ((peerSample 0x0A000000 0xFF000000).getKeypair
        (selectKeypair (peerSample 0x0A000000 0xFF000000))) ∧
    wireguardifOutputToPeer cfgSample (envSample ERR_OK) (bufSample packetFull) 0
      (peerSample 0x0A000000 0xFF000000) = .error .assertFailed ∧
    wireguarddeviceTunnelUpStreamPayload cfgSample (envSample ERR_OK) deviceSample
      (bufSample packetFull) = .error .assertFailed ∧
    ¬ ∃ dev' evs,
      wireguarddeviceTunnelUpStreamPayload cfgSample (envSample ERR_OK) deviceSample
        (bufSample packetFull) = .ok (dev', evs) := by
  have hlen := packetFull_length
  have hshort : ¬ (sbufGetLength (bufSample packetFull) < sizeof_ip4_hdr_t) := by
    simp only [sbufGetLength, sizeof_ip4_hdr_t, hlen]; decide
  have hd : packetDest (bufSample packetFull).bytes = some ⟨IPADDR_TYPE_V4, 0x0A010203⟩ := by
    decide
  have hv : IP_HDR_GET_VERSION (bufSample packetFull).bytes = 6 →
      40 ≤ (bufSample packetFull).bytes.length := by
    intro _; rw [hlen]; decide
  have hl : peerLookupByAllowedIp deviceSample ⟨IPADDR_TYPE_V4, 0x0A010203⟩ = some 0 := by
    decide
  have hp : deviceSample.peers.get? 0 = some (peerSample 0x0A000000 0xFF000000) := rfl
  have hout : wireguardifOutputToPeer cfgSample (envSample ERR_OK) (bufSample packetFull) 0
      (peerSample 0x0A000000 0xFF000000) = .error .assertFailed :=
    assertion_fails cfgSample (envSample ERR_OK) (bufSample packetFull) 0
      (peerSample 0x0A000000 0xFF000000) (by decide) (by rw [hlen]; decide) (by rw [hlen])
  have hfail : wireguarddeviceTunnelUpStreamPayload cfgSample (envSample ERR_OK) deviceSample
      (bufSample packetFull) = .error .assertFailed := by
    unfold wireguarddeviceTunnelUpStreamPayload
    rw [if_neg hshort, routePacket_eq deviceSample _ _ (by rw [hlen]; decide) hv hd]
    simp only [hl, hp]
    rw [hout]
  refine ⟨hlen, hshort, by decide, hd, hl, hp, by decide, hout, hfail, ?_⟩
  rintro ⟨dev', evs, h⟩
  rw [hfail] at h
  exact absurd h (by simp)

end WireGuardDevice

namespace IpManipulator

end IpManipulator

namespace Capture

/-! ## The verdict of `netfilterGetPacket` -/

/-- The packet header the walk ends with is the data of an attribute of type
`NFQA_PACKET_HDR` of the message, when the walk found one. -/
theorem walkAttrs_pkt_hdr (attrs : List nfattr) :
    ∀ wk wk', walkAttrs attrs wk = some wk' → wk'.found_pkt_hdr = true →
      (wk.found_pkt_hdr = true ∧ wk'.nl_pkt_hdr = wk.nl_pkt_hdr) ∨
      ∃ a ∈ attrs, a.nfa_type = NFQA_PACKET_HDR ∧ wk'.nl_pkt_hdr = a.data := by
  induction attrs with
  | nil =>
    intro wk wk' h hf
    simp only [walkAttrs, Option.some.injEq] at h
    subst h
    exact Or.inl ⟨hf, rfl⟩
  | cons a rest ih =>
    intro wk wk' h hf
    unfold walkAttrs at h
    split_ifs at h with h1 h2 h3 h4
    · rcases ih _ _ h hf with ⟨hw, he⟩ | ⟨b, hb, hbt, hbd⟩
      · exact Or.inl ⟨hw, he⟩
      · exact Or.inr ⟨b, List.mem_cons_of_mem _ hb, hbt, hbd⟩
    · rcases ih _ _ h hf with ⟨-, he⟩ | ⟨b, hb, hbt, hbd⟩
      · exact Or.inr ⟨a, List.mem_cons_self _ _, h3, he⟩
      · exact Or.inr ⟨b, List.mem_cons_of_mem _ hb, hbt, hbd⟩
    · rcases ih _ _ h hf with hcase | ⟨b, hb, hbt, hbd⟩
      · exact Or.inl hcase
      · exact Or.inr ⟨b, List.mem_cons_of_mem _ hb, hbt, hbd⟩

/-- A message that is not accepted is answered without any call. -/
theorem not_accepted_no_call (sendtoOk : Bool) (qnumber : Nat) (r : Received) (buff : sbuf_t)
    (h : ¬ Accepted r) : (netfilterGetPacket sendtoOk qnumber r buff).2.2 = [] := by
  unfold netfilterGetPacket
  split_ifs with h1 h2 h3 h4 h5 h6
  all_goals try rfl
  cases hw : walkAttrs r.attrs ⟨false, false, [], []⟩ with
  | none => rfl
  | some wk =>
    simp only []
    by_cases hf : (!wk.found_data || !wk.found_pkt_hdr) = true
    · rw [if_pos hf]
    · exfalso
      apply h
      simp only [Bool.or_eq_true, Bool.not_eq_true', not_or, Bool.not_eq_false] at hf
      simp only [not_or, not_not] at h2
      refine ⟨by omega, h2.1, h2.2, not_not.1 h3, not_not.1 h4, by omega, by omega,
        wk, hw, hf.1, hf.2⟩

/-- An accepted message is answered with exactly one call, the `sendto` of
its verdict. -/
theorem accepted_one_verdict (sendtoOk : Bool) (qnumber : Nat) (r : Received) (buff : sbuf_t)
    (wk : Walk) (h : Accepted r) (hw : walkAttrs r.attrs ⟨false, false, [], []⟩ = some wk) :
    (netfilterGetPacket sendtoOk qnumber r buff).2.2 =
      [Ev.sendto { nlmsg_type := (NFNL_SUBSYS_QUEUE <<< 8) ||| NFQNL_MSG_VERDICT,
                   nlmsg_flags := NLM_F_REQUEST, res_id := htons qnumber,
                   nfa_type := NFQA_VERDICT_HDR,
                   data := htonl NF_DROP ++ wk.nl_pkt_hdr.take 4 }] := by
  obtain ⟨h1, h2, h3, h4, h5, h6, h7, wk', hw', hd, hp⟩ := h
  rw [hw] at hw'
  cases hw'
  unfold netfilterGetPacket
  rw [if_neg (by omega), if_neg (by simp [h2, h3]), if_neg (by simp [h4]),
    if_neg (by simp [h5]), if_neg (by omega), if_neg (by omega)]
  simp only [hw, hd, hp, Bool.not_true, Bool.or_self, Bool.false_eq_true, if_false]
  cases sendtoOk <;> rfl

/-- C25, the counterexample: a received message of the queue subsystem that
carries a packet header with id `00 00 00 2A` but no payload attribute, and a
message of another type. `netfilterGetPacket` returns -1 for both and sends
no verdict. -/
theorem rejected_message_gets_no_verdict :
    netfilterGetPacket true 5
      { receivedSample with attrs := [⟨NFQA_PACKET_HDR, [0, 0, 0, 0x2A, 0x08, 0x00, 1]⟩] } [] =
      (-1, [], []) ∧
    netfilterGetPacket true 5 { receivedSample with nlmsg_type := 0x0301 } [] =
      (-1, [], []) ∧
    verdictsSent (netfilterGetPacket true 5
      { receivedSample with attrs := [⟨NFQA_PACKET_HDR, [0, 0, 0, 0x2A, 0x08, 0x00, 1]⟩] }
        []).2.2 = [] := by
  decide

/-- C25, amended: for every message received by `netfilterGetPacket` that
passes its checks (return value of `recvfrom`, sender, subsystem, type,
lengths, exactly one payload and one packet header attribute) exactly one
message is given to `sendto`: the `NFQNL_MSG_VERDICT` message for the queue
number, without acknowledgement, that carries `NF_DROP` in network byte order
and the first four bytes of an `NFQA_PACKET_HDR` attribute of the received
message as id. A message that fails a check gets no verdict, and no message
gets two. -/
theorem verdict_once_for_accepted (sendtoOk : Bool) (qnumber : Nat) (r : Received)
    (buff : sbuf_t) :
    (Accepted r →
      ∃ a ∈ r.attrs, a.nfa_type = NFQA_PACKET_HDR ∧
        (netfilterGetPacket sendtoOk qnumber r buff).2.2 =
          [Ev.sendto { nlmsg_type := (NFNL_SUBSYS_QUEUE <<< 8) ||| NFQNL_MSG_VERDICT,
                       nlmsg_flags := NLM_F_REQUEST, res_id := htons qnumber,
                       nfa_type := NFQA_VERDICT_HDR,
                       data := [0, 0, 0, 0] ++ a.data.take 4 }] ∧
        (verdictsSent (netfilterGetPacket sendtoOk qnumber r buff).2.2).length = 1) ∧
    (¬ Accepted r → (netfilterGetPacket sendtoOk qnumber r buff).2.2 = []) ∧
    (verdictsSent (netfilterGetPacket sendtoOk qnumber r buff).2.2).length ≤ 1 := by
  have hacc : Accepted r →
      ∃ a ∈ r.attrs, a.nfa_type = NFQA_PACKET_HDR ∧
        (netfilterGetPacket sendtoOk qnumber r buff).2.2 =
          [Ev.sendto { nlmsg_type := (NFNL_SUBSYS_QUEUE <<< 8) ||| NFQNL_MSG_VERDICT,
                       nlmsg_flags := NLM_F_REQUEST, res_id := htons qnumber,
                       nfa_type := NFQA_VERDICT_HDR,
                       data := [0, 0, 0, 0] ++ a.data.take 4 }] ∧
        (verdictsSent (netfilterGetPacket sendtoOk qnumber r buff).2.2).length = 1 := by
    intro h
    obtain ⟨wk, hw, hd, hp⟩ := h.2.2.2.2.2.2.2
    have hev := accepted_one_verdict sendtoOk qnumber r buff wk h hw
    rcases walkAttrs_pkt_hdr r.attrs _ wk hw hp with ⟨hf, -⟩ | ⟨a, ha, hat, had⟩
    · exact absurd hf (by simp)
    · refine ⟨a, ha, hat, ?_, ?_⟩
      · rw [hev, had]
        rfl
      · rw [hev]
        rfl
  refine ⟨hacc, not_accepted_no_call sendtoOk qnumber r buff, ?_⟩
  by_cases h : Accepted r
  · obtain ⟨a, -, -, -, hl⟩ := hacc h
    rw [hl]
  · rw [not_accepted_no_call sendtoOk qnumber r buff h]
    exact Nat.zero_le _

theorem verdict_once_for_accepted_witness :
    Accepted receivedSample ∧
    (netfilterGetPacket true 5 receivedSample []).2.2 =
      [Ev.sendto { nlmsg_type := 0x0301, nlmsg_flags := 1, res_id := [0, 5], nfa_type := 2,
                   data := [0, 0, 0, 0, 0, 0, 0, 0x2A] }] := by
  have hacc : Accepted receivedSample :=
    ⟨by decide, rfl, rfl, by decide, by decide, by decide, by decide, _, rfl, rfl, rfl⟩
  obtain ⟨a, ha, hat, hev, -⟩ :=
    (verdict_once_for_accepted true 5 receivedSample []).1 hacc
  refine ⟨hacc, ?_⟩
  simp only [receivedSample, List.mem_cons, List.mem_singleton, List.not_mem_nil,
    or_false] at ha
  rcases ha with rfl | rfl
  · exact hev
  · exact absurd hat (by decide)

end Capture

namespace Capture

/-! ## Backpressure in the read loop -/

theorem loopPass_sleeps (queue_number : Nat) (p : Pass) (hrun : p.running = true)
    (h : p.packets_queued > 256) : loopPass queue_number p = ([Ev.ww_msleep 1], Next.again) := by
  unfold loopPass
  rw [if_neg (by simp [hrun]), if_pos h]

theorem loopPass_polls (queue_number : Nat) (p : Pass) (hrun : p.running = true)
    (h : p.packets_queued ≤ 256) :
    ∃ rest next, loopPass queue_number p =
      (Ev.bufferpoolGetSmallBuffer :: Ev.poll :: rest, next) := by
  unfold loopPass
  rw [if_neg (by simp [hrun]), if_neg (by omega)]
  simp only []
  split_ifs
  all_goals exact ⟨_, _, rfl⟩

/-- Pass `i` of a run of the loop is the pass of the loop on the answers
number `i`. -/
theorem routine_pass (queue_number : Nat) (passes : List Pass) :
    ∀ i evs, (routineReadFromCapture queue_number passes).get? i = some evs →
      ∃ p, passes.get? i = some p ∧ evs = (loopPass queue_number p).1 := by
  induction passes with
  | nil =>
    intro i evs h
    simp [routineReadFromCapture] at h
  | cons p rest ih =>
    intro i evs h
    unfold routineReadFromCapture at h
    cases hp : loopPass queue_number p with
    | mk e n =>
      rw [hp] at h
      cases n with
      | leave =>
        simp only [] at h
        cases i with
        | zero =>
          simp only [List.get?_cons_zero, Option.some.injEq] at h
          exact ⟨p, rfl, by rw [hp, ← h]⟩
        | succ i => simp at h
      | again =>
        simp only [] at h
        cases i with
        | zero =>
          simp only [List.get?_cons_zero, Option.some.injEq] at h
          exact ⟨p, rfl, by rw [hp, ← h]⟩
        | succ i =>
          simp only [List.get?_cons_succ] at h
          exact ih i evs h

/-- C26: in every pass of the loop of `routineReadFromCapture` (the device
running): if `packets_queued > 256` at the check, the pass sleeps 1 ms and does
nothing else, no poll, no netlink read, no dispatch, and the loop goes on; if
`packets_queued <= 256` the pass takes a buffer and polls; so a pass that
reads the netlink socket saw `packets_queued <= 256`, in every run of the
loop. -/
theorem backpressure_pass (queue_number : Nat) (p : Pass) (hrun : p.running = true) :
    (p.packets_queued > 256 →
      loopPass queue_number p = ([Ev.ww_msleep 1], Next.again)) ∧
    (p.packets_queued ≤ 256 →
      ∃ rest next, loopPass queue_number p =
        (Ev.bufferpoolGetSmallBuffer :: Ev.poll :: rest, next)) ∧
    (0 < netlinkReads (loopPass queue_number p).1 → p.packets_queued ≤ 256) ∧
    (∀ (passes : List Pass) (i : Nat) (evs : List Ev),
      (routineReadFromCapture queue_number passes).get? i = some evs →
      0 < netlinkReads evs →
      ∃ q, passes.get? i = some q ∧ q.running = true ∧ q.packets_queued ≤ 256) := by
  have hread : ∀ q : Pass, 0 < netlinkReads (loopPass queue_number q).1 →
      q.running = true ∧ q.packets_queued ≤ 256 := by
    intro q hq
    by_cases hr : q.running = true
    · refine ⟨hr, ?_⟩
      by_contra hgt
      rw [loopPass_sleeps queue_number q hr (by omega)] at hq
      simp [netlinkReads] at hq
    · exfalso
      unfold loopPass at hq
      rw [if_pos hr] at hq
      simp [netlinkReads] at hq
  refine ⟨loopPass_sleeps queue_number p hrun, loopPass_polls queue_number p hrun,
    fun h => (hread p h).2, ?_⟩
  intro passes i evs hget hpos
  obtain ⟨q, hq, he⟩ := routine_pass queue_number passes i evs hget
  rw [he] at hpos
  exact ⟨q, hq, hread q hpos⟩

theorem backpressure_pass_witness :
    (passAt 257).running = true ∧
    loopPass 5 (passAt 257) = ([Ev.ww_msleep 1], Next.again) ∧
    netlinkReads (loopPass 5 (passAt 257)).1 = 0 ∧
    netlinkReads (loopPass 5 (passAt 256)).1 = 1 := by
  have h := (backpressure_pass 5 (passAt 257) rfl).1 (by decide)
  exact ⟨rfl, h, by rw [h]; rfl, by decide⟩

end Capture

namespace Capture

/-! ## The counter of dispatched packets -/

/-- A list is a permutation of the element at position `k` followed by the
list without that position. -/
theorem perm_cons_eraseIdx {α : Type} (l : List α) :
    ∀ (k : Nat) (a : α), l.get? k = some a → List.Perm l (a :: l.eraseIdx k) := by
  induction l with
  | nil =>
    intro k a h
    simp at h
  | cons x rest ih =>
    intro k a h
    cases k with
    | zero =>
      simp only [List.get?_cons_zero, Option.some.injEq] at h
      subst h
      exact List.Perm.refl _
    | succ k =>
      simp only [List.get?_cons_succ] at h
      simp only [List.eraseIdx_cons_succ]
      exact (List.Perm.cons x (ih k a h)).trans (List.Perm.swap a x _)

theorem length_eraseIdx_of_get? {α : Type} (l : List α) (k : Nat) (a : α)
    (h : l.get? k = some a) : (l.eraseIdx k).length + 1 = l.length := by
  have := (perm_cons_eraseIdx l k a h).length_eq
  simp only [List.length_cons] at this
  omega

/-- One step keeps the counter equal to its value at rest plus the number of
posted events, and only moves a buffer from dispatched to posted or from
posted to the callbacks. -/
theorem step_invariant (cdev cdev' : capture_device_t) (s : Step)
    (h : s.run cdev = some cdev') :
    cdev'.packets_queued - cdev'.posted.length = cdev.packets_queued - cdev.posted.length ∧
    ∃ new, cdev'.callbacks = cdev.callbacks ++ new ∧
      List.Perm (new ++ cdev'.posted.map (fun x => (x.2.buf, x.1)))
        (cdev.posted.map (fun x => (x.2.buf, x.1)) ++ dispatched [s]) := by
  cases s with
  | dispatch target_wid buf =>
    simp only [Step.run, Option.some.injEq] at h
    subst h
    refine ⟨?_, [], ?_, ?_⟩
    · simp only [distributePacketPayload, List.length_append, List.length_singleton,
        Nat.cast_add, Nat.cast_one]
      omega
    · simp [distributePacketPayload]
    · simp [distributePacketPayload, dispatched]
  | event k =>
    cases hk : cdev.posted.get? k with
    | none =>
      simp only [Step.run, hk] at h
      exact absurd h (by simp)
    | some x =>
      obtain ⟨tid, msg⟩ := x
      simp only [Step.run, hk, Option.some.injEq] at h
      subst h
      have hlen := length_eraseIdx_of_get? cdev.posted k (tid, msg) hk
      refine ⟨?_, [(msg.buf, tid)], rfl, ?_⟩
      · simp only [localThreadEventReceived]
        omega
      · simp only [localThreadEventReceived, dispatched, List.append_nil, List.singleton_append]
        exact ((perm_cons_eraseIdx cdev.posted k (tid, msg) hk).map
          (fun x => (x.2.buf, x.1))).symm

theorem dispatched_cons (s : Step) (rest : List Step) :
    dispatched (s :: rest) = dispatched [s] ++ dispatched rest := by
  cases s <;> rfl

/-- A run keeps the counter equal to its value at rest plus the number of
posted events, and every buffer dispatched is posted or has been handed to the
callback, once. -/
theorem run_invariant (steps : List Step) :
    ∀ cdev cdev', runSteps cdev steps = some cdev' →
      cdev'.packets_queued - cdev'.posted.length = cdev.packets_queued - cdev.posted.length ∧
      ∃ new, cdev'.callbacks = cdev.callbacks ++ new ∧
        List.Perm (new ++ cdev'.posted.map (fun x => (x.2.buf, x.1)))
          (cdev.posted.map (fun x => (x.2.buf, x.1)) ++ dispatched steps) := by
  induction steps with
  | nil =>
    intro cdev cdev' h
    simp only [runSteps, Option.some.injEq] at h
    subst h
    exact ⟨rfl, [], by simp, by simp [dispatched]⟩
  | cons s rest ih =>
    intro cdev cdev' h
    unfold runSteps at h
    cases hs : s.run cdev with
    | none =>
      rw [hs] at h
      exact absurd h (by simp)
    | some mid =>
      rw [hs] at h
      simp only [] at h
      obtain ⟨h1, new1, hc1, hp1⟩ := step_invariant cdev mid s hs
      obtain ⟨h2, new2, hc2, hp2⟩ := ih mid cdev' h
      refine ⟨by omega, new1 ++ new2, by rw [hc2, hc1, List.append_assoc], ?_⟩
      rw [dispatched_cons, List.append_assoc, ← List.append_assoc _ (dispatched [s])]
      have e1 : List.Perm (new1 ++ (new2 ++ cdev'.posted.map (fun x => (x.2.buf, x.1))))
          (new1 ++ (mid.posted.map (fun x => (x.2.buf, x.1)) ++ dispatched rest)) :=
        hp2.append_left _
      have e2 : List.Perm
          ((new1 ++ mid.posted.map (fun x => (x.2.buf, x.1))) ++ dispatched rest)
          ((cdev.posted.map (fun x => (x.2.buf, x.1)) ++ dispatched [s]) ++ dispatched rest) :=
        hp1.append_right _
      rw [List.append_assoc] at e2
      exact e1.trans e2

theorem runSteps_take (steps : List Step) :
    ∀ cdev cdev' n, runSteps cdev steps = some cdev' →
      ∃ mid, runSteps cdev (steps.take n) = some mid := by
  induction steps with
  | nil =>
    intro cdev cdev' n _
    exact ⟨cdev, by simp [runSteps]⟩
  | cons s rest ih =>
    intro cdev cdev' n h
    cases n with
    | zero => exact ⟨cdev, rfl⟩
    | succ n =>
      unfold runSteps at h
      cases hs : s.run cdev with
      | none =>
        rw [hs] at h
        exact absurd h (by simp)
      | some mid =>
        rw [hs] at h
        obtain ⟨m, hm⟩ := ih mid cdev' n h
        exact ⟨m, by simp only [List.take_succ_cons, runSteps, hs, hm]⟩

/-- C27: the device starts with nothing posted. For every order of calls of
`distributePacketPayload` and runs of `localThreadEventReceived` in which each
event runs after its own dispatch (it is taken from the posted events), and
after which nothing is posted any more: `packets_queued` is back at its
initial value; after every part of the run it is the initial value plus the
number of events posted and not yet run, so never below the initial value; and
the callback has been invoked once per dispatched buffer with that buffer, on
the worker it was dispatched to. -/
theorem packets_queued_returns (cdev cdev' : capture_device_t) (steps : List Step)
    (hstart : cdev.posted = [])
    (hrun : runSteps cdev steps = some cdev')
    (hdone : cdev'.posted = []) :
    cdev'.packets_queued = cdev.packets_queued ∧
    (∀ n, ∃ mid, runSteps cdev (steps.take n) = some mid ∧
      mid.packets_queued = cdev.packets_queued + mid.posted.length ∧
      cdev.packets_queued ≤ mid.packets_queued) ∧
    ∃ new, cdev'.callbacks = cdev.callbacks ++ new ∧
      List.Perm new (dispatched steps) ∧ new.length = (dispatched steps).length := by
  obtain ⟨h1, new, hc, hp⟩ := run_invariant steps cdev cdev' hrun
  rw [hstart, hdone] at h1
  rw [hstart, hdone] at hp
  simp only [List.length_nil, Nat.cast_zero, sub_zero] at h1
  simp only [List.map_nil, List.append_nil, List.nil_append] at hp
  refine ⟨h1, ?_, new, hc, hp, hp.length_eq⟩
  intro n
  obtain ⟨mid, hmid⟩ := runSteps_take steps cdev cdev' n hrun
  obtain ⟨h2, -⟩ := run_invariant (steps.take n) cdev mid hmid
  rw [hstart] at h2
  simp only [List.length_nil, Nat.cast_zero, sub_zero] at h2
  refine ⟨mid, hmid, by omega, by omega⟩

theorem packets_queued_returns_witness :
    runSteps (cdevIdle 3)
        [Step.dispatch 0 [1], Step.dispatch 1 [2], Step.event 1, Step.dispatch 0 [3],
         Step.event 0, Step.event 0] =
      some { packets_queued := 3, posted := [], callbacks := [([2], 1), ([1], 0), ([3], 0)] } ∧
    ∃ new, ([([2], 1), ([1], 0), ([3], 0)] : List (sbuf_t × wid_t)) = [] ++ new ∧
      List.Perm new [([1], 0), ([2], 1), ([3], 0)] := by
  have hrun : runSteps (cdevIdle 3)
      [Step.dispatch 0 [1], Step.dispatch 1 [2], Step.event 1, Step.dispatch 0 [3],
       Step.event 0, Step.event 0] =
      some { packets_queued := 3, posted := [], callbacks := [([2], 1), ([1], 0), ([3], 0)] } :=
    by decide
  obtain ⟨-, -, new, h1, h2, -⟩ := packets_queued_returns (cdevIdle 3) _ _ rfl hrun rfl
  exact ⟨hrun, new, h1, h2⟩

end Capture

namespace Capture

/-! ## The return value of `netfilterGetPacket` -/

/-- capture_linux.c lines 200-204: a message that is long enough but comes
with a wrong sender address length or `nl_pid` is answered with `false`, the
value 0. -/
theorem wrong_sender_returns_zero (sendtoOk : Bool) (qnumber : Nat) (r : Received)
    (buff : sbuf_t) (hlen : (sizeof_nlmsghdr : Int) < r.result)
    (hs : r.nl_addr_len ≠ sizeof_sockaddr_nl ∨ r.nl_pid ≠ 0) :
    netfilterGetPacket sendtoOk qnumber r buff = (0, buff, []) := by
  unfold netfilterGetPacket
  rw [if_neg (by omega), if_pos hs]

/-- An accepted message: the return value is the length of the payload and
the output buffer holds the payload bytes, unless `sendto` fails, which gives
-1 and leaves the buffer. -/
theorem accepted_returns_payload (sendtoOk : Bool) (qnumber : Nat) (r : Received)
    (buff : sbuf_t) (wk : Walk) (h : Accepted r)
    (hw : walkAttrs r.attrs ⟨false, false, [], []⟩ = some wk) :
    (sendtoOk = true →
      (netfilterGetPacket sendtoOk qnumber r buff).1 = (wk.nl_data.length : Int) ∧
      (netfilterGetPacket sendtoOk qnumber r buff).2.1 = wk.nl_data) ∧
    (sendtoOk = false →
      (netfilterGetPacket sendtoOk qnumber r buff).1 = -1 ∧
      (netfilterGetPacket sendtoOk qnumber r buff).2.1 = buff) := by
  obtain ⟨h1, h2, h3, h4, h5, h6, h7, wk', hw', hd, hp⟩ := h
  rw [hw] at hw'
  cases hw'
  unfold netfilterGetPacket
  rw [if_neg (by omega), if_neg (by simp [h2, h3]), if_neg (by simp [h4]),
    if_neg (by simp [h5]), if_neg (by omega), if_neg (by omega)]
  simp only [hw, hd, hp, Bool.not_true, Bool.or_self, Bool.false_eq_true, if_false]
  constructor
  · intro hs
    rw [hs]
    exact ⟨rfl, rfl⟩
  · intro hs
    rw [hs]
    exact ⟨rfl, rfl⟩

/-- C32: a message like `receivedSample` but with `nl_pid = 1234` is rejected
by the sender check of `netfilterGetPacket`, and the return value is 0, not
negative. The pass of the read loop that reads it gives the buffer back, logs
and leaves the loop through the End Of File exit. A message rejected for its
type returns -1 and the loop goes on. -/
theorem wrong_sender_ends_read_loop :
    netfilterGetPacket true 5 { receivedSample with nl_pid := 1234 } [] = (0, [], []) ∧
    ¬ ((netfilterGetPacket true 5 { receivedSample with nl_pid := 1234 } []).1 < 0) ∧
    loopPass 5 { passAt 0 with received := { receivedSample with nl_pid := 1234 } } =
      ([Ev.bufferpoolGetSmallBuffer, Ev.poll, Ev.recvfrom, Ev.bufferpoolReuseBuffer [],
        Ev.LOGW], Next.leave) ∧
    routineReadFromCapture 5
      [{ passAt 0 with received := { receivedSample with nl_pid := 1234 } }, passAt 0] =
      [[Ev.bufferpoolGetSmallBuffer, Ev.poll, Ev.recvfrom, Ev.bufferpoolReuseBuffer [],
        Ev.LOGW]] ∧
    netfilterGetPacket true 5 { receivedSample with nlmsg_type := 0x0301 } [] = (-1, [], []) ∧
    (loopPass 5 { passAt 0 with received := { receivedSample with nlmsg_type := 0x0301 } }).2 =
      Next.again := by
  decide

end Capture
